import Mathlib

/-!
# LEACH routing protocol with deadline-aware aggregation: embedding and properties

Shallow embedding of `src/model/leach-routing-protocol.cc` (class
`ns3::leach::RoutingProtocol`).

Conventions of the embedding

* `ns3::Time` is the integer number of nanoseconds of the simulator clock
  (`Time := Int`).  `Seconds x` converts a number of seconds to that clock.
* A C++ `double` is the rational number it stands for.  The election threshold of
  `PeriodicUpdate` and the squared distance of `RecvLeach` are computed as the code
  computes them, every operation rounded to binary64 (`binary64`); in the flush
  policies the quotients passed to `Seconds` are exact.
* A packet is its identifier together with its bytes (`List Nat`).
* The queue (`leach-packet-queue`), the routing table (`leach-rtable`) and the
  control header (`leach-packet`) are not part of `src/`; the operations the
  routing protocol calls on them are modelled from the specification and are
  marked as such.
* Counters whose declaration lives in the absent class header (`m_dropped`,
  `Round`) are natural numbers.
-/

namespace Leach

/-! ## Clock, addresses, packets -/

/-- The ns-3 simulator clock: an integer number of nanoseconds. -/
abbrev Time := Int

/-- Conversion `ns3::Seconds (double)`: seconds to clock ticks (nanoseconds). -/
def Seconds (x : ℚ) : Time := ⌊x * 1000000000⌋

/-- Conversion `Time::ToInteger (Time::MS)`: clock ticks to whole milliseconds
(integer division, truncating). -/
def ToIntegerMS (t : Time) : Int := Int.tdiv t 1000000

/-- An IPv4 address, as its 32-bit value. -/
abbrev Ipv4Address := Nat

/-- The address `Ipv4Address ("10.1.1.1")` assigned to `m_sinkAddress` in `Start`. -/
def sinkAddressConst : Ipv4Address := 167837953

/-- The address `Ipv4Address ("255.255.255.255")`, the marker of a head advertisement. -/
def broadcastMarker : Ipv4Address := 4294967295

/-- The default-constructed `Ipv4Address ()` of ns-3 (102.102.102.102). -/
def unsetAddress : Ipv4Address := 1717986918

/-- The ns-3 `Vector` (three coordinates). -/
structure Vector3D where
  x : ℚ
  y : ℚ
  z : ℚ

/-- The fields of `Ipv4Header` the protocol reads. -/
structure Ipv4Header where
  source : Ipv4Address
  destination : Ipv4Address
  fragmentOffset : Nat
  ttl : Nat

/-- An `ns3::Packet`: its identifier (`GetUid`) and its bytes. -/
structure Packet where
  uid : Nat
  bytes : List Nat

/-- Method `Packet::GetSize`. -/
def Packet.GetSize (p : Packet) : Nat := p.bytes.length

/-- Method `Packet::AddAtEnd`: the bytes of `q` are appended; the identifier is kept. -/
def Packet.AddAtEnd (p q : Packet) : Packet := { p with bytes := p.bytes ++ q.bytes }

/-- Method `Packet::RemoveAtStart`: the first `n` bytes are removed. -/
def Packet.RemoveAtStart (p : Packet) (n : Nat) : Packet := { p with bytes := p.bytes.drop n }

/-- Serialized size of the `UdpHeader` removed from the fragment with offset 0. -/
def udpHeaderSize : Nat := 8

/-! ## Arithmetic of `double` -/

/-- The number of binary digits of `n` (0 for 0); `fuel` bounds the number of halvings
and `n` itself is always enough. -/
def binary64.bitLength : Nat → Nat → Nat
  | 0, _ => 0
  | fuel + 1, n => if n = 0 then 0 else binary64.bitLength fuel (n / 2) + 1

/-- The exponent of the leading binary digit of the positive rational `n/d`: the integer
`top` with `2^top <= n/d < 2^(top+1)`. -/
def binary64.top (n d : Nat) : Int :=
  let k : Int := (binary64.bitLength n n : Int) - (binary64.bitLength d d : Int)
  if d * 2 ^ k.toNat ≤ n * 2 ^ (-k).toNat then k else k - 1

/-- The exponent of the last binary digit a binary64 value near `n/d` keeps: 52 places
below the leading digit (a significand of 53 bits), and not less than -1074 (gradual
underflow). -/
def binary64.exponent (n d : Nat) : Int := max (binary64.top n d - 52) (-1074)

/-- The integer nearest to `n/d` counted in units of `2^e`, ties to the even one. -/
def binary64.significand (n d : Nat) (e : Int) : Nat :=
  let num := n * 2 ^ (-e).toNat
  let den := d * 2 ^ e.toNat
  let m0 := num / den
  let r := num % den
  if 2 * r < den then m0
  else if den < 2 * r then m0 + 1
  else if m0 % 2 = 0 then m0 else m0 + 1

/-- The binary64 value nearest to the positive rational `n/d`, ties to the even
significand (IEEE 754 round-to-nearest-even). -/
def binary64.roundPos (n d : Nat) : ℚ :=
  let e := binary64.exponent n d
  ((binary64.significand n d e * 2 ^ e.toNat : Nat) : ℚ) / ((2 ^ (-e).toNat : Nat) : ℚ)

/-- The result a binary64 operation returns when its exact result is `x`: the binary64
value nearest to `x`, ties to even.  Overflow is not part of the model: a result of
magnitude `2^1024` or more keeps its rounded finite value where the machine returns an
infinity. -/
def binary64 (x : ℚ) : ℚ :=
  if x = 0 then 0
  else if x < 0 then - binary64.roundPos x.num.natAbs x.den
  else binary64.roundPos x.num.natAbs x.den

/-- The sum `a + b` of two `double`s. -/
def dadd (a b : ℚ) : ℚ := binary64 (a + b)

/-- The difference `a - b` of two `double`s. -/
def dsub (a b : ℚ) : ℚ := binary64 (a - b)

/-- The product `a * b` of two `double`s. -/
def dmul (a b : ℚ) : ℚ := binary64 (a * b)

/-- The quotient `a / b` of two `double`s (`b` not zero). -/
def ddiv (a b : ℚ) : ℚ := binary64 (a / b)

/-! ## Control header (absent from `src/`) -/

/-- Modelled from the spec: the control header of `leach-packet` (not in `src/`): a
position (head advertisement), a node identity (join) and a deadline timestamp
(data frame). -/
structure LeachHeader where
  position : Vector3D
  address : Ipv4Address
  deadline : Time

/-- Modelled from the spec: the wire format of `LeachHeader` (`leach-packet.cc` is not in
`src/`): its fixed serialized size and the two directions of the codec.  It is a
parameter of the reassembly functions. -/
structure LeachWire where
  GetSerializedSize : Nat
  Serialize : LeachHeader → List Nat
  Deserialize : List Nat → LeachHeader

/-- Method `Packet::RemoveHeader (LeachHeader&)`: decodes the header from the front of
the packet and removes its bytes. -/
def Packet.RemoveLeachHeader (w : LeachWire) (p : Packet) : LeachHeader × Packet :=
  (w.Deserialize (p.bytes.take w.GetSerializedSize),
   { p with bytes := p.bytes.drop w.GetSerializedSize })

/-- Method `Packet::AddHeader (LeachHeader)`: the serialized header is put in front. -/
def Packet.AddLeachHeader (w : LeachWire) (h : LeachHeader) (p : Packet) : Packet :=
  { p with bytes := w.Serialize h ++ p.bytes }

/-! ## Aggregation queue (absent from `src/`) -/

/-- Modelled from the spec: a `QueueEntry` of `leach-packet-queue` (not in `src/`):
payload, destination header and deadline. -/
structure QueueEntry where
  packet : Packet
  header : Ipv4Header
  deadline : Time

/-- Modelled from the spec: the constructor `QueueEntry (packet, header)` of
`leach-packet-queue` (not in `src/`); the deadline is the one carried by the control
header at the front of the packet. -/
def QueueEntry.ofPacket (w : LeachWire) (pa : Packet) (h : Ipv4Header) : QueueEntry :=
  { packet := pa, header := h,
    deadline := (w.Deserialize (pa.bytes.take w.GetSerializedSize)).deadline }

/-- Modelled from the spec: `PacketQueue::Enqueue` of `leach-packet-queue` (not in
`src/`) appends the entry to the insertion-ordered queue. -/
def PacketQueue.Enqueue (q : List QueueEntry) (e : QueueEntry) : List QueueEntry := q ++ [e]

/-- Modelled from the spec: `PacketQueue::Drop (idx)` of `leach-packet-queue` (not in
`src/`) is the indexed removal. -/
def PacketQueue.Drop (q : List QueueEntry) (idx : Nat) : List QueueEntry := q.eraseIdx idx

/-- Modelled from the spec: `PacketQueue::Dequeue (dst, entry)` of `leach-packet-queue`
(not in `src/`): removes the first entry whose destination is `dst` and hands it out;
`none` stands for the return value `false` (no such entry, queue untouched). -/
def PacketQueue.Dequeue (dst : Ipv4Address) :
    List QueueEntry → Option (QueueEntry × List QueueEntry)
  | [] => none
  | e :: q =>
    if e.header.destination = dst then some (e, q)
    else match PacketQueue.Dequeue dst q with
      | some (t, q1) => some (t, e :: q1)
      | none => none

/-! ## Routing table (absent from `src/`) -/

/-- Modelled from the spec: a `RoutingTableEntry` of `leach-rtable` (not in `src/`). -/
structure RoutingTableEntry where
  destination : Ipv4Address
  nextHop : Ipv4Address
  iface : Ipv4Address
  flagValid : Bool
  seqNo : Nat
  hopCount : Nat

/-- Modelled from the spec: the default-constructed entry, also the result of
`RoutingTableEntry::Reset`. -/
def RoutingTableEntry.blank : RoutingTableEntry :=
  { destination := unsetAddress, nextHop := unsetAddress, iface := unsetAddress,
    flagValid := true, seqNo := 0, hopCount := 0 }

/-- Modelled from the spec: `RoutingTable::DeleteRoute (dst)` of `leach-rtable` (not in
`src/`) removes the entry of `dst` if present. -/
def RoutingTable.DeleteRoute (t : List RoutingTableEntry) (dst : Ipv4Address) :
    List RoutingTableEntry :=
  t.filter (fun e => decide (e.destination ≠ dst))

/-- Modelled from the spec: `RoutingTable::AddRoute (entry)` of `leach-rtable` (not in
`src/`) inserts or overwrites the entry of `entry.destination`. -/
def RoutingTable.AddRoute (t : List RoutingTableEntry) (e : RoutingTableEntry) :
    List RoutingTableEntry :=
  RoutingTable.DeleteRoute t e.destination ++ [e]

/-- Modelled from the spec: `RoutingTable::LookupRoute (dst)` of `leach-rtable` (not in
`src/`) returns the valid entry of `dst`, if any. -/
def RoutingTable.LookupRoute (t : List RoutingTableEntry) (dst : Ipv4Address) :
    Option RoutingTableEntry :=
  t.find? (fun e => decide (e.destination = dst) && e.flagValid)

/-- Modelled from the spec: `RoutingTable::LookupRoute (dst, rt, forRouteInput)` of
`leach-rtable` (not in `src/`) with the flag that asks for invalid entries too (the call
of `RouteInput` for broadcast destinations). -/
def RoutingTable.LookupRouteWithInvalid (t : List RoutingTableEntry) (dst : Ipv4Address)
    (forRouteInput : Bool) : Option RoutingTableEntry :=
  t.find? (fun e => decide (e.destination = dst) && (e.flagValid || forRouteInput))

/-- The fields of `Ipv4InterfaceAddress` the protocol reads. -/
structure Ipv4InterfaceAddress where
  local_ : Ipv4Address
  broadcast : Ipv4Address

/-- One element of `m_socketAddresses`: the interface the socket is bound to (an
interface and its net device are identified by the interface index) and its address. -/
structure SocketEntry where
  interface : Nat
  iface : Ipv4InterfaceAddress

/-- The loopback device `m_lo` (`m_ipv4->GetNetDevice (0)`). -/
def m_lo : Nat := 0

/-- The address `Ipv4Address ("127.0.0.1")`. -/
def loopbackAddress : Ipv4Address := 2130706433

/-- An `Ipv4Route`. -/
structure Ipv4Route where
  destination : Ipv4Address
  source : Ipv4Address
  gateway : Ipv4Address
  outputDevice : Nat

/-- The values of `Socket::SocketErrno` the protocol uses. -/
inductive SocketErrno where
  | ERROR_NOTERROR
  | ERROR_NOROUTETOHOST
  deriving DecidableEq

/-- One element of `DeferredQueue` (`struct DeferredPack`); the callback is represented
by its handle. -/
structure DeferredPack where
  ucb : Nat
  rt : Ipv4Route
  p : Packet
  header : Ipv4Header

/-- The timers and delayed calls the protocol arms. -/
inductive Timer where
  | periodicUpdate
  | broadcastClusterHead
  | respondToClusterHead
  | autoDequeueNoDA
  deriving DecidableEq

/-- What a method hands to its collaborators: a call of one of the callbacks of
`RouteInput` (represented by its handle), a packet sent on the control socket, or a
call armed on the scheduler after a delay. -/
inductive Action where
  | unicastForward (ucb : Nat) (route : Ipv4Route) (p : Packet) (header : Ipv4Header)
  | localDeliver (lcb : Nat) (p : Packet) (header : Ipv4Header) (iif : Nat)
  | error (ecb : Nat) (p : Packet) (header : Ipv4Header) (err : SocketErrno)
  | sendTo (destination : Ipv4Address) (port : Nat) (leachHeader : LeachHeader)
  | schedule (delay : Time) (timer : Timer)

/-! ## Protocol state -/

/-- One node of the chained table `m_hash` (`struct hash`): identifier and buffer. -/
structure HashNode where
  uid : Nat
  p : Packet

/-- One record of `timeline` (`struct msmt`). -/
structure msmt where
  begin : Time
  end_ : Time

/-- The member variables of `RoutingProtocol` read or written by the embedded methods.
`uidCounter` is the packet identifier allocator of ns-3 (used by `new Packet (16)`). -/
structure RoutingProtocol where
  Round : Nat
  isSink : Bool
  valid : Bool
  cluster_head_this_round : Bool
  m_dropped : Nat
  m_lambda : ℚ
  m_dist : ℚ
  m_position : Vector3D
  m_mainAddress : Ipv4Address
  m_sinkAddress : Ipv4Address
  m_targetAddress : Ipv4Address
  m_bestRoute : RoutingTableEntry
  m_clusterMember : List Ipv4Address
  m_routingTable : List RoutingTableEntry
  m_queue : List QueueEntry
  m_hash : Nat → List HashNode
  timeline : List msmt
  tx_time : List Time
  uidCounter : Nat
  m_socketAddresses : List SocketEntry
  DeferredQueue : List DeferredPack

/-- The state built by the constructor `RoutingProtocol::RoutingProtocol ()` followed by
`Start` on a node whose main address is `addr` on interface 1 of the network
10.1.1.0/24 (members the constructor leaves uninitialised are given the value
`false`, addresses the unset address). -/
def RoutingProtocol.init (addr : Ipv4Address) : RoutingProtocol :=
  { Round := 0, isSink := decide (addr = sinkAddressConst), valid := false,
    cluster_head_this_round := false, m_dropped := 0, m_lambda := 4,
    m_dist := 0, m_position := { x := 0, y := 0, z := 0 },
    m_mainAddress := addr, m_sinkAddress := sinkAddressConst,
    m_targetAddress := unsetAddress, m_bestRoute := RoutingTableEntry.blank,
    m_clusterMember := [], m_routingTable := [], m_queue := [],
    m_hash := fun _ => [], timeline := [], tx_time := [], uidCounter := 0,
    m_socketAddresses :=
      [{ interface := 1, iface := { local_ := addr, broadcast := 167838207 } }],
    DeferredQueue := [] }

/-! ## Flush policies -/

/-- The expiry loop at the start of `Proposal` and of `ControlLimit`
(`for (int i=0; i<(int)m_queue.GetSize(); i++)`): an entry whose deadline is earlier
than `now` is dropped and counted and the index stays where it is (`i--` followed by
the `i++` of the loop); otherwise the index advances.  The result is the queue and
the drop counter at loop exit. -/
def expireLoop (now : Time) (i : Nat) (q : List QueueEntry) (dropped : Nat) :
    List QueueEntry × Nat :=
  if h : i < q.length then
    if (q.get ⟨i, h⟩).deadline < now then
      expireLoop now i (PacketQueue.Drop q i) (dropped + 1)
    else
      expireLoop now (i + 1) q dropped
  else (q, dropped)
termination_by q.length - i
decreasing_by
  · simp only [PacketQueue.Drop, List.length_eraseIdx, h, if_true]
    omega
  · omega

/-- The loop `while (m_queue.Dequeue (m_sinkAddress, temp)) p->AddAtEnd (temp.GetPacket ())`
shared by the three policies: the result is the queue and the outgoing packet at loop
exit. -/
def flushLoop (dst : Ipv4Address) (q : List QueueEntry) (p : Packet) :
    List QueueEntry × Packet :=
  match h : PacketQueue.Dequeue dst q with
  | some (temp, q1) => flushLoop dst q1 (p.AddAtEnd temp.packet)
  | none => (q, p)
termination_by q.length
decreasing_by
  have key : ∀ (l : List QueueEntry) (a : QueueEntry) (r : List QueueEntry),
      PacketQueue.Dequeue dst l = some (a, r) → r.length < l.length := by
    intro l
    induction l with
    | nil => intro a r hl; simp [PacketQueue.Dequeue] at hl
    | cons e l ih =>
      intro a r hl
      simp only [PacketQueue.Dequeue] at hl
      split at hl
      · simp only [Option.some.injEq, Prod.mk.injEq] at hl
        rw [← hl.2]; simp
      · split at hl
        · rename_i t q1 hq
          simp only [Option.some.injEq, Prod.mk.injEq] at hl
          rw [← hl.2]
          have := ih t q1 hq
          simp only [List.length_cons]; omega
        · simp at hl
  exact key _ _ _ h

/-- The counting loop of `Proposal` (`for (uint32_t i=0; i<m_queue.GetSize (); i++)`):
the number of entries whose deadline is earlier than `deadLine`. -/
def urgentCount (deadLine : Time) (q : List QueueEntry) : Nat :=
  q.foldl (fun expired e => if e.deadline < deadLine then expired + 1 else expired) 0

/-- The local `deadLine` of `Proposal`: `Now () + Seconds (size / m_lambda)`, plus
`Seconds (0.064 + 1.0 / m_lambda)` when the node is not head this round. -/
def Proposal.deadLine (s : RoutingProtocol) (now : Time) : Time :=
  let deadLine := now + Seconds ((s.m_queue.length : ℚ) / s.m_lambda)
  if !s.cluster_head_this_round then deadLine + Seconds (0.064 + 1.0 / s.m_lambda)
  else deadLine

/-- The local `expected` of `Proposal`. -/
def Proposal.expected (s : RoutingProtocol) : Nat :=
  if s.cluster_head_this_round then 1 + s.m_clusterMember.length else 1

/-- Method `RoutingProtocol::Proposal (p)` run at clock value `now`: the returned
boolean, the state and the outgoing packet after the call. -/
def Proposal (s : RoutingProtocol) (now : Time) (p : Packet) :
    Bool × RoutingProtocol × Packet :=
  let deadLine := Proposal.deadLine s now
  let swept := expireLoop now 0 s.m_queue s.m_dropped
  let expired := urgentCount deadLine swept.1
  let expected := Proposal.expected s
  if expired ≥ expected ∨ now > Seconds 48.5 then
    let merged := flushLoop s.m_sinkAddress swept.1 p
    (true, { s with m_queue := merged.1, m_dropped := swept.2 }, merged.2)
  else
    (false, { s with m_queue := swept.1, m_dropped := swept.2 }, p)

/-- Method `RoutingProtocol::ControlLimit (p)` run at clock value `now`.  `threshold` is
the value of the function-local `static uint32_t threshold`. -/
def ControlLimit (threshold : Nat) (s : RoutingProtocol) (now : Time) (p : Packet) :
    Bool × RoutingProtocol × Packet :=
  let swept := expireLoop now 0 s.m_queue s.m_dropped
  if swept.1.length ≥ threshold ∨ now > Seconds 48.5 then
    let merged := flushLoop s.m_sinkAddress swept.1 p
    (true, { s with m_queue := merged.1, m_dropped := swept.2 }, merged.2)
  else
    (false, { s with m_queue := swept.1, m_dropped := swept.2 }, p)

/-- The initialiser of the `static uint32_t threshold` of `ControlLimit`:
`(1/(log(1/0.1)*(log(1/0.1)+m_lambda)))+2` converted to an unsigned integer.  The
natural logarithm has no executable counterpart, hence the definition over the reals. -/
noncomputable def ControlLimit.thresholdInit (lambda : ℝ) : Nat :=
  ⌊1 / (Real.log (1 / 0.1) * (Real.log (1 / 0.1) + lambda)) + 2⌋₊

/-- The function `max (double, double)` defined at the top of the source file. -/
def dmax (a b : ℚ) : ℚ := if a > b then a else b

/-- First inner loop of `OptTM` for one step: every queued entry whose deadline is not
earlier than `time` adds its slack in milliseconds to the 32-bit reward. -/
def OptTM.slackSum (time : Time) (q : List QueueEntry) (r0 : Nat) : Nat :=
  q.foldl (fun r e =>
    if e.deadline ≥ time then
      Int.toNat (((r : Int) + (ToIntegerMS e.deadline - ToIntegerMS time)) % 4294967296)
    else r) r0

/-- The term `(j<8) ? 30000-j*4000 : 0` of `OptTM`. -/
def OptTM.bonus (j : Nat) : Nat := if j < 8 then 30000 - j * 4000 else 0

/-- Second inner loop of `OptTM` (`for (int j=1; j<bound; j++)` with
`bound = i+step`), on the 32-bit reward. -/
def OptTM.bonusSum (bound : Nat) (r0 : Nat) : Nat :=
  (List.range' 1 (bound - 1)).foldl (fun r j => (r + OptTM.bonus j) % 4294967296) r0

/-- The outer loop of `OptTM` filling `rewards[i]`, `rewards[i+1]`, ... (`n` entries),
`time` being advanced by `Seconds (1/m_lambda)` after each step. -/
def OptTM.rewardsFrom (q : List QueueEntry) (lambda : ℚ) (step : Nat) :
    Nat → Nat → Time → List Nat
  | 0, _, _ => []
  | n + 1, i, time =>
    OptTM.bonusSum (i + step) (OptTM.slackSum time q 0)
      :: OptTM.rewardsFrom q lambda step n (i + 1) (time + Seconds (1 / lambda))

/-- The loop of `OptTM` computing `maxR`. -/
def OptTM.maxReward (rewards : List Nat) : Nat :=
  rewards.foldl (fun maxR r => if r > maxR then r else maxR) 0

/-- The arrays `rb`, `rn` of `OptTM` for the outer index `i`: the value at `d` is the
pair `(rb[99-d], rn[99-d])`, filled from `rb[99] = 1.0`, `rn[99] = 0.0` downwards. -/
def OptTM.rbrn (rewards : List Nat) (i : Nat) : Nat → ℚ × ℚ
  | 0 => (1, 0)
  | d + 1 =>
    let prev := OptTM.rbrn rewards i d
    let k := 98 - d
    let rn := dmax 0 ((i : ℚ) * prev.2 / ((k : ℚ) + 1) + prev.1 / ((k : ℚ) + 1))
    (dmax (rewards.getD k 0 : ℚ) rn, rn)

/-- The value given to `actions[i]` (for `i` from 98 down to 0) by `OptTM`:
wait = 1, transmit = 2. -/
def OptTM.action (rewards : List Nat) (maxR : Nat) (i : Nat) : Nat :=
  if rewards.getD i 0 < maxR then 1
  else if rewards.getD i 0 ≥ ⌊(OptTM.rbrn rewards i (98 - i)).1⌋₊ then 2
  else 1

/-- The array `actions` at the end of the backward loop of `OptTM` (`actions[99]`
keeps its initial 0). -/
def OptTM.actions (rewards : List Nat) (maxR : Nat) : List Nat :=
  (List.range 99).map (OptTM.action rewards maxR) ++ [0]

/-- The value of `actions[0]` computed by `OptTM` from the queue, the clock, the
generation rate and the invocation counter. -/
def OptTM.action0 (q : List QueueEntry) (lambda : ℚ) (now : Time) (step : Nat) : Nat :=
  let rewards := OptTM.rewardsFrom q lambda step 100 0 now
  (OptTM.actions rewards (OptTM.maxReward rewards)).getD 0 0

/-- Method `RoutingProtocol::OptTM (p)` run at clock value `now`.  `step` is the value of
the function-local `static int step` on entry; the last component of the result is
its value on exit. -/
def OptTM (s : RoutingProtocol) (now : Time) (step : Nat) (p : Packet) :
    Bool × RoutingProtocol × Packet × Nat :=
  if OptTM.action0 s.m_queue s.m_lambda now step > 1 ∨ now > Seconds 48.5 then
    let merged := flushLoop s.m_sinkAddress s.m_queue p
    (true, { s with m_queue := merged.1 }, merged.2, step + 1)
  else
    (false, s, p, step + 1)


/-! ## Reassembly -/

/-- The chain walk `while (now != NULL) { if (now->uid == uid) break; now = now->next; }`
of `EnqueuePacket` and `DeAggregate`: the first node of the chain with that identifier. -/
def chainFind (uid : Nat) : List HashNode → Option HashNode
  | [] => none
  | n :: rest => if n.uid = uid then some n else chainFind uid rest

/-- The assignment `now->p = inp` on the first node of the chain with identifier `uid`;
`none` when the walk ends on `NULL`. -/
def chainSet (uid : Nat) (inp : Packet) : List HashNode → Option (List HashNode)
  | [] => none
  | n :: rest =>
    if n.uid = uid then some ({ n with p := inp } :: rest)
    else match chainSet uid inp rest with
      | some rest1 => some (n :: rest1)
      | none => none

/-- The tail of `DeAggregate`: the buffer is stored on the node of its identifier, a new
node being linked at the head of the chain when there is none. -/
def chainStore (uid : Nat) (inp : Packet) (chain : List HashNode) : List HashNode :=
  match chainSet uid inp chain with
  | some chain1 => chain1
  | none => { uid := uid, p := inp } :: chain

/-- Method `RoutingProtocol::DeAggregate (in, out, lhdr)`.  The first component is the
pair `(out, lhdr)` when the method returns `true` and `none` when it returns `false`;
the second is the packet `in` after the call; the third is the state after the call. -/
def DeAggregate (w : LeachWire) (s : RoutingProtocol) (inp : Packet) :
    Option (Packet × LeachHeader) × Packet × RoutingProtocol :=
  if inp.GetSize ≥ 56 then
    let removed := inp.RemoveLeachHeader w
    let leachHeader := removed.1
    let in2 := removed.2.RemoveAtStart 16
    let out := Packet.AddLeachHeader w leachHeader
      { uid := s.uidCounter, bytes := List.replicate 16 0 }
    (some (out, leachHeader), in2, { s with uidCounter := s.uidCounter + 1 })
  else
    let slot := inp.uid % 1021
    (none, inp,
      { s with m_hash := Function.update s.m_hash slot (chainStore inp.uid inp (s.m_hash slot)) })

/-- The loop `while (DeAggregate (p, out, leachHeader))` of `EnqueuePacket`, run at clock
value `now` for the fragment header `header`: every yielded frame is enqueued and its
(start, deadline) pair is recorded in `timeline`. -/
def enqueueLoop (w : LeachWire) (now : Time) (header : Ipv4Header)
    (s : RoutingProtocol) (p : Packet) : RoutingProtocol :=
  match h : DeAggregate w s p with
  | (some (out, leachHeader), p1, s1) =>
    enqueueLoop w now header
      { s1 with
        m_queue := PacketQueue.Enqueue s1.m_queue (QueueEntry.ofPacket w out header),
        timeline := s1.timeline ++ [{ begin := now, end_ := leachHeader.deadline }] }
      p1
  | (none, _, s1) => s1
termination_by p.bytes.length
decreasing_by
  unfold DeAggregate at h
  split at h
  · rename_i hsz
    simp only [Prod.mk.injEq] at h
    rw [← h.2.1]
    simp only [Packet.GetSize] at hsz
    simp only [Packet.RemoveAtStart, Packet.RemoveLeachHeader, List.length_drop]
    omega
  · simp at h

/-- Method `RoutingProtocol::EnqueuePacket (p, header)` run at clock value `now`.  When a
buffer is already stored under the identifier, the fragment is appended to it and the
stored buffer (the same object) is what the loop consumes. -/
def EnqueuePacket (w : LeachWire) (s : RoutingProtocol) (now : Time) (p : Packet)
    (header : Ipv4Header) : RoutingProtocol :=
  let slot := p.uid % 1021
  let p1 := if header.fragmentOffset = 0 then p.RemoveAtStart udpHeaderSize else p
  match chainFind p.uid (s.m_hash slot) with
  | some node =>
    let merged := node.p.AddAtEnd p1
    enqueueLoop w now header
      { s with m_hash := Function.update s.m_hash slot (chainStore p.uid merged (s.m_hash slot)) }
      merged
  | none => enqueueLoop w now header s p1

/-! ## Election -/

/-- The election threshold `t = p/(1-p*(Round%n))` of `PeriodicUpdate`, `n = 10`,
`p = 1.0/n`, computed in `double`: the quotient `1.0/n`, the product, the difference
and the final quotient are each rounded to binary64. -/
def PeriodicUpdate.threshold (round : Nat) : ℚ :=
  let n : Nat := 10
  let p : ℚ := ddiv 1.0 (n : ℚ)
  ddiv p (dsub 1 (dmul p ((round % n : Nat) : ℚ)))

/-- The part of `PeriodicUpdate` that precedes the test of the draw: stale routes are
deleted, eligibility is restored when `Round%n == 0`, the round counter advances and
the per-round variables are reset.  The best distance is reset to `1e100`, kept here as
`10^100`: no binary64 value lies between `10^100` and the `double` of that literal
(`binary64_sentinel`), so every comparison `dist < m_dist` has the outcome it has in the
source. -/
def PeriodicUpdate.prepare (s : RoutingProtocol) : RoutingProtocol :=
  let n : Nat := 10
  let table := RoutingTable.DeleteRoute
    (RoutingTable.DeleteRoute s.m_routingTable s.m_targetAddress) s.m_sinkAddress
  { s with
    m_routingTable := table,
    valid := if s.Round % n = 0 then true else s.valid,
    Round := s.Round + 1,
    m_dist := 1e100,
    cluster_head_this_round := false,
    m_clusterMember := [],
    m_bestRoute := RoutingTableEntry.blank,
    m_targetAddress := unsetAddress }

/-- Method `RoutingProtocol::PeriodicUpdate ()` with the value `prob` drawn from the
uniform random variable: the state after the tick (the timers it arms are not part of
the state). -/
def PeriodicUpdate (s : RoutingProtocol) (prob : ℚ) : RoutingProtocol :=
  let t := PeriodicUpdate.threshold s.Round
  let s1 := PeriodicUpdate.prepare s
  if prob < t ∧ s1.valid = true then
    { s1 with valid := false, cluster_head_this_round := true,
              m_targetAddress := s1.m_sinkAddress }
  else s1

/-- Method `RoutingProtocol::RecvLeach (socket)` for a control message received from
`sender` on the interface whose local address is `receiver`, `leachHeader` being the
header removed from the packet.  The differences, the two squares and their sum are
computed in `double`, each rounded to binary64. -/
def RecvLeach (s : RoutingProtocol) (sender receiver : Ipv4Address)
    (leachHeader : LeachHeader) : RoutingProtocol :=
  if s.isSink then s
  else if leachHeader.address = broadcastMarker then
    let newEntry : RoutingTableEntry :=
      { destination := s.m_sinkAddress, nextHop := sender, iface := receiver,
        flagValid := true, seqNo := 0, hopCount := 0 }
    let senderPosition := leachHeader.position
    let dx := dsub senderPosition.x s.m_position.x
    let dy := dsub senderPosition.y s.m_position.y
    let dist := dadd (dmul dx dx) (dmul dy dy)
    if dist < s.m_dist then
      { s with m_dist := dist, m_targetAddress := sender, m_bestRoute := newEntry }
    else s
  else
    { s with m_clusterMember := s.m_clusterMember ++ [leachHeader.address] }

/-- An event delivered to a node by the scheduler: a periodic tick with its random draw,
or the reception of a control message. -/
inductive Event where
  | tick (prob : ℚ)
  | recv (sender receiver : Ipv4Address) (leachHeader : LeachHeader)

/-- The state after one event. -/
def Event.apply (s : RoutingProtocol) : Event → RoutingProtocol
  | Event.tick prob => PeriodicUpdate s prob
  | Event.recv sender receiver h => RecvLeach s sender receiver h

/-- The state after a sequence of events. -/
def runEvents (s : RoutingProtocol) (es : List Event) : RoutingProtocol :=
  es.foldl Event.apply s

/-- The number of periodic ticks in a sequence of events. -/
def tickCount : List Event → Nat
  | [] => 0
  | Event.tick _ :: es => tickCount es + 1
  | Event.recv _ _ _ :: es => tickCount es

/-- The number of ticks of a run in which the node becomes cluster head. -/
def headCount (s : RoutingProtocol) : List Event → Nat
  | [] => 0
  | Event.tick prob :: es =>
    (if (PeriodicUpdate s prob).cluster_head_this_round then 1 else 0)
      + headCount (PeriodicUpdate s prob) es
  | Event.recv sender receiver h :: es => headCount (RecvLeach s sender receiver h) es


/-! ## Selection of the policy -/

/-- The build-time selection of the aggregation policy (`#define DA_PROP`, `DA_OPT`,
`DA_CL`, `DA_SF`, or none of them). -/
inductive Policy where
  | DA_PROP
  | DA_OPT
  | DA_CL
  | DA_SF
  | unset
  deriving DecidableEq

/-- The function-local statics of the policies: the invocation counter `step` of `OptTM`
and the `threshold` of `ControlLimit` (the value given by its initialiser on the first
call). -/
structure Statics where
  step : Nat
  threshold : Nat

/-- Method `RoutingProtocol::SelectiveForwarding (p)`. -/
def SelectiveForwarding (_p : Packet) : Bool := false

/-- Method `RoutingProtocol::DataAggregation (p)` run at clock value `now` in a build
with the given policy. -/
def DataAggregation (policy : Policy) (st : Statics) (s : RoutingProtocol) (now : Time)
    (p : Packet) : Bool × RoutingProtocol × Packet × Statics :=
  match policy with
  | Policy.DA_PROP =>
    let r := Proposal s now p
    (r.1, r.2.1, r.2.2, st)
  | Policy.DA_OPT =>
    let r := OptTM s now st.step p
    (r.1, r.2.1, r.2.2.1, { st with step := r.2.2.2 })
  | Policy.DA_CL =>
    let r := ControlLimit st.threshold s now p
    (r.1, r.2.1, r.2.2, st)
  | Policy.DA_SF => (SelectiveForwarding p, s, p, st)
  | Policy.unset => (true, s, p, st)

/-- The queue a flush of the given policy takes its entries from: the swept queue for
`Proposal` and `ControlLimit`, the queue as it stands for `OptTM`. -/
def queueAtFlush (policy : Policy) (s : RoutingProtocol) (now : Time) : List QueueEntry :=
  match policy with
  | Policy.DA_OPT => s.m_queue
  | _ => s.m_queue.filter (fun e => decide (now ≤ e.deadline))

/-! ## Control plane: join, broadcast, start -/

/-- The constant `RoutingProtocol::LEACH_PORT`. -/
def LEACH_PORT : Nat := 269

/-- Conversion `ns3::MilliSeconds`. -/
def MilliSeconds (n : Int) : Time := n * 1000000

/-- Conversion `ns3::MicroSeconds`. -/
def MicroSeconds (n : Int) : Time := n * 1000

/-- Modelled from the spec: the default-constructed `LeachHeader` of `leach-packet` (not
in `src/`); its address is the broadcast marker, so that a header on which only the
position is set is a head advertisement. -/
def LeachHeader.blank : LeachHeader :=
  { position := { x := 0, y := 0, z := 0 }, address := broadcastMarker, deadline := 0 }

/-- The interface index (and net device) of the LEACH interface whose local address is
`addr` (`m_ipv4->GetInterfaceForAddress`), the loopback when there is none. -/
def deviceOfAddress (s : RoutingProtocol) (addr : Ipv4Address) : Nat :=
  match s.m_socketAddresses.find? (fun j => decide (j.iface.local_ = addr)) with
  | some j => j.interface
  | none => m_lo

/-- Modelled from the spec: `RoutingTableEntry::GetRoute` of `leach-rtable` (not in
`src/`): the route of an entry goes to its destination through its next hop, from the
local address of its bound interface and out of the device of that interface. -/
def routeOf (s : RoutingProtocol) (e : RoutingTableEntry) : Ipv4Route :=
  { destination := e.destination, source := e.iface, gateway := e.nextHop,
    outputDevice := deviceOfAddress s e.iface }

/-- Method `RoutingProtocol::RespondToClusterHead ()`: the state after the call and the
packets sent.  `RoutingTableEntry::Copy` (not in `src/`) is modelled from the spec as an
independent copy, so that `newEntry` is the best route with its destination overwritten
by the best head and `entry2` is the best route itself. -/
def RespondToClusterHead (s : RoutingProtocol) : RoutingProtocol × List Action :=
  let ipv4 : Ipv4Address := unsetAddress
  if s.m_targetAddress ≠ ipv4 then
    let entry2 : RoutingTableEntry := s.m_bestRoute
    let newEntry : RoutingTableEntry := { s.m_bestRoute with destination := s.m_targetAddress }
    let table1 :=
      if s.m_bestRoute.iface ≠ ipv4 then RoutingTable.AddRoute s.m_routingTable entry2
      else s.m_routingTable
    let table2 :=
      if newEntry.iface ≠ ipv4 then RoutingTable.AddRoute table1 newEntry else table1
    let leachHeader : LeachHeader := { LeachHeader.blank with address := s.m_mainAddress }
    ({ s with m_routingTable := table2 },
     [Action.sendTo s.m_targetAddress LEACH_PORT leachHeader])
  else (s, [])

/-- Method `RoutingProtocol::SendBroadcast ()`: the advertisement carrying the node's
position is sent to 10.1.1.255 and a route to the sink through the sink is added. -/
def SendBroadcast (s : RoutingProtocol) : RoutingProtocol × List Action :=
  let destination : Ipv4Address := 167838207
  let leachHeader : LeachHeader := { LeachHeader.blank with position := s.m_position }
  let newEntry : RoutingTableEntry :=
    { destination := s.m_sinkAddress, nextHop := s.m_sinkAddress, iface := s.m_mainAddress,
      flagValid := true, seqNo := 0, hopCount := 0 }
  ({ s with m_routingTable := RoutingTable.AddRoute s.m_routingTable newEntry },
   [Action.sendTo destination LEACH_PORT leachHeader])

/-- Method `RoutingProtocol::Start ()`; `jitter` is the value drawn by
`GetInteger (10,1000)` for the first periodic tick. -/
def Start (s : RoutingProtocol) (jitter : Nat) : RoutingProtocol × List Action :=
  let s1 := { s with m_sinkAddress := sinkAddressConst }
  if s1.m_mainAddress = s1.m_sinkAddress then
    ({ s1 with isSink := true }, [])
  else
    ({ s1 with Round := 0 }, [Action.schedule (MicroSeconds jitter) Timer.periodicUpdate])

/-- The timers armed by `PeriodicUpdate`: the broadcast timer when the node becomes head,
the respond timer otherwise, and the next periodic tick in both cases.  `interval` is
`m_periodicUpdateInterval`; `jitter1`, `jitter2` are the values drawn by `GetInteger`. -/
def PeriodicUpdate.actions (s : RoutingProtocol) (prob : ℚ) (interval : Time)
    (jitter1 jitter2 : Nat) : List Action :=
  let t := PeriodicUpdate.threshold s.Round
  let s1 := PeriodicUpdate.prepare s
  if prob < t ∧ s1.valid = true then
    [Action.schedule (MicroSeconds jitter1) Timer.broadcastClusterHead,
     Action.schedule (interval + MicroSeconds jitter2) Timer.periodicUpdate]
  else
    [Action.schedule (MilliSeconds 100 + MicroSeconds jitter1) Timer.respondToClusterHead,
     Action.schedule (interval + MicroSeconds jitter2) Timer.periodicUpdate]

/-- A control message as `RecvLeach` sees it: the sender, the local address of the
receiving socket and the header removed from the packet. -/
structure ControlMsg where
  sender : Ipv4Address
  receiver : Ipv4Address
  leachHeader : LeachHeader

/-- The state after the control messages have been received one after the other. -/
def recvAll (s : RoutingProtocol) (msgs : List ControlMsg) : RoutingProtocol :=
  msgs.foldl (fun s m => RecvLeach s m.sender m.receiver m.leachHeader) s

/-- The squared Euclidean distance `dx*dx + dy*dy` between the position carried by a
message and the position `pos`, as `RecvLeach` computes it in `double`. -/
def advertDistance (pos : Vector3D) (m : ControlMsg) : ℚ :=
  dadd
    (dmul (dsub m.leachHeader.position.x pos.x) (dsub m.leachHeader.position.x pos.x))
    (dmul (dsub m.leachHeader.position.y pos.y) (dsub m.leachHeader.position.y pos.y))

/-- A best head is recorded in the state: the best head address is set, and the best
route is a valid route to the sink through it, bound to a configured interface. -/
def bestHeadRecorded (s : RoutingProtocol) : Prop :=
  s.m_targetAddress ≠ unsetAddress
  ∧ s.m_bestRoute.iface ≠ unsetAddress
  ∧ s.m_bestRoute.nextHop = s.m_targetAddress
  ∧ s.m_bestRoute.destination = s.m_sinkAddress
  ∧ s.m_bestRoute.flagValid = true


/-! ## Deferred packets -/

/-- Method `RoutingProtocol::EnqueueForNoDA (ucb, rt, p, header)`: the packet is put at
the end of `DeferredQueue` and `AutoDequeueNoDA` is armed 100 ms later. -/
def EnqueueForNoDA (s : RoutingProtocol) (ucb : Nat) (rt : Ipv4Route) (p : Packet)
    (header : Ipv4Header) : RoutingProtocol × List Action :=
  ({ s with DeferredQueue := s.DeferredQueue ++ [{ ucb := ucb, rt := rt, p := p, header := header }] },
   [Action.schedule (MilliSeconds 100) Timer.autoDequeueNoDA])

/-- The loop `while (DeferredQueue.size ())` of `AutoDequeueNoDA`: the front element is
handed to its callback and erased; the result is the queue and the calls made. -/
def autoDequeueLoop : List DeferredPack → List Action → List DeferredPack × List Action
  | [], calls => ([], calls)
  | tmp :: rest, calls =>
    autoDequeueLoop rest (calls ++ [Action.unicastForward tmp.ucb tmp.rt tmp.p tmp.header])

/-- Method `RoutingProtocol::AutoDequeueNoDA ()`. -/
def AutoDequeueNoDA (s : RoutingProtocol) : RoutingProtocol × List Action :=
  let r := autoDequeueLoop s.DeferredQueue []
  ({ s with DeferredQueue := r.1 }, r.2)

/-! ## Data plane: `RouteOutput` and `RouteInput` -/

/-- The build: whether `DA` is defined, and which policy macro is. -/
structure Build where
  DA : Bool
  policy : Policy

/-- The build of the source file as it stands: every macro is commented out. -/
def Build.asShipped : Build := { DA := false, policy := Policy.unset }

/-- What `RouteInput` asks the IPv4 stack (`m_ipv4`) about an interface. -/
structure Ipv4Env where
  IsForwarding : Nat → Bool
  IsDestinationAddress : Ipv4Address → Nat → Bool

/-- Method `Ipv4Address::IsMulticast` (224.0.0.0/4). -/
def IsMulticast (a : Ipv4Address) : Bool := decide (a / 268435456 = 14)

/-- Method `Ipv4Address::IsBroadcast` (255.255.255.255). -/
def IsBroadcast (a : Ipv4Address) : Bool := decide (a = 4294967295)

/-- Method `RoutingProtocol::LoopbackRoute (hdr, oif)`.  The source is the local address
of the first LEACH interface, or of the one on `oif` when an output device is given
(the unset address when there is none: the `NS_ASSERT_MSG` that follows is not part of
the result). -/
def LoopbackRoute (s : RoutingProtocol) (hdr : Ipv4Header) (oif : Option Nat) : Ipv4Route :=
  let source : Ipv4Address :=
    match oif with
    | some dev =>
      match s.m_socketAddresses.find? (fun j => decide (dev = j.interface)) with
      | some j => j.iface.local_
      | none => unsetAddress
    | none =>
      match s.m_socketAddresses.head? with
      | some j => j.iface.local_
      | none => unsetAddress
  { destination := hdr.destination, source := source, gateway := loopbackAddress,
    outputDevice := m_lo }

/-- The statements of `RouteOutput` run when a route `rt` to the destination is found:
the time of transmission and the (now, deadline of the frame header of the packet) pair
are recorded. -/
def RouteOutput.record (w : LeachWire) (s : RoutingProtocol) (now : Time) (p : Packet) :
    RoutingProtocol :=
  let hdr := (p.RemoveLeachHeader w).1
  { s with tx_time := s.tx_time ++ [now],
           timeline := s.timeline ++ [{ begin := now, end_ := hdr.deadline }] }

/-- Method `RoutingProtocol::RouteOutput (p, header, oif, sockerr)` run at clock value
`now`: the route returned (`none` for the null route), the value written to `sockerr`
(`none` when it is not written), the state, the packet and the statics after the
call. -/
def RouteOutput (build : Build) (w : LeachWire) (st : Statics) (s : RoutingProtocol)
    (now : Time) (p : Packet) (header : Ipv4Header) (oif : Option Nat) :
    Option Ipv4Route × Option SocketErrno × RoutingProtocol × Packet × Statics :=
  if s.m_socketAddresses.isEmpty then
    (none, some SocketErrno.ERROR_NOROUTETOHOST, s, p, st)
  else
    let dst := header.destination
    if build.DA then
      if p.GetSize % 56 = 0 then
        let r := DataAggregation build.policy st s now p
        if r.1 then
          match RoutingTable.LookupRoute r.2.1.m_routingTable dst with
          | some rt =>
            (some (routeOf r.2.1 rt), none, RouteOutput.record w r.2.1 now r.2.2.1, r.2.2.1,
              r.2.2.2)
          | none => (some (LoopbackRoute r.2.1 header oif), none, r.2.1, r.2.2.1, r.2.2.2)
        else (some (LoopbackRoute r.2.1 header oif), none, r.2.1, r.2.2.1, r.2.2.2)
      else
        match RoutingTable.LookupRoute s.m_routingTable dst with
        | some rt => (some (routeOf s rt), none, s, p, st)
        | none => (some (LoopbackRoute s header oif), none, s, p, st)
    else
      match RoutingTable.LookupRoute s.m_routingTable dst with
      | some rt => (some (routeOf s rt), none, RouteOutput.record w s now p, p, st)
      | none => (some (LoopbackRoute s header oif), none, s, p, st)

/-- The local delivery of `RouteInput`: the local-deliver callback when it is not null,
the error callback otherwise. -/
def RouteInput.deliver (p : Packet) (header : Ipv4Header) (iif : Nat) (lcb : Option Nat)
    (ecb : Nat) : List Action :=
  match lcb with
  | some l => [Action.localDeliver l p header iif]
  | none => [Action.error ecb p header SocketErrno.ERROR_NOROUTETOHOST]

/-- The end of `RouteInput`, reached when the route to the destination or the route to
its next hop is missing: in the build without `DA` the packet is deferred on a loopback
route; the method returns `false`. -/
def RouteInput.noRoute (build : Build) (s : RoutingProtocol) (p : Packet)
    (header : Ipv4Header) (ucb : Nat) : Bool × RoutingProtocol × List Action :=
  if build.DA then (false, s, [])
  else
    let rt : Ipv4Route :=
      { destination := header.destination, source := header.source,
        gateway := loopbackAddress, outputDevice := m_lo }
    let r := EnqueueForNoDA s ucb rt p header
    (false, r.1, r.2)

/-- Method `RoutingProtocol::RouteInput (p, header, idev, ucb, mcb, lcb, ecb)` run at clock
value `now`: the value returned, the state after the call and the calls made.  The
callbacks are represented by their handles (`lcb` may be null). -/
def RouteInput (build : Build) (w : LeachWire) (env : Ipv4Env) (s : RoutingProtocol)
    (now : Time) (p : Packet) (header : Ipv4Header) (idev : Nat) (ucb : Nat)
    (lcb : Option Nat) (ecb : Nat) : Bool × RoutingProtocol × List Action :=
  if s.m_socketAddresses.isEmpty then (false, s, [])
  else
    let iif := idev
    let dst := header.destination
    let origin := header.source
    if IsMulticast dst then (false, s, [])
    else if idev = m_lo then
      if build.DA then (false, EnqueuePacket w s now p header, [])
      else
        match RoutingTable.LookupRoute s.m_routingTable dst with
        | some toDst => (true, s, [Action.unicastForward ucb (routeOf s toDst) p header])
        | none =>
          let rt : Ipv4Route :=
            { destination := dst, source := origin, gateway := loopbackAddress,
              outputDevice := m_lo }
          let r := EnqueueForNoDA s ucb rt p header
          (true, r.1, r.2)
    else if s.m_socketAddresses.any (fun j => decide (origin = j.iface.local_)) then
      (true, s, [])
    else
      match s.m_socketAddresses.find?
          (fun j => decide (j.interface = iif) && (decide (dst = j.iface.broadcast) || IsBroadcast dst)) with
      | some _ =>
        let forwarded : List Action :=
          if header.ttl > 1 then
            match RoutingTable.LookupRouteWithInvalid s.m_routingTable dst true with
            | some toBroadcast =>
              [Action.unicastForward ucb (routeOf s toBroadcast) p header]
            | none => []
          else []
        (true, s, RouteInput.deliver p header iif lcb ecb ++ forwarded)
      | none =>
        if env.IsDestinationAddress dst iif then
          (true, s, RouteInput.deliver p header iif lcb ecb)
        else if env.IsForwarding iif = false then
          (true, s, [Action.error ecb p header SocketErrno.ERROR_NOROUTETOHOST])
        else
          match RoutingTable.LookupRoute s.m_routingTable dst with
          | some toDst =>
            match RoutingTable.LookupRoute s.m_routingTable toDst.nextHop with
            | some ne =>
              if build.DA then (false, EnqueuePacket w s now p header, [])
              else (true, s, [Action.unicastForward ucb (routeOf s ne) p header])
            | none => RouteInput.noRoute build s p header ucb
          | none => RouteInput.noRoute build s p header ucb

/-- The action is a call of the error callback. -/
def Action.isError : Action → Bool
  | Action.error _ _ _ _ => true
  | _ => false

/-- The action is a call of the unicast-forward callback. -/
def Action.isForward : Action → Bool
  | Action.unicastForward _ _ _ _ => true
  | _ => false


/-! ## A node under the scheduler -/

/-- The timers armed by a list of actions. -/
def scheduledTimers : List Action → List Timer
  | [] => []
  | Action.schedule _ t :: rest => t :: scheduledTimers rest
  | _ :: rest => scheduledTimers rest

/-- A node as the scheduler sees it: the protocol state and the timers that are armed. -/
structure Node where
  proto : RoutingProtocol
  pending : List Timer

/-- What the scheduler delivers to a node: the expiry of a timer (with the random draw a
periodic tick takes) or a control message. -/
inductive NodeEvent where
  | fire (t : Timer) (prob : ℚ)
  | recv (m : ControlMsg)

/-- The node after `Start`. -/
def Node.start (s : RoutingProtocol) (jitter : Nat) : Node :=
  { proto := (Start s jitter).1, pending := scheduledTimers (Start s jitter).2 }

/-- The handler of a timer: the state after it has run and the timers it arms. -/
def Node.handle (s : RoutingProtocol) (t : Timer) (prob : ℚ) : RoutingProtocol × List Timer :=
  match t with
  | Timer.periodicUpdate =>
    (PeriodicUpdate s prob, scheduledTimers (PeriodicUpdate.actions s prob 15000000000 0 0))
  | Timer.broadcastClusterHead => ((SendBroadcast s).1, scheduledTimers (SendBroadcast s).2)
  | Timer.respondToClusterHead =>
    ((RespondToClusterHead s).1, scheduledTimers (RespondToClusterHead s).2)
  | Timer.autoDequeueNoDA => ((AutoDequeueNoDA s).1, scheduledTimers (AutoDequeueNoDA s).2)

/-- One step of a node: a timer runs its handler only if it is armed (it is then
disarmed, and the timers the handler arms are added); a control message is handed to
`RecvLeach`. -/
def Node.step (n : Node) : NodeEvent → Node
  | NodeEvent.fire t prob =>
    if t ∈ n.pending then
      { proto := (Node.handle n.proto t prob).1,
        pending := n.pending.erase t ++ (Node.handle n.proto t prob).2 }
    else n
  | NodeEvent.recv m => { n with proto := RecvLeach n.proto m.sender m.receiver m.leachHeader }

/-- The node after a sequence of events. -/
def Node.run (n : Node) (evs : List NodeEvent) : Node := evs.foldl Node.step n

/-- The number of periodic ticks (`PeriodicUpdate`) executed during a run. -/
def Node.ticksRun (n : Node) : List NodeEvent → Nat
  | [] => 0
  | e :: evs =>
    (match e with
      | NodeEvent.fire Timer.periodicUpdate _ =>
        if Timer.periodicUpdate ∈ n.pending then 1 else 0
      | _ => 0) + Node.ticksRun (Node.step n e) evs

/-! ## Sequences of routing table operations -/

/-- A call on the routing table. -/
inductive TableOp where
  | add (e : RoutingTableEntry)
  | delete (dst : Ipv4Address)

/-- The table after one call. -/
def TableOp.apply (t : List RoutingTableEntry) : TableOp → List RoutingTableEntry
  | TableOp.add e => RoutingTable.AddRoute t e
  | TableOp.delete dst => RoutingTable.DeleteRoute t dst

/-- One call of `EnqueuePacket`: the clock value, the fragment and its IP header. -/
structure Fragment where
  now : Time
  p : Packet
  header : Ipv4Header

/-- The bytes a fragment feeds to the reassembly buffer: those that follow the 8-byte UDP
header for the fragment with offset 0, all of them otherwise. -/
def fragmentBytes (f : Fragment) : List Nat :=
  if f.header.fragmentOffset = 0 then f.p.bytes.drop 8 else f.p.bytes

/-- The byte stream fed by a sequence of fragments. -/
def fedStream (frs : List Fragment) : List Nat := (frs.map fragmentBytes).flatten

/-- The state after the fragments have been passed to `EnqueuePacket` one after the
other. -/
def feedFragments (w : LeachWire) (s : RoutingProtocol) (frs : List Fragment) :
    RoutingProtocol :=
  frs.foldl (fun s f => EnqueuePacket w s f.now f.p f.header) s

/-- The `j`-th 56-byte frame of a byte stream. -/
def frameAt (stream : List Nat) (j : Nat) : List Nat := (stream.drop (56 * j)).take 56

/-- The full frames of a byte stream, in the order they occur in it. -/
def frames (stream : List Nat) : List (List Nat) :=
  (List.range (stream.length / 56)).map (frameAt stream)

/-- The bytes of a stream that follow its last full frame. -/
def remainder (stream : List Nat) : List Nat := stream.drop (56 * (stream.length / 56))

/-- The bytes of the packet enqueued for a frame: the control header decoded from the
front of the frame, serialized again, followed by the 16 bytes of `new Packet (16)`. -/
def frameRecord (w : LeachWire) (frame : List Nat) : List Nat :=
  w.Serialize (w.Deserialize (frame.take w.GetSerializedSize)) ++ List.replicate 16 0


/-! ## Notions used in the statements on the ticks and on the reward table -/

/-- The random draws of the periodic ticks of a sequence of events, in order. -/
def tickDraws : List Event → List ℚ
  | [] => []
  | Event.tick prob :: es => prob :: tickDraws es
  | Event.recv _ _ _ :: es => tickDraws es

/-- The entry `SendBroadcast` adds: a route to the sink whose next hop is the sink, bound
to the interface of the main address. -/
def directSinkEntry (s : RoutingProtocol) : RoutingTableEntry :=
  { destination := s.m_sinkAddress, nextHop := s.m_sinkAddress, iface := s.m_mainAddress,
    flagValid := true, seqNo := 0, hopCount := 0 }

/-- A queued record of 56 bytes destined to the sink, with the given deadline. -/
def sampleEntry (deadline : Time) (uid : Nat) : QueueEntry :=
  { packet := { uid := uid, bytes := List.replicate 56 0 },
    header := { source := 167837955, destination := sinkAddressConst,
                fragmentOffset := 0, ttl := 64 },
    deadline := deadline }

/-- A cluster head (address 10.1.1.2, generation rate 4) with two cluster members and
four queued records: three with deadline 0.5 s and one with deadline 5 s. -/
def sampleHead : RoutingProtocol :=
  { RoutingProtocol.init 167837954 with
    Round := 1, cluster_head_this_round := true,
    m_targetAddress := sinkAddressConst,
    m_clusterMember := [167837955, 167837956],
    m_queue := [sampleEntry 500000000 1, sampleEntry 500000000 2,
                sampleEntry 500000000 3, sampleEntry 5000000000 4] }

/-- A member node (address 10.1.1.3) with other counters, position and members than
`RoutingProtocol.init`, and an empty queue. -/
def sampleMember : RoutingProtocol :=
  { RoutingProtocol.init 167837955 with
    Round := 7, valid := true, m_dropped := 5,
    m_position := { x := 3, y := 4, z := 0 },
    m_clusterMember := [167837956] }

/-- A wire format with a 40-byte control header: the deadline travels in the first byte
and the node identity in the second. -/
def sampleWire : LeachWire :=
  { GetSerializedSize := 40,
    Serialize := fun h => [h.deadline.toNat % 256, h.address % 256] ++ List.replicate 38 0,
    Deserialize := fun bs =>
      { position := { x := 0, y := 0, z := 0 }, address := bs.getD 1 0,
        deadline := (bs.getD 0 0 : Nat) } }

/-- Two fragments of the packet with identifier 7: the first (offset 0) carries the
8-byte UDP header and 60 bytes, the second 60 more bytes: 120 = 56*2 + 8 bytes fed. -/
def sampleFragments : List Fragment :=
  [{ now := 1000, p := { uid := 7, bytes := List.replicate 8 9 ++ List.replicate 60 5 },
     header := { source := 167837955, destination := sinkAddressConst,
                 fragmentOffset := 0, ttl := 64 } },
   { now := 2000, p := { uid := 7, bytes := List.replicate 60 6 },
     header := { source := 167837955, destination := sinkAddressConst,
                 fragmentOffset := 64, ttl := 64 } }]


/-- A head advertisement from 10.1.1.5 that carries the position `(x, y)`. -/
def sampleAdvert (x y : ℚ) : ControlMsg :=
  { sender := 167837957, receiver := 167837955,
    leachHeader := { LeachHeader.blank with position := { x := x, y := y, z := 0 } } }

/-- A head advertisement from 10.1.1.6 that carries the position `(x, y)`. -/
def sampleAdvert2 (x y : ℚ) : ControlMsg :=
  { sender := 167837958, receiver := 167837955,
    leachHeader := { LeachHeader.blank with position := { x := x, y := y, z := 0 } } }


/-- A freshly started member node (address 10.1.1.3). -/
def sampleStart : RoutingProtocol := RoutingProtocol.init 167837955

/-- Two head advertisements, the second one closer. -/
def sampleAdverts : List ControlMsg := [sampleAdvert 7 1, sampleAdvert2 3 4]


/-- A member node (address 10.1.1.3) whose routing table holds a route to the sink
through the head 10.1.1.6 and a route to that head. -/
def sampleRouted : RoutingProtocol :=
  { RoutingProtocol.init 167837955 with
    Round := 1,
    m_targetAddress := 167837958,
    m_routingTable :=
      [{ destination := sinkAddressConst, nextHop := 167837958, iface := 167837955,
         flagValid := true, seqNo := 0, hopCount := 0 },
       { destination := 167837958, nextHop := 167837958, iface := 167837955,
         flagValid := true, seqNo := 0, hopCount := 0 }] }

/-- The IP header of a data packet from 10.1.1.7 to the sink. -/
def sampleDataHeader : Ipv4Header :=
  { source := 167837959, destination := sinkAddressConst, fragmentOffset := 0, ttl := 64 }

/-- An IPv4 stack that forwards on every interface and owns no destination address. -/
def sampleEnv : Ipv4Env :=
  { IsForwarding := fun _ => true, IsDestinationAddress := fun _ _ => false }

/-- An IPv4 stack that forwards on no interface and owns no destination address. -/
def sampleEnvNoForward : Ipv4Env :=
  { IsForwarding := fun _ => false, IsDestinationAddress := fun _ _ => false }


/-- The statics before the first call of a policy. -/
def sampleStatics : Statics := { step := 0, threshold := 2 }

/-- A join message from 10.1.1.4. -/
def sampleJoin : ControlMsg :=
  { sender := 167837956, receiver := 167837953,
    leachHeader := { LeachHeader.blank with address := 167837956 } }

/-- Events offered to a node: timer expiries of every kind and control messages. -/
def sampleNodeEvents : List NodeEvent :=
  [NodeEvent.fire Timer.periodicUpdate 0, NodeEvent.recv (sampleAdvert 3 4),
   NodeEvent.recv sampleJoin, NodeEvent.fire Timer.respondToClusterHead 0,
   NodeEvent.fire Timer.broadcastClusterHead 0, NodeEvent.fire Timer.periodicUpdate (1 / 2)]


/-- An empty outgoing packet. -/
def emptyPacket : Packet := { uid := 100, bytes := [] }

/-- An outgoing packet holding one 56-byte record. -/
def ownPacket : Packet := { uid := 101, bytes := List.replicate 56 1 }


/-- The first (and only) fragment of the packet with identifier 7: the 8-byte UDP header
followed by exactly one 56-byte frame. -/
def sampleFullFrame : Fragment :=
  { now := 1000, p := { uid := 7, bytes := List.replicate 8 9 ++ List.replicate 56 5 },
    header := { source := 167837955, destination := sinkAddressConst,
                fragmentOffset := 0, ttl := 64 } }

/-- The packet of `LeachHeaderTestCase::DoRun` after its two `AddHeader` calls: first the
header `ha`, then the header `hb`, on an empty packet. -/
def twoHeaders (w : LeachWire) (ha hb : LeachHeader) : Packet :=
  Packet.AddLeachHeader w hb (Packet.AddLeachHeader w ha emptyPacket)

/-- The first header of the header test: position (1, 1), here with deadline 1. -/
def sampleHeaderA : LeachHeader :=
  { LeachHeader.blank with position := { x := 1, y := 1, z := 0 }, deadline := 1 }

/-- The second header of the header test: position (3, 3), here with deadline 2. -/
def sampleHeaderB : LeachHeader :=
  { LeachHeader.blank with position := { x := 3, y := 3, z := 0 }, deadline := 2 }

/-- A join message from 10.1.1.4 received by the head 10.1.1.2. -/
def sampleJoinToHead : ControlMsg :=
  { sender := 167837956, receiver := 167837954,
    leachHeader := { LeachHeader.blank with address := 167837956 } }

/-- A buffer of exactly one 56-byte frame in the format of `sampleWire`: a control header
with deadline 7 and identity 9, followed by 16 payload bytes of value 5. -/
def sampleBuffer : Packet :=
  { uid := 7, bytes := [7, 9] ++ List.replicate 38 0 ++ List.replicate 16 5 }

/-- Ten periodic ticks whose draws are all 3/4, with one reception in between. -/
def sampleCycle : List Event :=
  [Event.tick (3 / 4), Event.tick (3 / 4), Event.tick (3 / 4),
   Event.recv 167837956 167837954
     { position := { x := 1, y := 1, z := 0 }, address := 167837956, deadline := 0 },
   Event.tick (3 / 4), Event.tick (3 / 4), Event.tick (3 / 4), Event.tick (3 / 4),
   Event.tick (3 / 4), Event.tick (3 / 4), Event.tick (3 / 4)]

/-- An eligible member node at the last tick of a cycle (round counter 19). -/
def sampleNinth : RoutingProtocol := { sampleMember with Round := 19 }


/-! ## Properties of the expiry pass -/

theorem expireLoop_eq (now : Time) :
    ∀ (n i : Nat) (q : List QueueEntry) (d : Nat), q.length - i = n →
      expireLoop now i q d =
        (q.take i ++ (q.drop i).filter (fun e => decide (¬ e.deadline < now)),
         d + ((q.drop i).filter (fun e => decide (e.deadline < now))).length) := by
  intro n
  induction n with
  | zero =>
    intro i q d hn
    rw [expireLoop]
    have hi : ¬ i < q.length := by omega
    rw [dif_neg hi]
    have hd : q.drop i = [] := List.drop_eq_nil_of_le (by omega)
    have ht : q.take i = q := List.take_of_length_le (by omega)
    simp [hd, ht]
  | succ n ih =>
    intro i q d hn
    rw [expireLoop]
    have hi : i < q.length := by omega
    rw [dif_pos hi]
    have hdrop : q.drop i = q.get ⟨i, hi⟩ :: q.drop (i + 1) := by
      simp
    by_cases hx : (q.get ⟨i, hi⟩).deadline < now
    · rw [if_pos hx]
      have hlen : (PacketQueue.Drop q i).length - i = n := by
        simp only [PacketQueue.Drop, List.length_eraseIdx, hi, if_true]; omega
      rw [ih i _ _ hlen]
      have he : PacketQueue.Drop q i = q.take i ++ q.drop (i + 1) := by
        simp [PacketQueue.Drop, List.eraseIdx_eq_take_drop_succ]
      have hl : (q.take i).length = i := by simp; omega
      have h1 : (PacketQueue.Drop q i).take i = q.take i := by
        rw [he, List.take_left' hl]
      have h2 : (PacketQueue.Drop q i).drop i = q.drop (i + 1) := by
        rw [he, List.drop_left' hl]
      rw [h1, h2, hdrop]
      have f1 : (q.get ⟨i, hi⟩ :: q.drop (i + 1)).filter (fun e => decide (¬ e.deadline < now))
          = (q.drop (i + 1)).filter (fun e => decide (¬ e.deadline < now)) :=
        List.filter_cons_of_neg (by simpa using hx)
      have f2 : (q.get ⟨i, hi⟩ :: q.drop (i + 1)).filter (fun e => decide (e.deadline < now))
          = q.get ⟨i, hi⟩ :: (q.drop (i + 1)).filter (fun e => decide (e.deadline < now)) :=
        List.filter_cons_of_pos (by simpa using hx)
      rw [f1, f2, List.length_cons]
      exact Prod.ext rfl (by simp only []; omega)
    · rw [if_neg hx]
      have hlen : q.length - (i + 1) = n := by omega
      rw [ih (i + 1) q d hlen, hdrop]
      have ht : q.take (i + 1) = q.take i ++ [q.get ⟨i, hi⟩] := by
        rw [List.take_succ, List.getElem?_eq_getElem hi]; rfl
      have f1 : (q.get ⟨i, hi⟩ :: q.drop (i + 1)).filter (fun e => decide (¬ e.deadline < now))
          = q.get ⟨i, hi⟩ :: (q.drop (i + 1)).filter (fun e => decide (¬ e.deadline < now)) :=
        List.filter_cons_of_pos (by simpa using hx)
      have f2 : (q.get ⟨i, hi⟩ :: q.drop (i + 1)).filter (fun e => decide (e.deadline < now))
          = (q.drop (i + 1)).filter (fun e => decide (e.deadline < now)) :=
        List.filter_cons_of_neg (by simpa using hx)
      rw [ht, f1, f2, List.append_assoc]
      rfl

theorem expireLoop_zero (now : Time) (q : List QueueEntry) (d : Nat) :
    expireLoop now 0 q d =
      (q.filter (fun e => decide (¬ e.deadline < now)),
       d + (q.filter (fun e => decide (e.deadline < now))).length) := by
  have h := expireLoop_eq now (q.length - 0) 0 q d rfl
  simpa using h


/-! ## Properties of the flush loop -/

theorem Dequeue_none (dst : Ipv4Address) :
    ∀ q : List QueueEntry, PacketQueue.Dequeue dst q = none →
      q.filter (fun e => decide (e.header.destination = dst)) = [] ∧
      q.filter (fun e => decide (e.header.destination ≠ dst)) = q := by
  intro q
  induction q with
  | nil => intro _; simp
  | cons e q ih =>
    intro h
    simp only [PacketQueue.Dequeue] at h
    split at h
    · simp at h
    · rename_i hne
      split at h
      · simp at h
      · rename_i hq
        have := ih hq
        rw [List.filter_cons_of_neg (by simpa using hne),
          List.filter_cons_of_pos (by simpa using hne), this.1, this.2]
        exact ⟨rfl, rfl⟩

theorem Dequeue_some (dst : Ipv4Address) :
    ∀ (q : List QueueEntry) (t : QueueEntry) (q1 : List QueueEntry),
      PacketQueue.Dequeue dst q = some (t, q1) →
      q.filter (fun e => decide (e.header.destination = dst))
        = t :: q1.filter (fun e => decide (e.header.destination = dst)) ∧
      q.filter (fun e => decide (e.header.destination ≠ dst))
        = q1.filter (fun e => decide (e.header.destination ≠ dst)) ∧
      q1.length + 1 = q.length := by
  intro q
  induction q with
  | nil => intro t q1 h; simp [PacketQueue.Dequeue] at h
  | cons e q ih =>
    intro t q1 h
    simp only [PacketQueue.Dequeue] at h
    split at h
    · rename_i heq
      simp only [Option.some.injEq, Prod.mk.injEq] at h
      obtain ⟨h1, h2⟩ := h
      subst h1; subst h2
      rw [List.filter_cons_of_pos (by simpa using heq),
        List.filter_cons_of_neg (by simpa using heq)]
      exact ⟨rfl, rfl, rfl⟩
    · rename_i hne
      split at h
      · rename_i t2 q2 hq
        simp only [Option.some.injEq, Prod.mk.injEq] at h
        obtain ⟨h1, h2⟩ := h
        subst h1; subst h2
        have := ih t2 q2 hq
        have n1 : ∀ l : List QueueEntry,
            (e :: l).filter (fun e => decide (e.header.destination = dst))
              = l.filter (fun e => decide (e.header.destination = dst)) :=
          fun l => List.filter_cons_of_neg (by simpa using hne)
        have n2 : ∀ l : List QueueEntry,
            (e :: l).filter (fun e => decide (e.header.destination ≠ dst))
              = e :: l.filter (fun e => decide (e.header.destination ≠ dst)) :=
          fun l => List.filter_cons_of_pos (by simpa using hne)
        rw [n1, n1, n2, n2, this.1, this.2.1]
        refine ⟨rfl, rfl, ?_⟩
        simp only [List.length_cons]
        omega
      · simp at h

theorem flushLoop_eq (dst : Ipv4Address) :
    ∀ (n : Nat) (q : List QueueEntry) (p : Packet), q.length = n →
      flushLoop dst q p =
        (q.filter (fun e => decide (e.header.destination ≠ dst)),
         { p with bytes := p.bytes ++
            ((q.filter (fun e => decide (e.header.destination = dst))).map
              (fun e => e.packet.bytes)).flatten }) := by
  intro n
  induction n using Nat.strong_induction_on with
  | _ n ih =>
    intro q p hn
    unfold flushLoop
    split
    · rename_i temp q1 hq
      have hs := Dequeue_some dst q temp q1 hq
      rw [ih q1.length (by omega) q1 _ rfl, hs.1, hs.2.1]
      simp [Packet.AddAtEnd]
    · rename_i hq
      have hs := Dequeue_none dst q hq
      rw [hs.1, hs.2]
      simp

theorem flushLoop_spec (dst : Ipv4Address) (q : List QueueEntry) (p : Packet) :
    flushLoop dst q p =
      (q.filter (fun e => decide (e.header.destination ≠ dst)),
       { p with bytes := p.bytes ++
          ((q.filter (fun e => decide (e.header.destination = dst))).map
            (fun e => e.packet.bytes)).flatten }) :=
  flushLoop_eq dst q.length q p rfl

theorem Seconds_cutoff : Seconds 48.5 = 48500000000 := by
  unfold Seconds
  norm_num

theorem urgentCount_eq (deadLine : Time) (q : List QueueEntry) :
    urgentCount deadLine q = (q.filter (fun e => decide (e.deadline < deadLine))).length := by
  unfold urgentCount
  have key : ∀ (l : List QueueEntry) (a : Nat),
      l.foldl (fun expired e => if e.deadline < deadLine then expired + 1 else expired) a
        = a + (l.filter (fun e => decide (e.deadline < deadLine))).length := by
    intro l
    induction l with
    | nil => intro a; simp
    | cons e l ih =>
      intro a
      simp only [List.foldl_cons]
      by_cases hx : e.deadline < deadLine
      · rw [if_pos hx, ih, List.filter_cons_of_pos (by simpa using hx), List.length_cons]
        omega
      · rw [if_neg hx, ih, List.filter_cons_of_neg (by simpa using hx)]
  simpa using key q 0


/-! ## Shape of the policies' results -/

theorem ite_fst_true {α : Type} (c : Prop) [Decidable c] (x y : α) :
    (if c then (true, x) else (false, y)).1 = true ↔ c := by
  by_cases h : c <;> simp [h]

theorem Proposal_eq (s : RoutingProtocol) (now : Time) (p : Packet) :
    Proposal s now p =
      if Proposal.expected s ≤
            ((s.m_queue.filter (fun e => decide (¬ e.deadline < now))).filter
              (fun e => decide (e.deadline < Proposal.deadLine s now))).length
          ∨ now > 48500000000 then
        (true,
         { s with
           m_queue := (s.m_queue.filter (fun e => decide (¬ e.deadline < now))).filter
             (fun e => decide (e.header.destination ≠ s.m_sinkAddress)),
           m_dropped := s.m_dropped
             + (s.m_queue.filter (fun e => decide (e.deadline < now))).length },
         { p with bytes := p.bytes ++
            (((s.m_queue.filter (fun e => decide (¬ e.deadline < now))).filter
              (fun e => decide (e.header.destination = s.m_sinkAddress))).map
              (fun e => e.packet.bytes)).flatten })
      else
        (false,
         { s with
           m_queue := s.m_queue.filter (fun e => decide (¬ e.deadline < now)),
           m_dropped := s.m_dropped
             + (s.m_queue.filter (fun e => decide (e.deadline < now))).length },
         p) := by
  unfold Proposal
  simp only [expireLoop_zero, flushLoop_spec, urgentCount_eq, Seconds_cutoff, ge_iff_le]

theorem ControlLimit_eq (threshold : Nat) (s : RoutingProtocol) (now : Time) (p : Packet) :
    ControlLimit threshold s now p =
      if threshold ≤ (s.m_queue.filter (fun e => decide (¬ e.deadline < now))).length
          ∨ now > 48500000000 then
        (true,
         { s with
           m_queue := (s.m_queue.filter (fun e => decide (¬ e.deadline < now))).filter
             (fun e => decide (e.header.destination ≠ s.m_sinkAddress)),
           m_dropped := s.m_dropped
             + (s.m_queue.filter (fun e => decide (e.deadline < now))).length },
         { p with bytes := p.bytes ++
            (((s.m_queue.filter (fun e => decide (¬ e.deadline < now))).filter
              (fun e => decide (e.header.destination = s.m_sinkAddress))).map
              (fun e => e.packet.bytes)).flatten })
      else
        (false,
         { s with
           m_queue := s.m_queue.filter (fun e => decide (¬ e.deadline < now)),
           m_dropped := s.m_dropped
             + (s.m_queue.filter (fun e => decide (e.deadline < now))).length },
         p) := by
  unfold ControlLimit
  simp only [expireLoop_zero, flushLoop_spec, Seconds_cutoff, ge_iff_le]

theorem OptTM_eq (s : RoutingProtocol) (now : Time) (step : Nat) (p : Packet) :
    OptTM s now step p =
      if OptTM.action0 s.m_queue s.m_lambda now step > 1 ∨ now > 48500000000 then
        (true,
         { s with
           m_queue := s.m_queue.filter
             (fun e => decide (e.header.destination ≠ s.m_sinkAddress)) },
         { p with bytes := p.bytes ++
            ((s.m_queue.filter (fun e => decide (e.header.destination = s.m_sinkAddress))).map
              (fun e => e.packet.bytes)).flatten },
         step + 1)
      else (false, s, p, step + 1) := by
  unfold OptTM
  simp only [flushLoop_spec, Seconds_cutoff]

theorem filter_expired_of_kept (now : Time) (q : List QueueEntry) :
    (q.filter (fun e => decide (¬ e.deadline < now))).filter
      (fun e => decide (e.deadline < now)) = [] := by
  rw [List.filter_filter]
  apply List.filter_eq_nil_iff.mpr
  intro e _
  simp

theorem filter_kept_of_kept (now : Time) (q : List QueueEntry) :
    (q.filter (fun e => decide (¬ e.deadline < now))).filter
      (fun e => decide (¬ e.deadline < now)) = q.filter (fun e => decide (¬ e.deadline < now)) := by
  rw [List.filter_filter]
  congr 1
  funext e
  simp

theorem filter_expired_of_kept_sub (now : Time) (q : List QueueEntry)
    (f : QueueEntry → Bool) :
    ((q.filter (fun e => decide (¬ e.deadline < now))).filter f).filter
      (fun e => decide (e.deadline < now)) = [] := by
  apply List.filter_eq_nil_iff.mpr
  intro e he
  have h1 := (List.mem_filter.mp he).1
  have h2 := (List.mem_filter.mp h1).2
  simpa using h2


theorem Proposal_dropped (s : RoutingProtocol) (now : Time) (p : Packet) :
    (Proposal s now p).2.1.m_dropped
      = s.m_dropped + (s.m_queue.filter (fun e => decide (e.deadline < now))).length := by
  rw [Proposal_eq]; split <;> rfl

theorem ControlLimit_dropped (threshold : Nat) (s : RoutingProtocol) (now : Time)
    (p : Packet) :
    (ControlLimit threshold s now p).2.1.m_dropped
      = s.m_dropped + (s.m_queue.filter (fun e => decide (e.deadline < now))).length := by
  rw [ControlLimit_eq]; split <;> rfl

/-! ## Claims on the expiry pass -/

/-- C2: the expiry pass at the start of `Proposal` and of `ControlLimit` leaves the
queue equal to the entries whose deadline is not earlier than `now`, in their original
order, and adds to the drop counter exactly the number of entries whose deadline is
earlier than `now` (an entry whose deadline equals `now` is kept).  The first conjunct
is the loop itself; the others are the drop counter and the queue left by the two
policies: the swept queue, from which a flush that follows takes the entries destined
to the sink. -/
theorem C2_expiry_pass (s : RoutingProtocol) (now : Time) (p : Packet) (threshold : Nat) :
    expireLoop now 0 s.m_queue s.m_dropped
        = (s.m_queue.filter (fun e => decide (now ≤ e.deadline)),
           s.m_dropped + (s.m_queue.filter (fun e => decide (e.deadline < now))).length)
    ∧ (Proposal s now p).2.1.m_dropped
        = s.m_dropped + (s.m_queue.filter (fun e => decide (e.deadline < now))).length
    ∧ (Proposal s now p).2.1.m_queue
        = (if (Proposal s now p).1 = true then
            (s.m_queue.filter (fun e => decide (now ≤ e.deadline))).filter
              (fun e => decide (e.header.destination ≠ s.m_sinkAddress))
           else s.m_queue.filter (fun e => decide (now ≤ e.deadline)))
    ∧ (ControlLimit threshold s now p).2.1.m_dropped
        = s.m_dropped + (s.m_queue.filter (fun e => decide (e.deadline < now))).length
    ∧ (ControlLimit threshold s now p).2.1.m_queue
        = (if (ControlLimit threshold s now p).1 = true then
            (s.m_queue.filter (fun e => decide (now ≤ e.deadline))).filter
              (fun e => decide (e.header.destination ≠ s.m_sinkAddress))
           else s.m_queue.filter (fun e => decide (now ≤ e.deadline))) := by
  have hk : (fun e : QueueEntry => decide (¬ e.deadline < now))
      = (fun e : QueueEntry => decide (now ≤ e.deadline)) := by
    funext e; simp
  refine ⟨?_, ?_, ?_, ?_, ?_⟩
  · rw [expireLoop_zero, hk]
  · rw [Proposal_eq]; split <;> rfl
  · rw [Proposal_eq, hk]; split <;> simp
  · rw [ControlLimit_eq]; split <;> rfl
  · rw [ControlLimit_eq, hk]; split <;> simp

/-- C3: the expiry pass is idempotent.  Run a second time at the same `now` on the
queue it has left, the loop removes no entry and leaves the drop counter as it finds
it; accordingly a second call of `Proposal` or of `ControlLimit` at the same `now`
counts no further drop. -/
theorem C3_expiry_idempotent (s : RoutingProtocol) (now : Time) (p p2 : Packet)
    (threshold d2 : Nat) :
    expireLoop now 0 (expireLoop now 0 s.m_queue s.m_dropped).1 d2
        = ((expireLoop now 0 s.m_queue s.m_dropped).1, d2)
    ∧ (Proposal (Proposal s now p).2.1 now p2).2.1.m_dropped
        = (Proposal s now p).2.1.m_dropped
    ∧ (ControlLimit threshold (ControlLimit threshold s now p).2.1 now p2).2.1.m_dropped
        = (ControlLimit threshold s now p).2.1.m_dropped := by
  refine ⟨?_, ?_, ?_⟩
  · rw [expireLoop_zero, expireLoop_zero, filter_expired_of_kept, filter_kept_of_kept]
    rfl
  · rw [Proposal_dropped (Proposal s now p).2.1 now p2]
    rw [Proposal_eq s now p]
    split
    · simp only [filter_expired_of_kept_sub, List.length_nil, Nat.add_zero]
    · simp only [filter_expired_of_kept, List.length_nil, Nat.add_zero]
  · rw [ControlLimit_dropped threshold (ControlLimit threshold s now p).2.1 now p2]
    rw [ControlLimit_eq threshold s now p]
    split
    · simp only [filter_expired_of_kept_sub, List.length_nil, Nat.add_zero]
    · simp only [filter_expired_of_kept, List.length_nil, Nat.add_zero]


/-! ## Claims on the flush decisions -/

/-- C8: `ControlLimit` flushes if and only if the number of entries left by the expiry
pass (those whose deadline is not earlier than `now`) is at least the static threshold
`floor (1/(ln(1/0.1)*(ln(1/0.1)+lambda)) + 2)`, or `now > 48.5 s`; `lambda0` is the
generation rate read by the initialiser of the static. -/
theorem C8_controlLimit_flush_iff (lambda0 : ℚ) (s : RoutingProtocol) (now : Time)
    (p : Packet) :
    (ControlLimit (ControlLimit.thresholdInit lambda0) s now p).1 = true ↔
      (⌊1 / (Real.log (1 / 0.1) * (Real.log (1 / 0.1) + (lambda0 : ℝ))) + 2⌋₊
          ≤ (s.m_queue.filter (fun e => decide (now ≤ e.deadline))).length
        ∨ now > 48500000000) := by
  have hk : (fun e : QueueEntry => decide (¬ e.deadline < now))
      = (fun e : QueueEntry => decide (now ≤ e.deadline)) := by
    funext e; simp
  rw [ControlLimit_eq, hk, ite_fst_true]
  unfold ControlLimit.thresholdInit
  exact Iff.rfl


/-- C6: whenever one of the flush policies (`Proposal`, `OptTM`, `ControlLimit`) decides
to flush, every queue entry destined to the sink is dequeued, the outgoing packet
becomes its previous content followed by the packets of the dequeued entries in
dequeue order (its length grows by the sum of their lengths), and no entry destined
to the sink remains in the queue. -/
theorem C6_flush_dequeues_sink (policy : Policy) (st : Statics) (s : RoutingProtocol)
    (now : Time) (p : Packet)
    (hpolicy : policy = Policy.DA_PROP ∨ policy = Policy.DA_OPT ∨ policy = Policy.DA_CL)
    (hflush : (DataAggregation policy st s now p).1 = true) :
    (DataAggregation policy st s now p).2.1.m_queue
        = (queueAtFlush policy s now).filter
            (fun e => decide (e.header.destination ≠ s.m_sinkAddress))
    ∧ (DataAggregation policy st s now p).2.2.1.bytes
        = p.bytes ++ (((queueAtFlush policy s now).filter
            (fun e => decide (e.header.destination = s.m_sinkAddress))).map
            (fun e => e.packet.bytes)).flatten
    ∧ (DataAggregation policy st s now p).2.2.1.bytes.length
        = p.bytes.length + (((queueAtFlush policy s now).filter
            (fun e => decide (e.header.destination = s.m_sinkAddress))).map
            (fun e => e.packet.bytes.length)).sum
    ∧ ∀ e ∈ (DataAggregation policy st s now p).2.1.m_queue,
        e.header.destination ≠ s.m_sinkAddress := by
  have hk : (fun e : QueueEntry => decide (¬ e.deadline < now))
      = (fun e : QueueEntry => decide (now ≤ e.deadline)) := by
    funext e; simp
  have hmem : ∀ (l : List QueueEntry),
      ∀ e ∈ l.filter (fun e => decide (e.header.destination ≠ s.m_sinkAddress)),
        e.header.destination ≠ s.m_sinkAddress := by
    intro l e he
    simpa using (List.mem_filter.mp he).2
  have hlen : ∀ (l : List QueueEntry),
      (p.bytes ++ (l.map (fun e => e.packet.bytes)).flatten).length
        = p.bytes.length + (l.map (fun e => e.packet.bytes.length)).sum := by
    intro l
    simp [List.length_flatten, List.map_map, Function.comp_def]
  rcases hpolicy with h | h | h
  · subst h
    simp only [DataAggregation] at hflush ⊢
    rw [Proposal_eq, hk] at hflush ⊢
    simp only [queueAtFlush]
    split at hflush
    · rename_i hc
      rw [if_pos hc]
      exact ⟨rfl, rfl, hlen _, hmem _⟩
    · simp at hflush
  · subst h
    simp only [DataAggregation] at hflush ⊢
    rw [OptTM_eq] at hflush ⊢
    simp only [queueAtFlush]
    split at hflush
    · rename_i hc
      rw [if_pos hc]
      exact ⟨rfl, rfl, hlen _, hmem _⟩
    · simp at hflush
  · subst h
    simp only [DataAggregation] at hflush ⊢
    rw [ControlLimit_eq, hk] at hflush ⊢
    simp only [queueAtFlush]
    split at hflush
    · rename_i hc
      rw [if_pos hc]
      exact ⟨rfl, rfl, hlen _, hmem _⟩
    · simp at hflush

theorem sampleHead_flushes :
    (DataAggregation Policy.DA_PROP { step := 0, threshold := 2 } sampleHead 0 ownPacket).1
      = true := by
  simp only [DataAggregation]
  rw [Proposal_eq]
  decide!

/-- Witness of C6: `Proposal` on `sampleHead` at time 0. -/
theorem C6_flush_dequeues_sink_witness :
    (Policy.DA_PROP = Policy.DA_PROP ∨ Policy.DA_PROP = Policy.DA_OPT
      ∨ Policy.DA_PROP = Policy.DA_CL)
    ∧ (DataAggregation Policy.DA_PROP { step := 0, threshold := 2 } sampleHead 0 ownPacket).1
        = true
    ∧ (DataAggregation Policy.DA_PROP { step := 0, threshold := 2 } sampleHead 0
          ownPacket).2.1.m_queue
        = (queueAtFlush Policy.DA_PROP sampleHead 0).filter
            (fun e => decide (e.header.destination ≠ sampleHead.m_sinkAddress))
    ∧ (DataAggregation Policy.DA_PROP { step := 0, threshold := 2 } sampleHead 0
          ownPacket).2.2.1.bytes
        = ownPacket.bytes ++ (((queueAtFlush Policy.DA_PROP sampleHead 0).filter
            (fun e => decide (e.header.destination = sampleHead.m_sinkAddress))).map
            (fun e => e.packet.bytes)).flatten
    ∧ (DataAggregation Policy.DA_PROP { step := 0, threshold := 2 } sampleHead 0
          ownPacket).2.2.1.bytes.length
        = ownPacket.bytes.length + (((queueAtFlush Policy.DA_PROP sampleHead 0).filter
            (fun e => decide (e.header.destination = sampleHead.m_sinkAddress))).map
            (fun e => e.packet.bytes.length)).sum
    ∧ ∀ e ∈ (DataAggregation Policy.DA_PROP { step := 0, threshold := 2 } sampleHead 0
          ownPacket).2.1.m_queue,
        e.header.destination ≠ sampleHead.m_sinkAddress :=
  ⟨Or.inl rfl, sampleHead_flushes,
    C6_flush_dequeues_sink Policy.DA_PROP { step := 0, threshold := 2 } sampleHead 0 ownPacket
      (Or.inl rfl) sampleHead_flushes⟩

/-- C7 (as stated) fails: with the same (empty) queue, the same time 0 and the same
generation rate 4, the first invocation of `OptTM` (counter 0) does not flush and the
ninth (counter 8) does. -/
theorem C7_counterexample :
    (OptTM sampleMember 0 0 emptyPacket).1 = false
    ∧ (OptTM sampleMember 0 8 emptyPacket).1 = true := by
  constructor
  · rw [OptTM_eq]; decide!
  · rw [OptTM_eq]; decide!

/-- C7 (amended): `OptTM` is deterministic in the queue contents, the current time,
the generation rate and the value of its invocation counter: two invocations that
agree on these four return the same flush decision (and leave the same counter),
whatever the rest of the node state and the outgoing packet are. -/
theorem C7_optTM_deterministic (s1 s2 : RoutingProtocol) (now : Time) (step : Nat)
    (p1 p2 : Packet) (hqueue : s1.m_queue = s2.m_queue) (hlambda : s1.m_lambda = s2.m_lambda) :
    (OptTM s1 now step p1).1 = (OptTM s2 now step p2).1
    ∧ (OptTM s1 now step p1).2.2.2 = (OptTM s2 now step p2).2.2.2 := by
  rw [OptTM_eq, OptTM_eq, hqueue, hlambda]
  by_cases h : OptTM.action0 s2.m_queue s2.m_lambda now step > 1 ∨ now > 48500000000
  · rw [if_pos h, if_pos h]; exact ⟨rfl, rfl⟩
  · rw [if_neg h, if_neg h]; exact ⟨rfl, rfl⟩

/-- Witness of the amended C7: two nodes that differ in everything but the queue and the
generation rate, at the ninth invocation. -/
theorem C7_optTM_deterministic_witness :
    sampleMember.m_queue = (RoutingProtocol.init 167837960).m_queue
    ∧ sampleMember.m_lambda = (RoutingProtocol.init 167837960).m_lambda
    ∧ (OptTM sampleMember 0 8 emptyPacket).1
        = (OptTM (RoutingProtocol.init 167837960) 0 8 ownPacket).1
    ∧ (OptTM sampleMember 0 8 emptyPacket).2.2.2
        = (OptTM (RoutingProtocol.init 167837960) 0 8 ownPacket).2.2.2 :=
  ⟨rfl, rfl,
    C7_optTM_deterministic sampleMember (RoutingProtocol.init 167837960) 0 8
      emptyPacket ownPacket rfl rfl⟩


/-! ## Claims on the election -/

theorem RecvLeach_valid (s : RoutingProtocol) (sender receiver : Ipv4Address)
    (h : LeachHeader) :
    (RecvLeach s sender receiver h).valid = s.valid
    ∧ (RecvLeach s sender receiver h).Round = s.Round := by
  unfold RecvLeach
  split
  · exact ⟨rfl, rfl⟩
  · split
    · simp only []
      split <;> exact ⟨rfl, rfl⟩
    · exact ⟨rfl, rfl⟩

theorem PeriodicUpdate_Round (s : RoutingProtocol) (prob : ℚ) :
    (PeriodicUpdate s prob).Round = s.Round + 1 := by
  unfold PeriodicUpdate
  simp only []
  split <;> rfl

theorem PeriodicUpdate_head_iff (s : RoutingProtocol) (prob : ℚ) :
    (PeriodicUpdate s prob).cluster_head_this_round = true ↔
      (prob < PeriodicUpdate.threshold s.Round ∧ (PeriodicUpdate.prepare s).valid = true) := by
  unfold PeriodicUpdate
  simp only []
  split
  · rename_i h; simpa using h
  · rename_i h
    constructor
    · intro hc; simp [PeriodicUpdate.prepare] at hc
    · intro hc; exact absurd hc h

theorem PeriodicUpdate_valid_of_head (s : RoutingProtocol) (prob : ℚ)
    (h : (PeriodicUpdate s prob).cluster_head_this_round = true) :
    (PeriodicUpdate s prob).valid = false := by
  have hc := (PeriodicUpdate_head_iff s prob).mp h
  unfold PeriodicUpdate
  simp only []
  rw [if_pos hc]

theorem PeriodicUpdate_valid_of_not_eligible (s : RoutingProtocol) (prob : ℚ)
    (hr : s.Round % 10 ≠ 0) (hv : s.valid = false) :
    (PeriodicUpdate s prob).cluster_head_this_round = false
    ∧ (PeriodicUpdate s prob).valid = false := by
  have hp : (PeriodicUpdate.prepare s).valid = false := by
    simp [PeriodicUpdate.prepare, hr, hv]
  unfold PeriodicUpdate
  simp only []
  rw [if_neg (by rw [hp]; simp)]
  exact ⟨by simp [PeriodicUpdate.prepare], hp⟩

theorem PeriodicUpdate_not_both (s : RoutingProtocol) (prob : ℚ) :
    ((PeriodicUpdate s prob).cluster_head_this_round && (PeriodicUpdate s prob).valid)
      = false := by
  cases hc : (PeriodicUpdate s prob).cluster_head_this_round with
  | false => rfl
  | true => rw [PeriodicUpdate_valid_of_head s prob hc]; rfl

/-- C9: after any sequence of periodic ticks (with any random draws) and control
message receptions, in a tick whose round counter satisfies `Round mod 10 = 0` the
eligibility flag is true when the draw is tested, whatever happened before (so the
node becomes head in that tick exactly when the draw is below the threshold); and
after every tick, of any run, the node is not both head and eligible: the flag is
false immediately after a tick in which the node becomes head. -/
theorem C9_eligibility (s : RoutingProtocol) (es es2 : List Event) (prob prob2 : ℚ)
    (hround : (runEvents s es).Round % 10 = 0) :
    (PeriodicUpdate.prepare (runEvents s es)).valid = true
    ∧ ((PeriodicUpdate (runEvents s es) prob).cluster_head_this_round = true ↔
        prob < PeriodicUpdate.threshold (runEvents s es).Round)
    ∧ ((PeriodicUpdate (runEvents s es2) prob2).cluster_head_this_round
        && (PeriodicUpdate (runEvents s es2) prob2).valid) = false := by
  have hv : (PeriodicUpdate.prepare (runEvents s es)).valid = true := by
    simp [PeriodicUpdate.prepare, hround]
  refine ⟨hv, ?_, PeriodicUpdate_not_both _ prob2⟩
  rw [PeriodicUpdate_head_iff, hv]
  simp

/-- Witness of C9: the member node `sampleMember` (round counter 7, head in the tick of
round 7) after three ticks and one reception. -/
theorem C9_eligibility_witness :
    (runEvents sampleMember
        [Event.tick 0, Event.recv 167837956 167837955
            { position := { x := 1, y := 1, z := 0 }, address := broadcastMarker, deadline := 0 },
         Event.tick (1 / 2), Event.tick (1 / 2)]).Round % 10 = 0
    ∧ (PeriodicUpdate.prepare (runEvents sampleMember
        [Event.tick 0, Event.recv 167837956 167837955
            { position := { x := 1, y := 1, z := 0 }, address := broadcastMarker, deadline := 0 },
         Event.tick (1 / 2), Event.tick (1 / 2)])).valid = true
    ∧ ((PeriodicUpdate (runEvents sampleMember
        [Event.tick 0, Event.recv 167837956 167837955
            { position := { x := 1, y := 1, z := 0 }, address := broadcastMarker, deadline := 0 },
         Event.tick (1 / 2), Event.tick (1 / 2)]) (1 / 20)).cluster_head_this_round = true ↔
        (1 / 20 : ℚ) < PeriodicUpdate.threshold (runEvents sampleMember
        [Event.tick 0, Event.recv 167837956 167837955
            { position := { x := 1, y := 1, z := 0 }, address := broadcastMarker, deadline := 0 },
         Event.tick (1 / 2), Event.tick (1 / 2)]).Round)
    ∧ ((PeriodicUpdate (runEvents sampleMember [Event.tick 0]) 0).cluster_head_this_round
        && (PeriodicUpdate (runEvents sampleMember [Event.tick 0]) 0).valid) = false :=
  ⟨by decide!, C9_eligibility sampleMember _ [Event.tick 0] (1 / 20) 0 (by decide!)⟩

theorem headCount_no_tick :
    ∀ (es : List Event) (s : RoutingProtocol), tickCount es = 0 → headCount s es = 0 := by
  intro es
  induction es with
  | nil => intro s _; rfl
  | cons e es ih =>
    intro s h
    cases e with
    | tick prob => simp [tickCount] at h
    | recv sender receiver hd =>
      simp only [tickCount] at h
      simp only [headCount]
      exact ih _ h

theorem headCount_not_eligible :
    ∀ (es : List Event) (s : RoutingProtocol), s.valid = false → 0 < s.Round % 10 →
      s.Round % 10 + tickCount es ≤ 10 → headCount s es = 0 := by
  intro es
  induction es with
  | nil => intro s _ _ _; rfl
  | cons e es ih =>
    intro s hv hr hb
    cases e with
    | tick prob =>
      simp only [tickCount] at hb
      simp only [headCount]
      have hn := PeriodicUpdate_valid_of_not_eligible s prob (by omega) hv
      have hR := PeriodicUpdate_Round s prob
      rw [hn.1]
      simp only [Bool.false_eq_true, if_false, Nat.zero_add]
      by_cases h9 : s.Round % 10 = 9
      · exact headCount_no_tick es _ (by omega)
      · exact ih _ hn.2 (by rw [hR]; omega) (by rw [hR]; omega)
    | recv sender receiver hd =>
      simp only [tickCount] at hb
      simp only [headCount]
      have hk := RecvLeach_valid s sender receiver hd
      exact ih _ (by rw [hk.1]; exact hv) (by rw [hk.2]; exact hr) (by rw [hk.2]; exact hb)

theorem headCount_le_one :
    ∀ (es : List Event) (s : RoutingProtocol),
      s.Round % 10 + tickCount es ≤ 10 → headCount s es ≤ 1 := by
  intro es
  induction es with
  | nil => intro s _; simp [headCount]
  | cons e es ih =>
    intro s hb
    cases e with
    | tick prob =>
      simp only [tickCount] at hb
      simp only [headCount]
      have hR := PeriodicUpdate_Round s prob
      cases hc : (PeriodicUpdate s prob).cluster_head_this_round with
      | true =>
        have hv := PeriodicUpdate_valid_of_head s prob hc
        have h0 : headCount (PeriodicUpdate s prob) es = 0 := by
          by_cases h9 : s.Round % 10 = 9
          · exact headCount_no_tick es _ (by omega)
          · exact headCount_not_eligible es _ hv (by rw [hR]; omega) (by rw [hR]; omega)
        rw [h0]
        simp
      | false =>
        have := ih (PeriodicUpdate s prob) (by rw [hR]; omega)
        simpa using this
    | recv sender receiver hd =>
      simp only [tickCount] at hb
      simp only [headCount]
      have hk := RecvLeach_valid s sender receiver hd
      exact ih _ (by rw [hk.2]; exact hb)

theorem headCount_append :
    ∀ (es1 : List Event) (s : RoutingProtocol) (es2 : List Event),
      headCount s (es1 ++ es2) = headCount s es1 + headCount (runEvents s es1) es2 := by
  intro es1
  induction es1 with
  | nil => intro s es2; simp [headCount, runEvents]
  | cons e es1 ih =>
    intro s es2
    cases e with
    | tick prob =>
      have := ih (PeriodicUpdate s prob) es2
      simp only [runEvents] at this
      show headCount s (Event.tick prob :: (es1 ++ es2)) = _
      simp only [headCount, runEvents, List.foldl_cons, Event.apply]
      rw [this]
      omega
    | recv sender receiver hd =>
      have := ih (RecvLeach s sender receiver hd) es2
      simp only [runEvents] at this
      show headCount s (Event.recv sender receiver hd :: (es1 ++ es2)) = _
      simp only [headCount, runEvents, List.foldl_cons, Event.apply]
      exact this

/-- C10: in a cycle of at most 10 consecutive ticks that starts at a round counter
`10c` (round counters `10c, ..., 10c+9`), interleaved with any control message
receptions and for any random draws, the node becomes cluster head in at most one
tick; for each tick of the cycle, either the node does not become head in it, or it
is head in no earlier and no later tick of the cycle: once it has been head it is not
head again before a tick with `Round mod 10 = 0`. -/
theorem C10_head_at_most_once (s : RoutingProtocol) (es1 es2 : List Event) (prob : ℚ)
    (hstart : s.Round % 10 = 0)
    (hticks : tickCount (es1 ++ Event.tick prob :: es2) ≤ 10) :
    headCount s (es1 ++ Event.tick prob :: es2) ≤ 1
    ∧ ((PeriodicUpdate (runEvents s es1) prob).cluster_head_this_round = false
        ∨ (headCount s es1 = 0
            ∧ headCount (PeriodicUpdate (runEvents s es1) prob) es2 = 0)) := by
  have hle := headCount_le_one (es1 ++ Event.tick prob :: es2) s (by omega)
  refine ⟨hle, ?_⟩
  rw [headCount_append] at hle
  simp only [headCount] at hle
  cases hc : (PeriodicUpdate (runEvents s es1) prob).cluster_head_this_round with
  | false => exact Or.inl rfl
  | true =>
    right
    rw [hc] at hle
    simp only [if_true] at hle
    constructor <;> omega

/-- Witness of C10: a freshly started node and ten ticks whose draws are all 0 (it is
head in the first tick only), with one reception in between. -/
theorem C10_head_at_most_once_witness :
    (RoutingProtocol.init 167837954).Round % 10 = 0
    ∧ tickCount (([] : List Event) ++ Event.tick 0 ::
        [Event.tick 0, Event.tick 0,
         Event.recv 167837956 167837954
            { position := { x := 1, y := 1, z := 0 }, address := 167837956, deadline := 0 },
         Event.tick 0, Event.tick 0, Event.tick 0, Event.tick 0, Event.tick 0, Event.tick 0,
         Event.tick 0]) ≤ 10
    ∧ headCount (RoutingProtocol.init 167837954) (([] : List Event) ++ Event.tick 0 ::
        [Event.tick 0, Event.tick 0,
         Event.recv 167837956 167837954
            { position := { x := 1, y := 1, z := 0 }, address := 167837956, deadline := 0 },
         Event.tick 0, Event.tick 0, Event.tick 0, Event.tick 0, Event.tick 0, Event.tick 0,
         Event.tick 0]) ≤ 1
    ∧ ((PeriodicUpdate (runEvents (RoutingProtocol.init 167837954) []) 0).cluster_head_this_round
          = false
        ∨ (headCount (RoutingProtocol.init 167837954) [] = 0
            ∧ headCount (PeriodicUpdate (runEvents (RoutingProtocol.init 167837954) []) 0)
                [Event.tick 0, Event.tick 0,
                 Event.recv 167837956 167837954
                    { position := { x := 1, y := 1, z := 0 }, address := 167837956,
                      deadline := 0 },
                 Event.tick 0, Event.tick 0, Event.tick 0, Event.tick 0, Event.tick 0,
                 Event.tick 0, Event.tick 0] = 0)) :=
  ⟨by decide, by decide,
    C10_head_at_most_once (RoutingProtocol.init 167837954) [] _ 0 (by decide) (by decide)⟩


/-! ## Reassembly: frames and remainder of a stream -/

theorem frames_lt (l : List Nat) (h : l.length < 56) : frames l = [] := by
  unfold frames
  rw [Nat.div_eq_of_lt h]
  rfl

theorem remainder_lt (l : List Nat) (h : l.length < 56) : remainder l = l := by
  unfold remainder
  rw [Nat.div_eq_of_lt h]
  rfl

theorem frames_ge (l : List Nat) (h : 56 ≤ l.length) :
    frames l = l.take 56 :: frames (l.drop 56) := by
  unfold frames
  have hd : l.length / 56 = (l.drop 56).length / 56 + 1 := by
    rw [List.length_drop]; omega
  rw [hd, List.range_succ_eq_map, List.map_cons, List.map_map]
  congr 1
  apply List.map_congr_left
  intro j _
  simp only [Function.comp, frameAt, List.drop_drop]
  congr 2
  omega

theorem remainder_ge (l : List Nat) (h : 56 ≤ l.length) :
    remainder l = remainder (l.drop 56) := by
  unfold remainder
  have hd : l.length / 56 = (l.drop 56).length / 56 + 1 := by
    rw [List.length_drop]; omega
  rw [hd, List.drop_drop]
  congr 1
  omega

theorem remainder_length (l : List Nat) : (remainder l).length = l.length % 56 := by
  unfold remainder
  rw [List.length_drop]
  omega

theorem frames_length (l : List Nat) : (frames l).length = l.length / 56 := by
  unfold frames
  simp

theorem frames_append :
    ∀ (n : Nat) (a b : List Nat), a.length = n →
      frames (a ++ b) = frames a ++ frames (remainder a ++ b) := by
  intro n
  induction n using Nat.strong_induction_on with
  | _ n ih =>
    intro a b hn
    by_cases h : a.length < 56
    · rw [frames_lt a h, remainder_lt a h]; rfl
    · have h56 : 56 ≤ a.length := by omega
      have hab : 56 ≤ (a ++ b).length := by rw [List.length_append]; omega
      rw [frames_ge (a ++ b) hab, frames_ge a h56, remainder_ge a h56,
        List.take_append_of_le_length h56, List.drop_append_of_le_length h56,
        ih (a.drop 56).length (by rw [List.length_drop]; omega) (a.drop 56) b rfl]
      rfl

theorem remainder_append :
    ∀ (n : Nat) (a b : List Nat), a.length = n →
      remainder (a ++ b) = remainder (remainder a ++ b) := by
  intro n
  induction n using Nat.strong_induction_on with
  | _ n ih =>
    intro a b hn
    by_cases h : a.length < 56
    · rw [remainder_lt a h]
    · have h56 : 56 ≤ a.length := by omega
      have hab : 56 ≤ (a ++ b).length := by rw [List.length_append]; omega
      rw [remainder_ge (a ++ b) hab, remainder_ge a h56,
        List.drop_append_of_le_length h56,
        ih (a.drop 56).length (by rw [List.length_drop]; omega) (a.drop 56) b rfl]


/-! ## Reassembly: the chained table and the loop of `EnqueuePacket` -/

theorem chainFind_chainSet (uid : Nat) (x : Packet) :
    ∀ (c c1 : List HashNode), chainSet uid x c = some c1 →
      chainFind uid c1 = some { uid := uid, p := x } := by
  intro c
  induction c with
  | nil => intro c1 h; simp [chainSet] at h
  | cons n rest ih =>
    intro c1 h
    simp only [chainSet] at h
    split at h
    · rename_i hn
      simp only [Option.some.injEq] at h
      rw [← h]
      simp [chainFind, hn]
    · rename_i hn
      split at h
      · rename_i rest1 hr
        simp only [Option.some.injEq] at h
        rw [← h]
        simp only [chainFind, hn, if_false]
        exact ih rest1 hr
      · simp at h

theorem chainFind_chainStore (uid : Nat) (x : Packet) (c : List HashNode) :
    chainFind uid (chainStore uid x c) = some { uid := uid, p := x } := by
  unfold chainStore
  split
  · rename_i c1 h
    exact chainFind_chainSet uid x c c1 h
  · simp [chainFind]

theorem DeAggregate_ge (w : LeachWire) (s : RoutingProtocol) (inp : Packet)
    (h : 56 ≤ inp.bytes.length) :
    DeAggregate w s inp =
      (some ({ uid := s.uidCounter,
               bytes := w.Serialize (w.Deserialize (inp.bytes.take w.GetSerializedSize))
                          ++ List.replicate 16 0 },
             w.Deserialize (inp.bytes.take w.GetSerializedSize)),
       { inp with bytes := (inp.bytes.drop w.GetSerializedSize).drop 16 },
       { s with uidCounter := s.uidCounter + 1 }) := by
  unfold DeAggregate
  rw [if_pos (by simpa [Packet.GetSize] using h)]
  rfl

theorem DeAggregate_lt (w : LeachWire) (s : RoutingProtocol) (inp : Packet)
    (h : inp.bytes.length < 56) :
    DeAggregate w s inp =
      (none, inp,
       { s with
         m_hash := Function.update s.m_hash (inp.uid % 1021)
                     (chainStore inp.uid inp (s.m_hash (inp.uid % 1021))) }) := by
  unfold DeAggregate
  rw [if_neg (by simp only [Packet.GetSize]; omega)]

theorem enqueueLoop_ge (w : LeachWire) (now : Time) (header : Ipv4Header)
    (s : RoutingProtocol) (p : Packet) (h : 56 ≤ p.bytes.length) :
    enqueueLoop w now header s p =
      enqueueLoop w now header
        { s with
          uidCounter := s.uidCounter + 1,
          m_queue := PacketQueue.Enqueue s.m_queue
            (QueueEntry.ofPacket w
              { uid := s.uidCounter,
                bytes := w.Serialize (w.Deserialize (p.bytes.take w.GetSerializedSize))
                          ++ List.replicate 16 0 } header),
          timeline := s.timeline ++
            [{ begin := now,
               end_ := (w.Deserialize (p.bytes.take w.GetSerializedSize)).deadline }] }
        { p with bytes := (p.bytes.drop w.GetSerializedSize).drop 16 } := by
  rw [enqueueLoop]
  split
  · rename_i out leachHeader p1 s1 heq
    rw [DeAggregate_ge w s p h] at heq
    simp only [Prod.mk.injEq, Option.some.injEq] at heq
    obtain ⟨⟨h1, h2⟩, h3, h4⟩ := heq
    subst h1; subst h2; subst h3; subst h4
    rfl
  · rename_i x s1 heq
    rw [DeAggregate_ge w s p h] at heq
    simp at heq

theorem enqueueLoop_lt (w : LeachWire) (now : Time) (header : Ipv4Header)
    (s : RoutingProtocol) (p : Packet) (h : p.bytes.length < 56) :
    enqueueLoop w now header s p =
      { s with
        m_hash := Function.update s.m_hash (p.uid % 1021)
                    (chainStore p.uid p (s.m_hash (p.uid % 1021))) } := by
  rw [enqueueLoop]
  split
  · rename_i out leachHeader p1 s1 heq
    rw [DeAggregate_lt w s p h] at heq
    simp at heq
  · rename_i x s1 heq
    rw [DeAggregate_lt w s p h] at heq
    simp only [Prod.mk.injEq] at heq
    obtain ⟨_, _, h3⟩ := heq
    rw [← h3]

theorem enqueueLoop_spec (w : LeachWire) (hsize : w.GetSerializedSize + 16 = 56)
    (now : Time) (header : Ipv4Header) :
    ∀ (n : Nat) (s : RoutingProtocol) (p : Packet), p.bytes.length = n →
      ∃ added : List QueueEntry,
        (enqueueLoop w now header s p).m_queue = s.m_queue ++ added
        ∧ added.map (fun e => e.packet.bytes) = (frames p.bytes).map (frameRecord w)
        ∧ (enqueueLoop w now header s p).m_hash
            = Function.update s.m_hash (p.uid % 1021)
                (chainStore p.uid { p with bytes := remainder p.bytes }
                  (s.m_hash (p.uid % 1021))) := by
  intro n
  induction n using Nat.strong_induction_on with
  | _ n ih =>
    intro s p hn
    by_cases h : p.bytes.length < 56
    · refine ⟨[], ?_, ?_, ?_⟩
      · rw [enqueueLoop_lt w now header s p h]; simp
      · rw [frames_lt p.bytes h]; rfl
      · rw [enqueueLoop_lt w now header s p h, remainder_lt p.bytes h]
    · have h56 : 56 ≤ p.bytes.length := by omega
      rw [enqueueLoop_ge w now header s p h56]
      have hdrop : (p.bytes.drop w.GetSerializedSize).drop 16 = p.bytes.drop 56 := by
        rw [List.drop_drop]; congr 1
      rw [hdrop]
      obtain ⟨added, hq, hb, hh⟩ := ih (p.bytes.drop 56).length
        (by rw [List.length_drop]; omega)
        { s with
          uidCounter := s.uidCounter + 1,
          m_queue := PacketQueue.Enqueue s.m_queue
            (QueueEntry.ofPacket w
              { uid := s.uidCounter,
                bytes := w.Serialize (w.Deserialize (p.bytes.take w.GetSerializedSize))
                          ++ List.replicate 16 0 } header),
          timeline := s.timeline ++
            [{ begin := now,
               end_ := (w.Deserialize (p.bytes.take w.GetSerializedSize)).deadline }] }
        { p with bytes := p.bytes.drop 56 } rfl
      refine ⟨QueueEntry.ofPacket w
              { uid := s.uidCounter,
                bytes := w.Serialize (w.Deserialize (p.bytes.take w.GetSerializedSize))
                          ++ List.replicate 16 0 } header :: added, ?_, ?_, ?_⟩
      · rw [hq]; simp [PacketQueue.Enqueue]
      · rw [frames_ge p.bytes h56, List.map_cons, List.map_cons, hb]
        congr 1
        simp only [QueueEntry.ofPacket, frameRecord, List.take_take]
        have hmin : min w.GetSerializedSize 56 = w.GetSerializedSize := by omega
        rw [hmin]
      · rw [hh, remainder_ge p.bytes h56]


theorem EnqueuePacket_fresh (w : LeachWire) (hsize : w.GetSerializedSize + 16 = 56)
    (s : RoutingProtocol) (f : Fragment)
    (hfresh : chainFind f.p.uid (s.m_hash (f.p.uid % 1021)) = none) :
    ∃ added : List QueueEntry,
      (EnqueuePacket w s f.now f.p f.header).m_queue = s.m_queue ++ added
      ∧ added.map (fun e => e.packet.bytes) = (frames (fragmentBytes f)).map (frameRecord w)
      ∧ chainFind f.p.uid ((EnqueuePacket w s f.now f.p f.header).m_hash (f.p.uid % 1021))
          = some { uid := f.p.uid,
                   p := { uid := f.p.uid, bytes := remainder (fragmentBytes f) } } := by
  unfold EnqueuePacket
  simp only [hfresh]
  obtain ⟨added, hq, hb, hh⟩ := enqueueLoop_spec w hsize f.now f.header _ s
    (if f.header.fragmentOffset = 0 then f.p.RemoveAtStart udpHeaderSize else f.p) rfl
  have huid : (if f.header.fragmentOffset = 0 then f.p.RemoveAtStart udpHeaderSize
      else f.p).uid = f.p.uid := by
    split <;> rfl
  have hbytes : (if f.header.fragmentOffset = 0 then f.p.RemoveAtStart udpHeaderSize
      else f.p).bytes = fragmentBytes f := by
    unfold fragmentBytes
    split <;> rfl
  rw [huid, hbytes] at hh
  rw [hbytes] at hb
  refine ⟨added, hq, hb, ?_⟩
  rw [hh, Function.update_same, chainFind_chainStore]

theorem EnqueuePacket_stored (w : LeachWire) (hsize : w.GetSerializedSize + 16 = 56)
    (s : RoutingProtocol) (f : Fragment) (b : List Nat)
    (hstored : chainFind f.p.uid (s.m_hash (f.p.uid % 1021))
      = some { uid := f.p.uid, p := { uid := f.p.uid, bytes := b } }) :
    ∃ added : List QueueEntry,
      (EnqueuePacket w s f.now f.p f.header).m_queue = s.m_queue ++ added
      ∧ added.map (fun e => e.packet.bytes)
          = (frames (b ++ fragmentBytes f)).map (frameRecord w)
      ∧ chainFind f.p.uid ((EnqueuePacket w s f.now f.p f.header).m_hash (f.p.uid % 1021))
          = some { uid := f.p.uid,
                   p := { uid := f.p.uid, bytes := remainder (b ++ fragmentBytes f) } } := by
  unfold EnqueuePacket
  simp only [hstored]
  have hbytes : (if f.header.fragmentOffset = 0 then f.p.RemoveAtStart udpHeaderSize
      else f.p).bytes = fragmentBytes f := by
    unfold fragmentBytes
    split <;> rfl
  have hmerged : Packet.AddAtEnd { uid := f.p.uid, bytes := b }
      (if f.header.fragmentOffset = 0 then f.p.RemoveAtStart udpHeaderSize else f.p)
      = { uid := f.p.uid, bytes := b ++ fragmentBytes f } := by
    simp only [Packet.AddAtEnd, hbytes]
  rw [hmerged]
  obtain ⟨added, hq, hb, hh⟩ := enqueueLoop_spec w hsize f.now f.header _
    { s with
      m_hash := Function.update s.m_hash (f.p.uid % 1021)
        (chainStore f.p.uid { uid := f.p.uid, bytes := b ++ fragmentBytes f }
          (s.m_hash (f.p.uid % 1021))) }
    { uid := f.p.uid, bytes := b ++ fragmentBytes f } rfl
  refine ⟨added, hq, hb, ?_⟩
  rw [hh, Function.update_same, chainFind_chainStore]

theorem feedFragments_stored (w : LeachWire) (hsize : w.GetSerializedSize + 16 = 56)
    (uid : Nat) :
    ∀ (frs : List Fragment) (s : RoutingProtocol) (b : List Nat),
      (∀ f ∈ frs, f.p.uid = uid) → b.length < 56 →
      chainFind uid (s.m_hash (uid % 1021))
        = some { uid := uid, p := { uid := uid, bytes := b } } →
      ∃ added : List QueueEntry,
        (feedFragments w s frs).m_queue = s.m_queue ++ added
        ∧ added.map (fun e => e.packet.bytes)
            = (frames (b ++ fedStream frs)).map (frameRecord w)
        ∧ chainFind uid ((feedFragments w s frs).m_hash (uid % 1021))
            = some { uid := uid,
                     p := { uid := uid, bytes := remainder (b ++ fedStream frs) } } := by
  intro frs
  induction frs with
  | nil =>
    intro s b _ hb hst
    refine ⟨[], by simp [feedFragments], ?_, ?_⟩
    · simp [fedStream, frames_lt b hb]
    · simp only [feedFragments, List.foldl_nil, fedStream, List.map_nil, List.flatten_nil,
        List.append_nil]
      rw [remainder_lt b hb]
      exact hst
  | cons f rest ih =>
    intro s b huid hb hst
    have hf : f.p.uid = uid := huid f (List.mem_cons_self _ _)
    subst hf
    obtain ⟨added1, hq1, hb1, hh1⟩ := EnqueuePacket_stored w hsize s f b hst
    have hrem : (remainder (b ++ fragmentBytes f)).length < 56 := by
      rw [remainder_length]; omega
    obtain ⟨added2, hq2, hb2, hh2⟩ := ih (EnqueuePacket w s f.now f.p f.header)
      (remainder (b ++ fragmentBytes f))
      (fun g hg => huid g (List.mem_cons_of_mem _ hg)) hrem hh1
    have hstream : b ++ fedStream (f :: rest) = (b ++ fragmentBytes f) ++ fedStream rest := by
      simp [fedStream]
    have hfeed : feedFragments w s (f :: rest)
        = feedFragments w (EnqueuePacket w s f.now f.p f.header) rest := rfl
    refine ⟨added1 ++ added2, ?_, ?_, ?_⟩
    · rw [hfeed, hq2, hq1, List.append_assoc]
    · rw [hstream, frames_append _ (b ++ fragmentBytes f) (fedStream rest) rfl,
        List.map_append, List.map_append, hb1, hb2]
    · rw [hfeed, hh2, hstream,
        remainder_append _ (b ++ fragmentBytes f) (fedStream rest) rfl]

/-- C1: for every non-empty sequence of fragments with one packet identifier fed to
`EnqueuePacket` (no buffer being stored under that identifier beforehand, the control
header occupying 40 of the 56 bytes of a frame), if the bytes fed, after the 8-byte
UDP header is stripped from the offset-0 fragment, total `56*k + r` with `r < 56`,
then exactly `k` queue entries are enqueued over the whole sequence, the `j`-th of
them built from the `j`-th frame of the byte stream, and the buffer stored under the
identifier after the last fragment holds exactly the `r` remaining bytes. -/
theorem C1_reassembly (w : LeachWire) (hsize : w.GetSerializedSize + 16 = 56)
    (s : RoutingProtocol) (uid : Nat) (frs : List Fragment) (k r : Nat)
    (hne : frs ≠ [])
    (huid : ∀ f ∈ frs, f.p.uid = uid)
    (hfresh : chainFind uid (s.m_hash (uid % 1021)) = none)
    (hbytes : (fedStream frs).length = 56 * k + r) (hr : r < 56) :
    ∃ added : List QueueEntry,
      (feedFragments w s frs).m_queue = s.m_queue ++ added
      ∧ added.length = k
      ∧ added.map (fun e => e.packet.bytes) = (frames (fedStream frs)).map (frameRecord w)
      ∧ (frames (fedStream frs)).length = k
      ∧ (chainFind uid ((feedFragments w s frs).m_hash (uid % 1021))).map (fun n => n.p.bytes)
          = some ((fedStream frs).drop (56 * k))
      ∧ ((fedStream frs).drop (56 * k)).length = r := by
  cases frs with
  | nil => exact absurd rfl hne
  | cons f rest =>
    have hf : f.p.uid = uid := huid f (List.mem_cons_self _ _)
    subst hf
    obtain ⟨added1, hq1, hb1, hh1⟩ := EnqueuePacket_fresh w hsize s f hfresh
    have hrem : (remainder (fragmentBytes f)).length < 56 := by
      rw [remainder_length]; omega
    obtain ⟨added2, hq2, hb2, hh2⟩ := feedFragments_stored w hsize f.p.uid rest
      (EnqueuePacket w s f.now f.p f.header) (remainder (fragmentBytes f))
      (fun g hg => huid g (List.mem_cons_of_mem _ hg)) hrem hh1
    have hstream : fedStream (f :: rest) = fragmentBytes f ++ fedStream rest := by
      simp [fedStream]
    have hfeed : feedFragments w s (f :: rest)
        = feedFragments w (EnqueuePacket w s f.now f.p f.header) rest := rfl
    have hk : (fedStream (f :: rest)).length / 56 = k := by rw [hbytes]; omega
    have hmap : (added1 ++ added2).map (fun e => e.packet.bytes)
        = (frames (fedStream (f :: rest))).map (frameRecord w) := by
      rw [hstream, frames_append _ (fragmentBytes f) (fedStream rest) rfl,
        List.map_append, List.map_append, hb1, hb2]
    have hlen : (added1 ++ added2).length = k := by
      have := congrArg List.length hmap
      rw [List.length_map, List.length_map, frames_length, hk] at this
      exact this
    refine ⟨added1 ++ added2, ?_, hlen, hmap, ?_, ?_, ?_⟩
    · rw [hfeed, hq2, hq1, List.append_assoc]
    · rw [frames_length, hk]
    · rw [hfeed, hh2, ← remainder_append _ (fragmentBytes f) (fedStream rest) rfl, ← hstream]
      simp only [Option.map_some', remainder, hk]
    · rw [List.length_drop, hbytes]; omega


/-- Witness of C1: the two fragments of `sampleFragments` fed to a freshly started
node. -/
theorem C1_reassembly_witness :
    sampleWire.GetSerializedSize + 16 = 56
    ∧ sampleFragments ≠ []
    ∧ (∀ f ∈ sampleFragments, f.p.uid = 7)
    ∧ chainFind 7 ((RoutingProtocol.init 167837954).m_hash (7 % 1021)) = none
    ∧ (fedStream sampleFragments).length = 56 * 2 + 8
    ∧ 8 < 56
    ∧ ∃ added : List QueueEntry,
      (feedFragments sampleWire (RoutingProtocol.init 167837954) sampleFragments).m_queue
          = (RoutingProtocol.init 167837954).m_queue ++ added
      ∧ added.length = 2
      ∧ added.map (fun e => e.packet.bytes)
          = (frames (fedStream sampleFragments)).map (frameRecord sampleWire)
      ∧ (frames (fedStream sampleFragments)).length = 2
      ∧ (chainFind 7 ((feedFragments sampleWire (RoutingProtocol.init 167837954)
            sampleFragments).m_hash (7 % 1021))).map (fun n => n.p.bytes)
          = some ((fedStream sampleFragments).drop (56 * 2))
      ∧ ((fedStream sampleFragments).drop (56 * 2)).length = 8 :=
  ⟨rfl, List.cons_ne_nil _ _, by decide, rfl, by decide, by decide,
    C1_reassembly sampleWire rfl (RoutingProtocol.init 167837954) 7 sampleFragments 2 8
      (List.cons_ne_nil _ _) (by decide) rfl (by decide) (by decide)⟩


/-! ## Properties of the `double` arithmetic -/

theorem bitLength_zero : ∀ fuel : Nat, binary64.bitLength fuel 0 = 0 := by
  intro fuel
  cases fuel with
  | zero => rfl
  | succ f => simp [binary64.bitLength]

theorem bitLength_spec :
    ∀ (fuel n : Nat), 0 < n → n ≤ fuel →
      2 ^ (binary64.bitLength fuel n - 1) ≤ n ∧ n < 2 ^ binary64.bitLength fuel n
        ∧ 0 < binary64.bitLength fuel n := by
  intro fuel
  induction fuel with
  | zero => intro n hn hf; omega
  | succ f ih =>
    intro n hn hf
    have hne : n ≠ 0 := by omega
    have hb : binary64.bitLength (f + 1) n = binary64.bitLength f (n / 2) + 1 := by
      simp [binary64.bitLength, hne]
    rw [hb]
    by_cases h2 : n / 2 = 0
    · rw [h2, bitLength_zero]
      have : n = 1 := by omega
      subst this
      simp
    · have hpos : 0 < n / 2 := Nat.pos_of_ne_zero h2
      obtain ⟨h1, h3, h4⟩ := ih (n / 2) hpos (by omega)
      refine ⟨?_, ?_, by omega⟩
      · have e1 : binary64.bitLength f (n / 2) + 1 - 1
            = (binary64.bitLength f (n / 2) - 1) + 1 := by omega
        rw [e1, pow_succ]
        omega
      · rw [pow_succ]
        omega

theorem two_zpow_toNat (e : Int) :
    (2 : ℚ) ^ e.toNat / (2 : ℚ) ^ (-e).toNat = (2 : ℚ) ^ e := by
  by_cases h : 0 ≤ e
  · have h1 : (-e).toNat = 0 := by omega
    have h2 : ((e.toNat : Nat) : Int) = e := Int.toNat_of_nonneg h
    rw [h1, pow_zero, div_one, ← zpow_natCast, h2]
  · have h1 : e.toNat = 0 := by omega
    have h2 : (((-e).toNat : Nat) : Int) = -e := Int.toNat_of_nonneg (by omega)
    rw [h1, pow_zero, ← zpow_natCast, h2, zpow_neg, one_div, inv_inv]

theorem top_spec (n d : Nat) (hn : 0 < n) (hd : 0 < d) :
    (2 : ℚ) ^ binary64.top n d ≤ (n : ℚ) / (d : ℚ)
      ∧ (n : ℚ) / (d : ℚ) < (2 : ℚ) ^ (binary64.top n d + 1) := by
  obtain ⟨n1, n2, n3⟩ := bitLength_spec n n hn (le_refl n)
  obtain ⟨d1, d2, d3⟩ := bitLength_spec d d hd (le_refl d)
  have hdq : (0 : ℚ) < (d : ℚ) := by exact_mod_cast hd
  have hnq : (0 : ℚ) < (n : ℚ) := by exact_mod_cast hn
  have two_pos : ∀ z : Int, (0 : ℚ) < (2 : ℚ) ^ z := fun z => zpow_pos (by norm_num) z
  -- the bounds of numerator and denominator as integer powers
  have N1 : (2 : ℚ) ^ ((binary64.bitLength n n : Int) - 1) ≤ (n : ℚ) := by
    have : (((binary64.bitLength n n - 1 : Nat) : Int)) = (binary64.bitLength n n : Int) - 1 := by
      omega
    rw [← this, zpow_natCast]
    exact_mod_cast n1
  have N2 : (n : ℚ) < (2 : ℚ) ^ ((binary64.bitLength n n : Int)) := by
    rw [zpow_natCast]
    exact_mod_cast n2
  have D1 : (2 : ℚ) ^ ((binary64.bitLength d d : Int) - 1) ≤ (d : ℚ) := by
    have : (((binary64.bitLength d d - 1 : Nat) : Int)) = (binary64.bitLength d d : Int) - 1 := by
      omega
    rw [← this, zpow_natCast]
    exact_mod_cast d1
  have D2 : (d : ℚ) < (2 : ℚ) ^ ((binary64.bitLength d d : Int)) := by
    rw [zpow_natCast]
    exact_mod_cast d2
  -- the quotient lies strictly between 2^(k-1) and 2^(k+1)
  have Q1 : (2 : ℚ) ^ ((binary64.bitLength n n : Int) - (binary64.bitLength d d : Int) - 1)
      ≤ (n : ℚ) / (d : ℚ) := by
    rw [le_div_iff₀ hdq]
    have e1 : (2 : ℚ) ^ ((binary64.bitLength n n : Int) - (binary64.bitLength d d : Int) - 1)
        * (2 : ℚ) ^ ((binary64.bitLength d d : Int))
        = (2 : ℚ) ^ ((binary64.bitLength n n : Int) - 1) := by
      rw [← zpow_add₀ (by norm_num : (2 : ℚ) ≠ 0)]
      congr 1
      ring
    calc (2 : ℚ) ^ ((binary64.bitLength n n : Int) - (binary64.bitLength d d : Int) - 1)
          * (d : ℚ)
        ≤ (2 : ℚ) ^ ((binary64.bitLength n n : Int) - (binary64.bitLength d d : Int) - 1)
          * (2 : ℚ) ^ ((binary64.bitLength d d : Int)) :=
          mul_le_mul_of_nonneg_left (le_of_lt D2) (le_of_lt (two_pos _))
      _ = (2 : ℚ) ^ ((binary64.bitLength n n : Int) - 1) := e1
      _ ≤ (n : ℚ) := N1
  have Q2 : (n : ℚ) / (d : ℚ)
      < (2 : ℚ) ^ ((binary64.bitLength n n : Int) - (binary64.bitLength d d : Int) + 1) := by
    rw [div_lt_iff₀ hdq]
    have e1 : (2 : ℚ) ^ ((binary64.bitLength n n : Int) - (binary64.bitLength d d : Int) + 1)
        * (2 : ℚ) ^ ((binary64.bitLength d d : Int) - 1)
        = (2 : ℚ) ^ ((binary64.bitLength n n : Int)) := by
      rw [← zpow_add₀ (by norm_num : (2 : ℚ) ≠ 0)]
      congr 1
      ring
    calc (n : ℚ) < (2 : ℚ) ^ ((binary64.bitLength n n : Int)) := N2
      _ = (2 : ℚ) ^ ((binary64.bitLength n n : Int) - (binary64.bitLength d d : Int) + 1)
          * (2 : ℚ) ^ ((binary64.bitLength d d : Int) - 1) := e1.symm
      _ ≤ (2 : ℚ) ^ ((binary64.bitLength n n : Int) - (binary64.bitLength d d : Int) + 1)
          * (d : ℚ) := mul_le_mul_of_nonneg_left D1 (le_of_lt (two_pos _))
  -- the test of the definition compares the quotient with 2^k
  have hcond : ∀ k : Int, (d * 2 ^ k.toNat ≤ n * 2 ^ (-k).toNat)
      ↔ (2 : ℚ) ^ k ≤ (n : ℚ) / (d : ℚ) := by
    intro k
    have hp : (0 : ℚ) < (2 : ℚ) ^ (-k).toNat := pow_pos (by norm_num) _
    rw [← two_zpow_toNat k, le_div_iff₀ hdq, div_mul_eq_mul_div, div_le_iff₀ hp]
    constructor
    · intro h
      have : ((d * 2 ^ k.toNat : Nat) : ℚ) ≤ ((n * 2 ^ (-k).toNat : Nat) : ℚ) := by
        exact_mod_cast h
      push_cast at this
      linarith
    · intro h
      have : ((d * 2 ^ k.toNat : Nat) : ℚ) ≤ ((n * 2 ^ (-k).toNat : Nat) : ℚ) := by
        push_cast
        linarith
      exact_mod_cast this
  unfold binary64.top
  simp only []
  by_cases hc : d * 2 ^ ((binary64.bitLength n n : Int) - (binary64.bitLength d d : Int)).toNat
      ≤ n * 2 ^ (-((binary64.bitLength n n : Int) - (binary64.bitLength d d : Int))).toNat
  · rw [if_pos hc]
    exact ⟨(hcond _).mp hc, Q2⟩
  · rw [if_neg hc]
    refine ⟨Q1, ?_⟩
    have := (hcond ((binary64.bitLength n n : Int) - (binary64.bitLength d d : Int))).not.mp hc
    rw [sub_add_cancel]
    exact not_le.mp this


theorem significand_bounds (n d : Nat) (e : Int) :
    n * 2 ^ (-e).toNat / (d * 2 ^ e.toNat) ≤ binary64.significand n d e
      ∧ binary64.significand n d e ≤ n * 2 ^ (-e).toNat / (d * 2 ^ e.toNat) + 1 := by
  unfold binary64.significand
  simp only []
  split
  · omega
  · split
    · omega
    · split <;> omega

theorem scaled_eq (n d : Nat) (e : Int) (hd : 0 < d) :
    ((n * 2 ^ (-e).toNat : Nat) : ℚ) / ((d * 2 ^ e.toNat : Nat) : ℚ)
      = (n : ℚ) / (d : ℚ) / (2 : ℚ) ^ e := by
  have hdq : (d : ℚ) ≠ 0 := by exact_mod_cast (Nat.pos_iff_ne_zero.mp hd)
  have h1 : ((2 : ℚ) ^ e.toNat) ≠ 0 := pow_ne_zero _ (by norm_num)
  have h2 : ((2 : ℚ) ^ (-e).toNat) ≠ 0 := pow_ne_zero _ (by norm_num)
  rw [← two_zpow_toNat e]
  push_cast
  field_simp

theorem roundPos_shape (n d : Nat) (hn : 0 < n) (hd : 0 < d) :
    binary64.roundPos n d
        = (binary64.significand n d (binary64.exponent n d) : ℚ)
            * (2 : ℚ) ^ binary64.exponent n d
    ∧ binary64.significand n d (binary64.exponent n d) ≤ 2 ^ 53
    ∧ (binary64.exponent n d = -1074
        ∨ 2 ^ 52 ≤ binary64.significand n d (binary64.exponent n d)) := by
  obtain ⟨t1, t2⟩ := top_spec n d hn hd
  obtain ⟨s1, s2⟩ := significand_bounds n d (binary64.exponent n d)
  have hdq : (0 : ℚ) < (d : ℚ) := by exact_mod_cast hd
  have two_pos : ∀ z : Int, (0 : ℚ) < (2 : ℚ) ^ z := fun z => zpow_pos (by norm_num) z
  have hden : 0 < d * 2 ^ (binary64.exponent n d).toNat :=
    Nat.mul_pos hd (pow_pos (by decide) _)
  have hdenq : (0 : ℚ) < ((d * 2 ^ (binary64.exponent n d).toNat : Nat) : ℚ) := by
    exact_mod_cast hden
  -- the quotient of the scaled numerator by the scaled denominator
  have hfloor1 : ((n * 2 ^ (-(binary64.exponent n d)).toNat
        / (d * 2 ^ (binary64.exponent n d).toNat) : Nat) : ℚ)
      ≤ (n : ℚ) / (d : ℚ) / (2 : ℚ) ^ binary64.exponent n d := by
    rw [← scaled_eq n d _ hd]
    exact Nat.cast_div_le
  have hfloor2 : (n : ℚ) / (d : ℚ) / (2 : ℚ) ^ binary64.exponent n d
      < ((n * 2 ^ (-(binary64.exponent n d)).toNat
        / (d * 2 ^ (binary64.exponent n d).toNat) : Nat) : ℚ) + 1 := by
    rw [← scaled_eq n d _ hd, div_lt_iff₀ hdenq]
    have := Nat.lt_div_mul_add (a := n * 2 ^ (-(binary64.exponent n d)).toNat) hden
    have h2 : ((n * 2 ^ (-(binary64.exponent n d)).toNat : Nat) : ℚ)
        < ((n * 2 ^ (-(binary64.exponent n d)).toNat
            / (d * 2 ^ (binary64.exponent n d).toNat)
            * (d * 2 ^ (binary64.exponent n d).toNat)
            + d * 2 ^ (binary64.exponent n d).toNat : Nat) : ℚ) := by
      exact_mod_cast this
    push_cast at h2 ⊢
    linarith
  have hexp1 : binary64.top n d - 52 ≤ binary64.exponent n d := le_max_left _ _
  refine ⟨?_, ?_, ?_⟩
  · unfold binary64.roundPos
    simp only []
    rw [← two_zpow_toNat (binary64.exponent n d)]
    push_cast
    rw [mul_div_assoc]
  · -- the scaled quotient is below 2^53
    have hlt : (n : ℚ) / (d : ℚ) / (2 : ℚ) ^ binary64.exponent n d < (2 : ℚ) ^ (53 : Int) := by
      rw [div_lt_iff₀ (two_pos _), ← zpow_add₀ (by norm_num : (2 : ℚ) ≠ 0)]
      exact lt_of_lt_of_le t2 (zpow_le_zpow_right₀ (by norm_num) (by omega))
    have h3 : ((n * 2 ^ (-(binary64.exponent n d)).toNat
        / (d * 2 ^ (binary64.exponent n d).toNat) : Nat) : ℚ) < (2 : ℚ) ^ (53 : Int) :=
      lt_of_le_of_lt hfloor1 hlt
    have h4 : n * 2 ^ (-(binary64.exponent n d)).toNat
        / (d * 2 ^ (binary64.exponent n d).toNat) < 2 ^ 53 := by
      have h5 : (2 : ℚ) ^ (53 : Int) = ((2 ^ 53 : Nat) : ℚ) := by norm_num
      rw [h5] at h3
      exact_mod_cast h3
    omega
  · by_cases hclamp : binary64.exponent n d = -1074
    · exact Or.inl hclamp
    · right
      have hexp : binary64.exponent n d = binary64.top n d - 52 := by
        unfold binary64.exponent at hclamp ⊢
        rcases max_cases (binary64.top n d - 52) (-1074) with h | h
        · exact h.1
        · exact absurd h.1 hclamp
      have hge : (2 : ℚ) ^ (52 : Int)
          ≤ (n : ℚ) / (d : ℚ) / (2 : ℚ) ^ binary64.exponent n d := by
        rw [le_div_iff₀ (two_pos _), ← zpow_add₀ (by norm_num : (2 : ℚ) ≠ 0), hexp]
        have : (52 : Int) + (binary64.top n d - 52) = binary64.top n d := by ring
        rw [this]
        exact t1
      have h3 : (2 : ℚ) ^ (52 : Int)
          < ((n * 2 ^ (-(binary64.exponent n d)).toNat
              / (d * 2 ^ (binary64.exponent n d).toNat) : Nat) : ℚ) + 1 :=
        lt_of_le_of_lt hge hfloor2
      have h4 : 2 ^ 52 < n * 2 ^ (-(binary64.exponent n d)).toNat
          / (d * 2 ^ (binary64.exponent n d).toNat) + 1 := by
        have h5 : (2 : ℚ) ^ (52 : Int) = ((2 ^ 52 : Nat) : ℚ) := by norm_num
        rw [h5] at h3
        exact_mod_cast h3
      omega


theorem roundPos_nonneg (n d : Nat) : 0 ≤ binary64.roundPos n d := by
  unfold binary64.roundPos
  simp only []
  positivity

theorem sentinel_value : binary64 1e100 = 5147557589468029 * (2 : ℚ) ^ (280 : Int) := by
  have h : binary64 1e100 = 5147557589468029 * 2 ^ 280 := by decide!
  rw [h]
  norm_num

theorem roundPos_sentinel (n d : Nat) (hn : 0 < n) (hd : 0 < d)
    (h : binary64.roundPos n d < 5147557589468029 * (2 : ℚ) ^ (280 : Int)) :
    binary64.roundPos n d < 1e100 := by
  obtain ⟨hshape, hm, hnorm⟩ := roundPos_shape n d hn hd
  rw [hshape] at h ⊢
  have two_pos : ∀ z : Int, (0 : ℚ) < (2 : ℚ) ^ z := fun z => zpow_pos (by norm_num) z
  have hmq : ((binary64.significand n d (binary64.exponent n d) : Nat) : ℚ)
      ≤ (2 : ℚ) ^ (53 : Int) := by
    have h5 : (2 : ℚ) ^ (53 : Int) = ((2 ^ 53 : Nat) : ℚ) := by norm_num
    rw [h5]
    exact_mod_cast hm
  have hm0 : (0 : ℚ) ≤ ((binary64.significand n d (binary64.exponent n d) : Nat) : ℚ) :=
    Nat.cast_nonneg _
  rcases lt_trichotomy (binary64.exponent n d) 280 with he | he | he
  · -- at most 2^53 units of at most 2^279
    have h1 : (2 : ℚ) ^ binary64.exponent n d ≤ (2 : ℚ) ^ (279 : Int) :=
      zpow_le_zpow_right₀ (by norm_num) (by omega)
    calc ((binary64.significand n d (binary64.exponent n d) : Nat) : ℚ)
          * (2 : ℚ) ^ binary64.exponent n d
        ≤ (2 : ℚ) ^ (53 : Int) * (2 : ℚ) ^ (279 : Int) :=
          mul_le_mul hmq h1 (le_of_lt (two_pos _)) (le_of_lt (two_pos _))
      _ < 1e100 := by norm_num
  · -- units of 2^280: the significand is below that of the sentinel
    have hz : (2 : ℚ) ^ binary64.exponent n d = (2 : ℚ) ^ (280 : Int) := by rw [he]
    rw [hz] at h ⊢
    have hP : (0 : ℚ) < (2 : ℚ) ^ (280 : Int) := two_pos 280
    have h1 : ((binary64.significand n d (binary64.exponent n d) : Nat) : ℚ)
        < ((5147557589468029 : Nat) : ℚ) := by
      have := (mul_lt_mul_right hP).mp h
      exact_mod_cast this
    have h2 : binary64.significand n d (binary64.exponent n d) < 5147557589468029 := by
      exact_mod_cast h1
    have h3 : binary64.significand n d (binary64.exponent n d) ≤ 5147557589468028 := by
      omega
    have h4 : ((binary64.significand n d (binary64.exponent n d) : Nat) : ℚ)
        ≤ ((5147557589468028 : Nat) : ℚ) := by exact_mod_cast h3
    have h5 : ((5147557589468028 : Nat) : ℚ) = 5147557589468028 := by norm_num
    rw [h5] at h4
    have h6 : (5147557589468028 : ℚ) * (2 : ℚ) ^ (280 : Int) < 1e100 := by norm_num
    exact lt_of_le_of_lt (mul_le_mul_of_nonneg_right h4 (le_of_lt hP)) h6
  · -- a normal significand in units of at least 2^281 is above the sentinel
    exfalso
    have hnorm2 : 2 ^ 52 ≤ binary64.significand n d (binary64.exponent n d) := by
      rcases hnorm with h1 | h1
      · rw [h1] at he
        exact absurd he (by decide)
      · exact h1
    have hmq2 : (2 : ℚ) ^ (52 : Int)
        ≤ ((binary64.significand n d (binary64.exponent n d) : Nat) : ℚ) := by
      have h5 : (2 : ℚ) ^ (52 : Int) = ((2 ^ 52 : Nat) : ℚ) := by norm_num
      rw [h5]
      exact_mod_cast hnorm2
    have h1 : (2 : ℚ) ^ (281 : Int) ≤ (2 : ℚ) ^ binary64.exponent n d :=
      zpow_le_zpow_right₀ (by norm_num) (by omega)
    have h2 : (2 : ℚ) ^ (52 : Int) * (2 : ℚ) ^ (281 : Int)
        ≤ ((binary64.significand n d (binary64.exponent n d) : Nat) : ℚ)
          * (2 : ℚ) ^ binary64.exponent n d :=
      mul_le_mul hmq2 h1 (le_of_lt (two_pos _)) hm0
    have h3 : (5147557589468029 : ℚ) * (2 : ℚ) ^ (280 : Int)
        < (2 : ℚ) ^ (52 : Int) * (2 : ℚ) ^ (281 : Int) := by
      norm_num
    exact absurd h (not_lt.mpr (le_trans (le_of_lt h3) h2))

/-- The value the tick resets the best distance to is written `1e100`; the `double` of
that literal is the binary64 value nearest to `10^100`, just above it.  No binary64
value lies between the two: a computed value is below `10^100` exactly when it is below
the `double` `1e100`. -/
theorem binary64_sentinel (x : ℚ) : binary64 x < 1e100 ↔ binary64 x < binary64 1e100 := by
  rw [sentinel_value]
  constructor
  · intro h
    have hs : (1e100 : ℚ) < 5147557589468029 * (2 : ℚ) ^ (280 : Int) := by norm_num
    exact lt_trans h hs
  · intro h
    unfold binary64 at h ⊢
    by_cases h0 : x = 0
    · rw [if_pos h0]; norm_num
    · have hn : 0 < x.num.natAbs := Int.natAbs_pos.mpr (Rat.num_ne_zero.mpr h0)
      have hd : 0 < x.den := x.den_pos
      rw [if_neg h0] at h ⊢
      by_cases hneg : x < 0
      · rw [if_pos hneg]
        have := roundPos_nonneg x.num.natAbs x.den
        have h1 : (0 : ℚ) < 1e100 := by norm_num
        linarith
      · rw [if_neg hneg] at h ⊢
        exact roundPos_sentinel _ _ hn hd h

/-- A squared distance computed by `RecvLeach` is below `10^100` exactly when it is below
the `double` `1e100`. -/
theorem advertDistance_sentinel (pos : Vector3D) (m : ControlMsg) :
    advertDistance pos m < 1e100 ↔ advertDistance pos m < binary64 1e100 := by
  unfold advertDistance dadd
  exact binary64_sentinel _


/-! ## Claims on the election threshold and on the choice of the head -/

theorem threshold_unfold (R : Nat) :
    PeriodicUpdate.threshold R
      = ddiv (ddiv 1 10) (dsub 1 (dmul (ddiv 1 10) ((R % 10 : Nat) : ℚ))) := by
  unfold PeriodicUpdate.threshold
  norm_num

theorem threshold_of_nine (R : Nat) (h : R % 10 = 9) :
    PeriodicUpdate.threshold R = 1 + 1 / 2 ^ 52 := by
  rw [threshold_unfold, h]
  decide!

/-- C20 (as stated) fails: at the round counter 9 the threshold that `PeriodicUpdate`
computes in `double` is `1 + 2^-52`: it is not 1 and it does not lie in `[1/10, 1]`. -/
theorem C20_counterexample :
    9 % 10 = 9
    ∧ PeriodicUpdate.threshold 9 = 1 + 1 / 2 ^ 52
    ∧ PeriodicUpdate.threshold 9 ≠ 1
    ∧ ¬ PeriodicUpdate.threshold 9 ≤ 1 := by
  refine ⟨by decide, by decide!, by decide!, by decide!⟩

/-- C20 (amended): for every round counter value `R` at the start of a periodic tick, the
election threshold of `PeriodicUpdate` is `t = p/(1 - p*r)` with `p = 1.0/10` and
`r = R mod 10`, every operation rounded to binary64.  In exact arithmetic the expression
equals `1/(10 - r)`; the computed `t` is not below it and exceeds it by at most the
factor `1 + 2^-51`.  The computed divisor is never zero, `t` lies in `[1/10, 1 + 2^-52]`,
and `t` reaches 1 exactly when `r = 9`, where it is `1 + 2^-52` (it is never equal
to 1). -/
theorem C20_threshold (R : Nat) :
    PeriodicUpdate.threshold R
        = ddiv (ddiv 1 10) (dsub 1 (dmul (ddiv 1 10) ((R % 10 : Nat) : ℚ)))
    ∧ (1 / 10 : ℚ) / (1 - (1 / 10 : ℚ) * ((R % 10 : Nat) : ℚ))
        = 1 / (10 - ((R % 10 : Nat) : ℚ))
    ∧ 1 / (10 - ((R % 10 : Nat) : ℚ)) ≤ PeriodicUpdate.threshold R
    ∧ PeriodicUpdate.threshold R ≤ 1 / (10 - ((R % 10 : Nat) : ℚ)) * (1 + 1 / 2 ^ 51)
    ∧ dsub 1 (dmul (ddiv 1 10) ((R % 10 : Nat) : ℚ)) ≠ 0
    ∧ (1 / 10 : ℚ) ≤ PeriodicUpdate.threshold R
    ∧ PeriodicUpdate.threshold R ≤ 1 + 1 / 2 ^ 52
    ∧ (1 ≤ PeriodicUpdate.threshold R ↔ R % 10 = 9)
    ∧ (PeriodicUpdate.threshold R = 1 + 1 / 2 ^ 52 ↔ R % 10 = 9)
    ∧ PeriodicUpdate.threshold R ≠ 1 := by
  have hr : R % 10 < 10 := Nat.mod_lt R (by decide)
  rw [threshold_unfold]
  generalize R % 10 = r at hr
  interval_cases r <;> decide!


theorem RecvLeach_advert (s : RoutingProtocol) (m : ControlMsg) (hsink : s.isSink = false)
    (hmark : m.leachHeader.address = broadcastMarker) :
    RecvLeach s m.sender m.receiver m.leachHeader =
      if advertDistance s.m_position m < s.m_dist then
        { s with
          m_dist := advertDistance s.m_position m,
          m_targetAddress := m.sender,
          m_bestRoute :=
            { destination := s.m_sinkAddress, nextHop := m.sender, iface := m.receiver,
              flagValid := true, seqNo := 0, hopCount := 0 } }
      else s := by
  unfold RecvLeach advertDistance
  simp only [hsink, hmark, Bool.false_eq_true, if_false, if_true]

theorem recvAll_adverts (pos : Vector3D) :
    ∀ (msgs : List ControlMsg) (s : RoutingProtocol), s.isSink = false →
      s.m_position = pos →
      (∀ m ∈ msgs, m.leachHeader.address = broadcastMarker) →
      ((∀ m ∈ msgs, s.m_dist ≤ advertDistance pos m)
          ∧ (recvAll s msgs).m_dist = s.m_dist
          ∧ (recvAll s msgs).m_targetAddress = s.m_targetAddress
          ∧ (recvAll s msgs).m_bestRoute = s.m_bestRoute)
      ∨ (∃ (before : List ControlMsg) (best : ControlMsg) (after : List ControlMsg),
          msgs = before ++ best :: after
          ∧ advertDistance pos best < s.m_dist
          ∧ (∀ m ∈ before, advertDistance pos best < advertDistance pos m)
          ∧ (∀ m ∈ after, advertDistance pos best ≤ advertDistance pos m)
          ∧ (recvAll s msgs).m_dist = advertDistance pos best
          ∧ (recvAll s msgs).m_targetAddress = best.sender
          ∧ (recvAll s msgs).m_bestRoute.nextHop = best.sender) := by
  intro msgs
  induction msgs with
  | nil =>
    intro s _ _ _
    left
    exact ⟨by simp, rfl, rfl, rfl⟩
  | cons a rest ih =>
    intro s hsink hpos hmark
    subst hpos
    have ha := hmark a (List.mem_cons_self _ _)
    have hrest : ∀ m ∈ rest, m.leachHeader.address = broadcastMarker :=
      fun m hm => hmark m (List.mem_cons_of_mem _ hm)
    have hstep : recvAll s (a :: rest)
        = recvAll (RecvLeach s a.sender a.receiver a.leachHeader) rest := rfl
    rw [hstep, RecvLeach_advert s a hsink ha]
    by_cases hlt : advertDistance s.m_position a < s.m_dist
    · rw [if_pos hlt]
      rcases ih { s with
          m_dist := advertDistance s.m_position a,
          m_targetAddress := a.sender,
          m_bestRoute :=
            { destination := s.m_sinkAddress, nextHop := a.sender, iface := a.receiver,
              flagValid := true, seqNo := 0, hopCount := 0 } } hsink rfl hrest with h | h
      · obtain ⟨hall, hd, ht, hb⟩ := h
        right
        refine ⟨[], a, rest, rfl, hlt, by simp, hall, hd, ht, ?_⟩
        rw [hb]
      · obtain ⟨before, best, after, hsplit, hbest, hbefore, hafter, hd, ht, hb⟩ := h
        right
        refine ⟨a :: before, best, after, by rw [hsplit]; rfl, lt_trans hbest hlt, ?_, hafter,
          hd, ht, hb⟩
        intro m hm
        rcases List.mem_cons.mp hm with h1 | h1
        · rw [h1]; exact hbest
        · exact hbefore m h1
    · rw [if_neg hlt]
      have hge : s.m_dist ≤ advertDistance s.m_position a := not_lt.mp hlt
      rcases ih s hsink rfl hrest with h | h
      · obtain ⟨hall, hd, ht, hb⟩ := h
        left
        refine ⟨?_, hd, ht, hb⟩
        intro m hm
        rcases List.mem_cons.mp hm with h1 | h1
        · rw [h1]; exact hge
        · exact hall m h1
      · obtain ⟨before, best, after, hsplit, hbest, hbefore, hafter, hd, ht, hb⟩ := h
        right
        refine ⟨a :: before, best, after, by rw [hsplit]; rfl, hbest, ?_, hafter, hd, ht, hb⟩
        intro m hm
        rcases List.mem_cons.mp hm with h1 | h1
        · rw [h1]; exact lt_of_lt_of_le hbest hge
        · exact hbefore m h1

theorem PeriodicUpdate_reset (s : RoutingProtocol) (prob : ℚ) :
    (PeriodicUpdate s prob).m_dist = 1e100
    ∧ (PeriodicUpdate s prob).m_position = s.m_position
    ∧ (PeriodicUpdate s prob).isSink = s.isSink
    ∧ (PeriodicUpdate s prob).m_clusterMember = []
    ∧ (PeriodicUpdate s prob).m_bestRoute = RoutingTableEntry.blank := by
  unfold PeriodicUpdate
  simp only []
  split <;> exact ⟨rfl, rfl, rfl, rfl, rfl⟩

/-- C11 (as stated) fails: after a periodic tick, a non-sink node that receives one head
advertisement whose position is `10^51` away along `x` (squared distance about `10^102`,
not below the `1e100` the tick resets the best distance to) records neither the sender
as its best head nor that distance. -/
theorem C11_counterexample :
    (RoutingProtocol.init 167837955).isSink = false
    ∧ [sampleAdvert (10 ^ 51) 0] ≠ []
    ∧ (∀ m ∈ [sampleAdvert (10 ^ 51) 0], m.leachHeader.address = broadcastMarker)
    ∧ (recvAll (PeriodicUpdate (RoutingProtocol.init 167837955) 1)
          [sampleAdvert (10 ^ 51) 0]).m_targetAddress ≠ (sampleAdvert (10 ^ 51) 0).sender
    ∧ (recvAll (PeriodicUpdate (RoutingProtocol.init 167837955) 1)
          [sampleAdvert (10 ^ 51) 0]).m_dist
        ≠ advertDistance (RoutingProtocol.init 167837955).m_position
            (sampleAdvert (10 ^ 51) 0) := by
  refine ⟨by decide, by simp, by decide, by decide!, by decide!⟩

/-- C11 (amended): for every sequence of head advertisements (header address equal to
the broadcast marker) received by a non-sink node after a periodic tick, at least one of
which has a squared distance `dx*dx + dy*dy` to the node's own position below `1e100`
(the value the tick resets the best distance to), the recorded best head is the sender
of the earliest advertisement whose squared distance is minimal over the sequence, and
the recorded best squared distance equals that minimum (a later advertisement at an
equal distance does not replace the earlier one).  The squared distance is the one
`RecvLeach` computes in `double` (`advertDistance`): two positions whose exact distances
differ by less than the rounding are at an equal distance. -/
theorem C11_best_head (s0 : RoutingProtocol) (prob : ℚ) (msgs : List ControlMsg)
    (hsink : s0.isSink = false)
    (hmark : ∀ m ∈ msgs, m.leachHeader.address = broadcastMarker)
    (hclose : ∃ m ∈ msgs, advertDistance s0.m_position m < 1e100) :
    ∃ (before : List ControlMsg) (best : ControlMsg) (after : List ControlMsg),
      msgs = before ++ best :: after
      ∧ (∀ m ∈ before, advertDistance s0.m_position best < advertDistance s0.m_position m)
      ∧ (∀ m ∈ after, advertDistance s0.m_position best ≤ advertDistance s0.m_position m)
      ∧ (recvAll (PeriodicUpdate s0 prob) msgs).m_targetAddress = best.sender
      ∧ (recvAll (PeriodicUpdate s0 prob) msgs).m_dist = advertDistance s0.m_position best
      ∧ (recvAll (PeriodicUpdate s0 prob) msgs).m_bestRoute.nextHop = best.sender := by
  obtain ⟨hd, hp, hs, _, _⟩ := PeriodicUpdate_reset s0 prob
  rcases recvAll_adverts s0.m_position msgs (PeriodicUpdate s0 prob) (by rw [hs]; exact hsink)
    hp hmark with h | h
  · obtain ⟨hall, _, _, _⟩ := h
    obtain ⟨m, hm, hlt⟩ := hclose
    have := hall m hm
    rw [hd] at this
    exact absurd hlt (not_lt.mpr this)
  · obtain ⟨before, best, after, hsplit, _, hbefore, hafter, hdist, ht, hb⟩ := h
    exact ⟨before, best, after, hsplit, hbefore, hafter, ht, hdist, hb⟩

theorem sampleAdverts_mark :
    ∀ m ∈ [sampleAdvert 7 1, sampleAdvert2 3 4, sampleAdvert 3 4],
      m.leachHeader.address = broadcastMarker := by
  decide

theorem sampleAdverts_close :
    ∃ m ∈ [sampleAdvert 7 1, sampleAdvert2 3 4, sampleAdvert 3 4],
      advertDistance (RoutingProtocol.init 167837955).m_position m < 1e100 :=
  ⟨sampleAdvert 7 1, List.mem_cons_self _ _, by decide!⟩

/-- Witness of the amended C11: three advertisements, the second and the third at the
same minimal distance. -/
theorem C11_best_head_witness :
    (RoutingProtocol.init 167837955).isSink = false
    ∧ (∀ m ∈ [sampleAdvert 7 1, sampleAdvert2 3 4, sampleAdvert 3 4],
        m.leachHeader.address = broadcastMarker)
    ∧ (∃ m ∈ [sampleAdvert 7 1, sampleAdvert2 3 4, sampleAdvert 3 4],
        advertDistance (RoutingProtocol.init 167837955).m_position m < 1e100)
    ∧ ∃ (before : List ControlMsg) (best : ControlMsg) (after : List ControlMsg),
      [sampleAdvert 7 1, sampleAdvert2 3 4, sampleAdvert 3 4] = before ++ best :: after
      ∧ (∀ m ∈ before, advertDistance (RoutingProtocol.init 167837955).m_position best
            < advertDistance (RoutingProtocol.init 167837955).m_position m)
      ∧ (∀ m ∈ after, advertDistance (RoutingProtocol.init 167837955).m_position best
            ≤ advertDistance (RoutingProtocol.init 167837955).m_position m)
      ∧ (recvAll (PeriodicUpdate (RoutingProtocol.init 167837955) 1)
            [sampleAdvert 7 1, sampleAdvert2 3 4, sampleAdvert 3 4]).m_targetAddress
          = best.sender
      ∧ (recvAll (PeriodicUpdate (RoutingProtocol.init 167837955) 1)
            [sampleAdvert 7 1, sampleAdvert2 3 4, sampleAdvert 3 4]).m_dist
          = advertDistance (RoutingProtocol.init 167837955).m_position best
      ∧ (recvAll (PeriodicUpdate (RoutingProtocol.init 167837955) 1)
            [sampleAdvert 7 1, sampleAdvert2 3 4, sampleAdvert 3 4]).m_bestRoute.nextHop
          = best.sender :=
  ⟨by decide, sampleAdverts_mark, sampleAdverts_close,
    C11_best_head (RoutingProtocol.init 167837955) 1
      [sampleAdvert 7 1, sampleAdvert2 3 4, sampleAdvert 3 4] (by decide)
      sampleAdverts_mark sampleAdverts_close⟩


/-- Two advertisements whose exact squared distances differ (`9 + 10^-18` and `9`) but
whose squared distances computed in `double` are both 9: the later one does not replace
the earlier one, although it is closer in exact arithmetic. -/
theorem recvAll_near_tie :
    advertDistance (RoutingProtocol.init 167837955).m_position (sampleAdvert 3 (1 / 10 ^ 9)) = 9
    ∧ advertDistance (RoutingProtocol.init 167837955).m_position (sampleAdvert2 3 0) = 9
    ∧ (recvAll (PeriodicUpdate (RoutingProtocol.init 167837955) 1)
          [sampleAdvert 3 (1 / 10 ^ 9), sampleAdvert2 3 0]).m_targetAddress
        = (sampleAdvert 3 (1 / 10 ^ 9)).sender := by
  refine ⟨by decide!, by decide!, by decide!⟩


/-! ## Claims on the join -/

theorem RecvLeach_cases (s : RoutingProtocol) (m : ControlMsg) (hsink : s.isSink = false) :
    RecvLeach s m.sender m.receiver m.leachHeader =
      if m.leachHeader.address = broadcastMarker then
        if advertDistance s.m_position m < s.m_dist then
          { s with
            m_dist := advertDistance s.m_position m,
            m_targetAddress := m.sender,
            m_bestRoute :=
              { destination := s.m_sinkAddress, nextHop := m.sender, iface := m.receiver,
                flagValid := true, seqNo := 0, hopCount := 0 } }
        else s
      else { s with m_clusterMember := s.m_clusterMember ++ [m.leachHeader.address] } := by
  unfold RecvLeach advertDistance
  simp only [hsink, Bool.false_eq_true, if_false]

theorem RecvLeach_frame (s : RoutingProtocol) (m : ControlMsg) :
    (RecvLeach s m.sender m.receiver m.leachHeader).m_routingTable = s.m_routingTable
    ∧ (RecvLeach s m.sender m.receiver m.leachHeader).m_mainAddress = s.m_mainAddress
    ∧ (RecvLeach s m.sender m.receiver m.leachHeader).m_sinkAddress = s.m_sinkAddress
    ∧ (RecvLeach s m.sender m.receiver m.leachHeader).m_position = s.m_position
    ∧ (RecvLeach s m.sender m.receiver m.leachHeader).isSink = s.isSink := by
  unfold RecvLeach
  split
  · exact ⟨rfl, rfl, rfl, rfl, rfl⟩
  · split
    · simp only []
      split <;> exact ⟨rfl, rfl, rfl, rfl, rfl⟩
    · exact ⟨rfl, rfl, rfl, rfl, rfl⟩

theorem recvAll_frame :
    ∀ (msgs : List ControlMsg) (s : RoutingProtocol),
      (recvAll s msgs).m_routingTable = s.m_routingTable
      ∧ (recvAll s msgs).m_mainAddress = s.m_mainAddress
      ∧ (recvAll s msgs).m_sinkAddress = s.m_sinkAddress
      ∧ (recvAll s msgs).m_position = s.m_position
      ∧ (recvAll s msgs).isSink = s.isSink := by
  intro msgs
  induction msgs with
  | nil => intro s; exact ⟨rfl, rfl, rfl, rfl, rfl⟩
  | cons a rest ih =>
    intro s
    have hstep : recvAll s (a :: rest)
        = recvAll (RecvLeach s a.sender a.receiver a.leachHeader) rest := rfl
    obtain ⟨h1, h2, h3, h4, h5⟩ := ih (RecvLeach s a.sender a.receiver a.leachHeader)
    obtain ⟨g1, g2, g3, g4, g5⟩ := RecvLeach_frame s a
    rw [hstep, h1, h2, h3, h4, h5]
    exact ⟨g1, g2, g3, g4, g5⟩

theorem RecvLeach_recorded (s : RoutingProtocol) (m : ControlMsg) (hsink : s.isSink = false)
    (hm : m.sender ≠ unsetAddress ∧ m.receiver ≠ unsetAddress) (hgood : bestHeadRecorded s) :
    bestHeadRecorded (RecvLeach s m.sender m.receiver m.leachHeader) := by
  rw [RecvLeach_cases s m hsink]
  split
  · split
    · exact ⟨hm.1, hm.2, rfl, rfl, rfl⟩
    · exact hgood
  · exact hgood

theorem recvAll_recorded :
    ∀ (msgs : List ControlMsg) (s : RoutingProtocol), s.isSink = false →
      (∀ m ∈ msgs, m.sender ≠ unsetAddress ∧ m.receiver ≠ unsetAddress) →
      bestHeadRecorded s → bestHeadRecorded (recvAll s msgs) := by
  intro msgs
  induction msgs with
  | nil => intro s _ _ h; exact h
  | cons a rest ih =>
    intro s hsink hm hgood
    have hstep : recvAll s (a :: rest)
        = recvAll (RecvLeach s a.sender a.receiver a.leachHeader) rest := rfl
    rw [hstep]
    exact ih _ (by rw [(RecvLeach_frame s a).2.2.2.2]; exact hsink)
      (fun m h => hm m (List.mem_cons_of_mem _ h))
      (RecvLeach_recorded s a hsink (hm a (List.mem_cons_self _ _)) hgood)

theorem recvAll_unset (pos : Vector3D) :
    ∀ (msgs : List ControlMsg) (s : RoutingProtocol), s.isSink = false →
      s.m_position = pos →
      (∀ m ∈ msgs, m.sender ≠ unsetAddress ∧ m.receiver ≠ unsetAddress) →
      s.m_targetAddress = unsetAddress → s.m_dist = 1e100 →
      ((∃ m ∈ msgs, m.leachHeader.address = broadcastMarker ∧ advertDistance pos m < 1e100)
          ∧ bestHeadRecorded (recvAll s msgs))
      ∨ ((¬ ∃ m ∈ msgs, m.leachHeader.address = broadcastMarker
              ∧ advertDistance pos m < 1e100)
          ∧ (recvAll s msgs).m_targetAddress = unsetAddress) := by
  intro msgs
  induction msgs with
  | nil =>
    intro s _ _ _ ht _
    right
    exact ⟨by simp, ht⟩
  | cons a rest ih =>
    intro s hsink hpos hm ht hd
    subst hpos
    have hstep : recvAll s (a :: rest)
        = recvAll (RecvLeach s a.sender a.receiver a.leachHeader) rest := rfl
    have hrest : ∀ m ∈ rest, m.sender ≠ unsetAddress ∧ m.receiver ≠ unsetAddress :=
      fun m h => hm m (List.mem_cons_of_mem _ h)
    have ha := hm a (List.mem_cons_self _ _)
    rw [hstep]
    by_cases hrec : a.leachHeader.address = broadcastMarker
        ∧ advertDistance s.m_position a < 1e100
    · left
      refine ⟨⟨a, List.mem_cons_self _ _, hrec⟩, ?_⟩
      apply recvAll_recorded rest _ (by rw [(RecvLeach_frame s a).2.2.2.2]; exact hsink) hrest
      rw [RecvLeach_cases s a hsink, if_pos hrec.1, hd, if_pos hrec.2]
      exact ⟨ha.1, ha.2, rfl, rfl, rfl⟩
    · have hkeep : (RecvLeach s a.sender a.receiver a.leachHeader).m_targetAddress
            = unsetAddress
          ∧ (RecvLeach s a.sender a.receiver a.leachHeader).m_dist = 1e100 := by
        rw [RecvLeach_cases s a hsink]
        by_cases hmk : a.leachHeader.address = broadcastMarker
        · rw [if_pos hmk, hd, if_neg (fun h => hrec ⟨hmk, h⟩)]
          exact ⟨ht, hd⟩
        · rw [if_neg hmk]
          exact ⟨ht, hd⟩
      obtain ⟨_, _, _, hp, hs⟩ := RecvLeach_frame s a
      rcases ih (RecvLeach s a.sender a.receiver a.leachHeader) (by rw [hs]; exact hsink) hp
        hrest hkeep.1 hkeep.2 with h | h
      · left
        obtain ⟨⟨m, hmem, hmm⟩, hg⟩ := h
        exact ⟨⟨m, List.mem_cons_of_mem _ hmem, hmm⟩, hg⟩
      · right
        obtain ⟨hno, htt⟩ := h
        refine ⟨?_, htt⟩
        rintro ⟨m, hmem, hmm⟩
        rcases List.mem_cons.mp hmem with h1 | h1
        · rw [h1] at hmm; exact hrec hmm
        · exact hno ⟨m, h1, hmm⟩


theorem find_cons_pos {α : Type} (p : α → Bool) (a : α) (l : List α) (h : p a = true) :
    (a :: l).find? p = some a := by
  simp [List.find?_cons, h]

theorem find_cons_neg {α : Type} (p : α → Bool) (a : α) (l : List α) (h : ¬ p a = true) :
    (a :: l).find? p = l.find? p := by
  simp [List.find?_cons, h]

theorem find_DeleteRoute (x d : Ipv4Address) (f : RoutingTableEntry → Bool) :
    ∀ t : List RoutingTableEntry,
      (RoutingTable.DeleteRoute t x).find? (fun e => decide (e.destination = d) && f e)
        = if d = x then none else t.find? (fun e => decide (e.destination = d) && f e) := by
  intro t
  induction t with
  | nil => simp [RoutingTable.DeleteRoute]
  | cons a t ih =>
    unfold RoutingTable.DeleteRoute at ih ⊢
    by_cases ha : a.destination = x
    · rw [List.filter_cons_of_neg (by simpa using ha), ih]
      by_cases hd : d = x
      · rw [if_pos hd, if_pos hd]
      · rw [if_neg hd, if_neg hd]
        have hne : ¬ a.destination = d := fun h => hd (by rw [← h, ha])
        rw [find_cons_neg (fun e => decide (e.destination = d) && f e) a t (by simp [hne])]
    · rw [List.filter_cons_of_pos (by simpa using ha)]
      by_cases hp : (decide (a.destination = d) && f a) = true
      · rw [find_cons_pos (fun e => decide (e.destination = d) && f e) a _ hp,
          find_cons_pos (fun e => decide (e.destination = d) && f e) a _ hp]
        have hda : a.destination = d := by
          simp only [Bool.and_eq_true, decide_eq_true_eq] at hp
          exact hp.1
        rw [if_neg (fun h => ha (by rw [hda, h]))]
      · rw [find_cons_neg (fun e => decide (e.destination = d) && f e) a _ hp,
          find_cons_neg (fun e => decide (e.destination = d) && f e) a _ hp, ih]

theorem lookup_DeleteRoute (t : List RoutingTableEntry) (x d : Ipv4Address) (b : Bool) :
    RoutingTable.LookupRouteWithInvalid (RoutingTable.DeleteRoute t x) d b
      = if d = x then none else RoutingTable.LookupRouteWithInvalid t d b := by
  unfold RoutingTable.LookupRouteWithInvalid
  exact find_DeleteRoute x d (fun e => e.flagValid || b) t

theorem lookup_AddRoute (t : List RoutingTableEntry) (e : RoutingTableEntry)
    (d : Ipv4Address) (b : Bool) :
    RoutingTable.LookupRouteWithInvalid (RoutingTable.AddRoute t e) d b
      = if d = e.destination then (if (e.flagValid || b) = true then some e else none)
        else RoutingTable.LookupRouteWithInvalid t d b := by
  unfold RoutingTable.AddRoute
  have h := lookup_DeleteRoute t e.destination d b
  unfold RoutingTable.LookupRouteWithInvalid at h ⊢
  rw [List.find?_append, h]
  by_cases hd : d = e.destination
  · rw [if_pos hd, if_pos hd]
    by_cases hv : (e.flagValid || b) = true
    · rw [if_pos hv, find_cons_pos (fun e => decide (e.destination = d)
          && (e.flagValid || b)) e [] (by simp only [hd, decide_True, Bool.true_and]; exact hv)]
      rfl
    · rw [if_neg hv, find_cons_neg (fun e => decide (e.destination = d)
          && (e.flagValid || b)) e [] (by simp only [hd, decide_True, Bool.true_and]; exact hv)]
      rfl
  · rw [if_neg hd, if_neg hd]
    have hne : ¬ e.destination = d := fun h => hd h.symm
    rw [find_cons_neg (fun e => decide (e.destination = d)
          && (e.flagValid || b)) e [] (by simp [hne])]
    simp

theorem LookupRoute_eq (t : List RoutingTableEntry) (d : Ipv4Address) :
    RoutingTable.LookupRoute t d = RoutingTable.LookupRouteWithInvalid t d false := by
  unfold RoutingTable.LookupRoute RoutingTable.LookupRouteWithInvalid
  simp

theorem RespondToClusterHead_unset (s : RoutingProtocol)
    (h : s.m_targetAddress = unsetAddress) : RespondToClusterHead s = (s, []) := by
  unfold RespondToClusterHead
  simp [h]

theorem RespondToClusterHead_recorded (s : RoutingProtocol) (h : bestHeadRecorded s) :
    (RespondToClusterHead s).2
        = [Action.sendTo s.m_targetAddress LEACH_PORT
            { LeachHeader.blank with address := s.m_mainAddress }]
    ∧ (RespondToClusterHead s).1.m_routingTable
        = RoutingTable.AddRoute (RoutingTable.AddRoute s.m_routingTable s.m_bestRoute)
            { s.m_bestRoute with destination := s.m_targetAddress } := by
  obtain ⟨ht, hi, _, _, _⟩ := h
  unfold RespondToClusterHead
  simp only [ne_eq, ht, not_false_eq_true, if_true, hi]
  simp


theorem PeriodicUpdate_member_target (s : RoutingProtocol) (prob : ℚ)
    (h : (PeriodicUpdate s prob).cluster_head_this_round = false) :
    (PeriodicUpdate s prob).m_targetAddress = unsetAddress := by
  unfold PeriodicUpdate at h ⊢
  simp only [] at h ⊢
  split
  · rename_i hc
    rw [if_pos hc] at h
    simp at h
  · rfl

/-- C12: `RespondToClusterHead`, run by a non-sink node after a periodic tick that left
it member and the control messages received since, sends a join message if and only if
a best head was recorded since the tick (some head advertisement was closer than the
`1e100` the tick resets the best distance to).  When none was recorded it sends nothing
and leaves the routing table unchanged; when one was recorded it unicasts exactly one
join message, carrying the node's own address, to the best head, and the routing table
then resolves the sink to the best route (whose next hop is the best head) and the best
head to the best route with its destination overwritten by the best head. -/
theorem C12_respond (s0 : RoutingProtocol) (prob : ℚ) (msgs : List ControlMsg)
    (hsink : s0.isSink = false)
    (hmember : (PeriodicUpdate s0 prob).cluster_head_this_round = false)
    (hconfigured : ∀ m ∈ msgs, m.sender ≠ unsetAddress ∧ m.receiver ≠ unsetAddress) :
    ((RespondToClusterHead (recvAll (PeriodicUpdate s0 prob) msgs)).2 ≠ [] ↔
        ∃ m ∈ msgs, m.leachHeader.address = broadcastMarker
          ∧ advertDistance s0.m_position m < 1e100)
    ∧ ((∃ m ∈ msgs, m.leachHeader.address = broadcastMarker
          ∧ advertDistance s0.m_position m < 1e100)
        ∨ ((RespondToClusterHead (recvAll (PeriodicUpdate s0 prob) msgs)).2 = []
            ∧ (RespondToClusterHead (recvAll (PeriodicUpdate s0 prob) msgs)).1.m_routingTable
                = (recvAll (PeriodicUpdate s0 prob) msgs).m_routingTable))
    ∧ ((¬ ∃ m ∈ msgs, m.leachHeader.address = broadcastMarker
          ∧ advertDistance s0.m_position m < 1e100)
        ∨ ((RespondToClusterHead (recvAll (PeriodicUpdate s0 prob) msgs)).2
              = [Action.sendTo (recvAll (PeriodicUpdate s0 prob) msgs).m_targetAddress LEACH_PORT
                  { LeachHeader.blank with
                    address := (recvAll (PeriodicUpdate s0 prob) msgs).m_mainAddress }]
            ∧ (recvAll (PeriodicUpdate s0 prob) msgs).m_bestRoute.nextHop
                = (recvAll (PeriodicUpdate s0 prob) msgs).m_targetAddress
            ∧ RoutingTable.LookupRoute
                (RespondToClusterHead (recvAll (PeriodicUpdate s0 prob) msgs)).1.m_routingTable
                (recvAll (PeriodicUpdate s0 prob) msgs).m_sinkAddress
                = some (recvAll (PeriodicUpdate s0 prob) msgs).m_bestRoute
            ∧ RoutingTable.LookupRoute
                (RespondToClusterHead (recvAll (PeriodicUpdate s0 prob) msgs)).1.m_routingTable
                (recvAll (PeriodicUpdate s0 prob) msgs).m_targetAddress
                = some { (recvAll (PeriodicUpdate s0 prob) msgs).m_bestRoute with
                    destination := (recvAll (PeriodicUpdate s0 prob) msgs).m_targetAddress })) := by
  obtain ⟨hd, hp, hs, _, _⟩ := PeriodicUpdate_reset s0 prob
  have ht := PeriodicUpdate_member_target s0 prob hmember
  rcases recvAll_unset s0.m_position msgs (PeriodicUpdate s0 prob) (by rw [hs]; exact hsink)
    hp hconfigured ht hd with h | h
  · obtain ⟨hrec, hgood⟩ := h
    obtain ⟨hsent, htable⟩ := RespondToClusterHead_recorded _ hgood
    obtain ⟨_, _, hnext, hdest, hvalid⟩ := hgood
    refine ⟨⟨fun _ => hrec, fun _ => by rw [hsent]; simp⟩, Or.inl hrec, Or.inr ⟨hsent, hnext, ?_, ?_⟩⟩
    · rw [htable, LookupRoute_eq, lookup_AddRoute, lookup_AddRoute]
      by_cases hst : (recvAll (PeriodicUpdate s0 prob) msgs).m_sinkAddress
          = (recvAll (PeriodicUpdate s0 prob) msgs).m_targetAddress
      · rw [if_pos hst, hvalid]
        simp only [Bool.true_or, if_true, Option.some.injEq]
        rw [← hst, ← hdest]
      · rw [if_neg hst, if_pos hdest.symm, hvalid]
        rfl
    · rw [htable, LookupRoute_eq, lookup_AddRoute, if_pos rfl, hvalid]
      rfl
  · obtain ⟨hno, htt⟩ := h
    have hr := RespondToClusterHead_unset _ htt
    refine ⟨⟨fun hne => absurd (by rw [hr]) hne, fun hrec => absurd hrec hno⟩,
      Or.inr ⟨by rw [hr], by rw [hr]⟩, Or.inl hno⟩


/-- Witness of C12: a freshly started member node that has received two head
advertisements. -/
theorem C12_respond_witness :
    sampleStart.isSink = false
    ∧ (PeriodicUpdate sampleStart 1).cluster_head_this_round = false
    ∧ (∀ m ∈ sampleAdverts, m.sender ≠ unsetAddress ∧ m.receiver ≠ unsetAddress)
    ∧ (((RespondToClusterHead (recvAll (PeriodicUpdate sampleStart 1) sampleAdverts)).2 ≠ [] ↔
        ∃ m ∈ sampleAdverts, m.leachHeader.address = broadcastMarker
          ∧ advertDistance sampleStart.m_position m < 1e100)
    ∧ ((∃ m ∈ sampleAdverts, m.leachHeader.address = broadcastMarker
          ∧ advertDistance sampleStart.m_position m < 1e100)
        ∨ ((RespondToClusterHead (recvAll (PeriodicUpdate sampleStart 1) sampleAdverts)).2 = []
            ∧ (RespondToClusterHead (recvAll (PeriodicUpdate sampleStart 1) sampleAdverts)).1.m_routingTable
                = (recvAll (PeriodicUpdate sampleStart 1) sampleAdverts).m_routingTable))
    ∧ ((¬ ∃ m ∈ sampleAdverts, m.leachHeader.address = broadcastMarker
          ∧ advertDistance sampleStart.m_position m < 1e100)
        ∨ ((RespondToClusterHead (recvAll (PeriodicUpdate sampleStart 1) sampleAdverts)).2
              = [Action.sendTo (recvAll (PeriodicUpdate sampleStart 1) sampleAdverts).m_targetAddress LEACH_PORT
                  { LeachHeader.blank with
                    address := (recvAll (PeriodicUpdate sampleStart 1) sampleAdverts).m_mainAddress }]
            ∧ (recvAll (PeriodicUpdate sampleStart 1) sampleAdverts).m_bestRoute.nextHop
                = (recvAll (PeriodicUpdate sampleStart 1) sampleAdverts).m_targetAddress
            ∧ RoutingTable.LookupRoute
                (RespondToClusterHead (recvAll (PeriodicUpdate sampleStart 1) sampleAdverts)).1.m_routingTable
                (recvAll (PeriodicUpdate sampleStart 1) sampleAdverts).m_sinkAddress
                = some (recvAll (PeriodicUpdate sampleStart 1) sampleAdverts).m_bestRoute
            ∧ RoutingTable.LookupRoute
                (RespondToClusterHead (recvAll (PeriodicUpdate sampleStart 1) sampleAdverts)).1.m_routingTable
                (recvAll (PeriodicUpdate sampleStart 1) sampleAdverts).m_targetAddress
                = some { (recvAll (PeriodicUpdate sampleStart 1) sampleAdverts).m_bestRoute with
                    destination := (recvAll (PeriodicUpdate sampleStart 1) sampleAdverts).m_targetAddress }))) :=
  ⟨by decide, by decide!, by decide,
    C12_respond sampleStart 1 sampleAdverts (by decide) (by decide!) (by decide)⟩


/-! ## Claims on the data plane -/

/-- C13: for every outgoing packet (in particular one addressed to the sink) on a node
with at least one LEACH interface, in the build of the source as it stands (no `DA`
macro): if the routing table has a route to the destination, `RouteOutput` appends
exactly one (now, deadline of the packet's frame header) entry to the timeline and
exactly one timestamp `now` to the transmission list and returns that route; if it has
none, `RouteOutput` leaves both lists unchanged and returns a loopback route whose
destination is the packet's destination and whose gateway is 127.0.0.1. -/
theorem C13_route_output (w : LeachWire) (st : Statics)
    (s : RoutingProtocol) (now : Time) (p : Packet) (header : Ipv4Header) (oif : Option Nat)
    (hiface : s.m_socketAddresses ≠ []) :
    match RoutingTable.LookupRoute s.m_routingTable header.destination with
    | some rt =>
      (RouteOutput Build.asShipped w st s now p header oif).1 = some (routeOf s rt)
      ∧ (RouteOutput Build.asShipped w st s now p header oif).2.2.1.timeline
          = s.timeline ++
              [{ begin := now,
                 end_ := (w.Deserialize (p.bytes.take w.GetSerializedSize)).deadline }]
      ∧ (RouteOutput Build.asShipped w st s now p header oif).2.2.1.tx_time
          = s.tx_time ++ [now]
    | none =>
      (RouteOutput Build.asShipped w st s now p header oif).1
          = some (LoopbackRoute s header oif)
      ∧ (LoopbackRoute s header oif).destination = header.destination
      ∧ (LoopbackRoute s header oif).gateway = 2130706433
      ∧ (RouteOutput Build.asShipped w st s now p header oif).2.2.1.timeline = s.timeline
      ∧ (RouteOutput Build.asShipped w st s now p header oif).2.2.1.tx_time = s.tx_time := by
  have hne : s.m_socketAddresses.isEmpty = false := by
    cases hs : s.m_socketAddresses with
    | nil => exact absurd hs hiface
    | cons a l => rfl
  unfold RouteOutput
  simp only [hne, Build.asShipped, Bool.false_eq_true, if_false]
  cases hl : RoutingTable.LookupRoute s.m_routingTable header.destination with
  | some rt => exact ⟨rfl, rfl, rfl⟩
  | none => exact ⟨rfl, rfl, rfl, rfl, rfl⟩

/-- Witness of C13: a data packet to the sink on `sampleRouted` at clock value 5. -/
theorem C13_route_output_witness :
    sampleRouted.m_socketAddresses ≠ []
    ∧ (match RoutingTable.LookupRoute sampleRouted.m_routingTable
          sampleDataHeader.destination with
      | some rt =>
        (RouteOutput Build.asShipped sampleWire sampleStatics sampleRouted 5 ownPacket
            sampleDataHeader none).1 = some (routeOf sampleRouted rt)
        ∧ (RouteOutput Build.asShipped sampleWire sampleStatics sampleRouted 5 ownPacket
            sampleDataHeader none).2.2.1.timeline
            = sampleRouted.timeline ++
                [{ begin := 5,
                   end_ := (sampleWire.Deserialize
                      (ownPacket.bytes.take sampleWire.GetSerializedSize)).deadline }]
        ∧ (RouteOutput Build.asShipped sampleWire sampleStatics sampleRouted 5 ownPacket
            sampleDataHeader none).2.2.1.tx_time = sampleRouted.tx_time ++ [5]
      | none =>
        (RouteOutput Build.asShipped sampleWire sampleStatics sampleRouted 5 ownPacket
            sampleDataHeader none).1 = some (LoopbackRoute sampleRouted sampleDataHeader none)
        ∧ (LoopbackRoute sampleRouted sampleDataHeader none).destination
            = sampleDataHeader.destination
        ∧ (LoopbackRoute sampleRouted sampleDataHeader none).gateway = 2130706433
        ∧ (RouteOutput Build.asShipped sampleWire sampleStatics sampleRouted 5 ownPacket
            sampleDataHeader none).2.2.1.timeline = sampleRouted.timeline
        ∧ (RouteOutput Build.asShipped sampleWire sampleStatics sampleRouted 5 ownPacket
            sampleDataHeader none).2.2.1.tx_time = sampleRouted.tx_time) :=
  ⟨List.cons_ne_nil _ _,
    C13_route_output sampleWire sampleStatics sampleRouted 5 ownPacket
      sampleDataHeader none (List.cons_ne_nil _ _)⟩


theorem RouteInput_third (build : Build) (w : LeachWire) (env : Ipv4Env)
    (s : RoutingProtocol) (now : Time) (p : Packet) (header : Ipv4Header) (idev ucb : Nat)
    (lcb : Option Nat) (ecb : Nat)
    (hiface : ∃ j ∈ s.m_socketAddresses, j.interface = idev)
    (hlo : idev ≠ m_lo)
    (hmulti : IsMulticast header.destination = false)
    (hbroad : IsBroadcast header.destination = false)
    (hother : ∀ j ∈ s.m_socketAddresses,
      header.source ≠ j.iface.local_ ∧ header.destination ≠ j.iface.broadcast)
    (hthird : env.IsDestinationAddress header.destination idev = false) :
    RouteInput build w env s now p header idev ucb lcb ecb =
      if env.IsForwarding idev = false then
        (true, s, [Action.error ecb p header SocketErrno.ERROR_NOROUTETOHOST])
      else
        match RoutingTable.LookupRoute s.m_routingTable header.destination with
        | some toDst =>
          match RoutingTable.LookupRoute s.m_routingTable toDst.nextHop with
          | some ne =>
            if build.DA then (false, EnqueuePacket w s now p header, [])
            else (true, s, [Action.unicastForward ucb (routeOf s ne) p header])
          | none => RouteInput.noRoute build s p header ucb
        | none => RouteInput.noRoute build s p header ucb := by
  have hne : s.m_socketAddresses.isEmpty = false := by
    obtain ⟨j, hj, _⟩ := hiface
    cases hs : s.m_socketAddresses with
    | nil => rw [hs] at hj; simp at hj
    | cons a l => rfl
  have hany : s.m_socketAddresses.any (fun j => decide (header.source = j.iface.local_))
      = false := by
    rw [List.any_eq_false]
    intro j hj
    simpa using (hother j hj).1
  have hfind : s.m_socketAddresses.find?
      (fun j => decide (j.interface = idev)
        && (decide (header.destination = j.iface.broadcast) || IsBroadcast header.destination))
      = none := by
    rw [List.find?_eq_none]
    intro j hj
    have := (hother j hj).2
    simp [this, hbroad]
  unfold RouteInput
  simp only [hne, hmulti, hlo, hany, hfind, hthird, Bool.false_eq_true, if_false]


/-- C14: for every unicast packet from another node addressed to a third node, received
on a non-loopback LEACH interface with forwarding enabled, in the build without `DA`:
`RouteInput` invokes the unicast-forward callback immediately, exactly once, if and only
if the routing table holds a route to the destination and a route to that route's next
hop; otherwise it invokes no forward callback at that moment and appends exactly one
entry, bound to a loopback route with gateway 127.0.0.1, to the deferred list (and arms
the retry 100 ms later). -/
theorem C14_route_input_forward (w : LeachWire) (env : Ipv4Env) (s : RoutingProtocol)
    (now : Time) (p : Packet) (header : Ipv4Header) (idev ucb : Nat) (lcb : Option Nat)
    (ecb : Nat)
    (hiface : ∃ j ∈ s.m_socketAddresses, j.interface = idev)
    (hlo : idev ≠ m_lo)
    (hmulti : IsMulticast header.destination = false)
    (hbroad : IsBroadcast header.destination = false)
    (hother : ∀ j ∈ s.m_socketAddresses,
      header.source ≠ j.iface.local_ ∧ header.destination ≠ j.iface.broadcast)
    (hthird : env.IsDestinationAddress header.destination idev = false)
    (hforward : env.IsForwarding idev = true) :
    ((RouteInput Build.asShipped w env s now p header idev ucb lcb ecb).2.2.any
          Action.isForward = true ↔
        ∃ toDst ne, RoutingTable.LookupRoute s.m_routingTable header.destination = some toDst
          ∧ RoutingTable.LookupRoute s.m_routingTable toDst.nextHop = some ne)
    ∧ ((∃ toDst ne, RoutingTable.LookupRoute s.m_routingTable header.destination = some toDst
          ∧ RoutingTable.LookupRoute s.m_routingTable toDst.nextHop = some ne
          ∧ RouteInput Build.asShipped w env s now p header idev ucb lcb ecb
              = (true, s, [Action.unicastForward ucb (routeOf s ne) p header]))
        ∨ ((¬ ∃ toDst ne,
              RoutingTable.LookupRoute s.m_routingTable header.destination = some toDst
              ∧ RoutingTable.LookupRoute s.m_routingTable toDst.nextHop = some ne)
          ∧ (RouteInput Build.asShipped w env s now p header idev ucb lcb ecb).2.2
              = [Action.schedule (MilliSeconds 100) Timer.autoDequeueNoDA]
          ∧ (RouteInput Build.asShipped w env s now p header idev ucb lcb ecb).2.1.DeferredQueue
              = s.DeferredQueue ++
                  [DeferredPack.mk ucb
                    { destination := header.destination, source := header.source,
                      gateway := 2130706433, outputDevice := m_lo } p header])) := by
  rw [RouteInput_third Build.asShipped w env s now p header idev ucb lcb ecb hiface hlo hmulti
    hbroad hother hthird]
  simp only [hforward, Bool.true_eq_false, if_false]
  have hdefer : RouteInput.noRoute Build.asShipped s p header ucb
      = (false,
         { s with DeferredQueue := s.DeferredQueue ++
            [{ ucb := ucb,
               rt := { destination := header.destination, source := header.source,
                       gateway := 2130706433, outputDevice := m_lo },
               p := p, header := header }] },
         [Action.schedule (MilliSeconds 100) Timer.autoDequeueNoDA]) := rfl
  cases h1 : RoutingTable.LookupRoute s.m_routingTable header.destination with
  | none =>
    have hno : ¬ ∃ toDst ne, (none : Option RoutingTableEntry) = some toDst
        ∧ RoutingTable.LookupRoute s.m_routingTable toDst.nextHop = some ne := by
      rintro ⟨_, _, h, _⟩
      cases h
    simp only [hdefer]
    refine ⟨⟨fun h => ?_, fun h => absurd h hno⟩, Or.inr ⟨hno, by trivial, by trivial⟩⟩
    simp [Action.isForward] at h
  | some toDst =>
    simp only []
    cases h2 : RoutingTable.LookupRoute s.m_routingTable toDst.nextHop with
    | none =>
      have hno : ¬ ∃ toDst2 ne, some toDst = some toDst2
          ∧ RoutingTable.LookupRoute s.m_routingTable toDst2.nextHop = some ne := by
        rintro ⟨t2, ne, h, hn⟩
        cases h
        rw [h2] at hn
        cases hn
      simp only [hdefer]
      refine ⟨⟨fun h => ?_, fun h => absurd h hno⟩, Or.inr ⟨hno, by trivial, by trivial⟩⟩
      simp [Action.isForward] at h
    | some ne =>
      have hyes : ∃ toDst2 ne2, some toDst = some toDst2
          ∧ RoutingTable.LookupRoute s.m_routingTable toDst2.nextHop = some ne2 :=
        ⟨toDst, ne, rfl, h2⟩
      have hb : Build.asShipped.DA = false := rfl
      simp only [hb, Bool.false_eq_true, if_false]
      refine ⟨⟨fun _ => hyes, fun _ => ?_⟩, Or.inl ⟨toDst, ne, rfl, h2, by trivial⟩⟩
      simp [Action.isForward]

/-- Witness of C14: a data packet from 10.1.1.7 to the sink received by `sampleRouted` on
interface 1. -/
theorem C14_route_input_forward_witness :
    (∃ j ∈ sampleRouted.m_socketAddresses, j.interface = 1)
    ∧ 1 ≠ m_lo
    ∧ IsMulticast sampleDataHeader.destination = false
    ∧ IsBroadcast sampleDataHeader.destination = false
    ∧ (∀ j ∈ sampleRouted.m_socketAddresses,
        sampleDataHeader.source ≠ j.iface.local_ ∧ sampleDataHeader.destination ≠ j.iface.broadcast)
    ∧ sampleEnv.IsDestinationAddress sampleDataHeader.destination 1 = false
    ∧ sampleEnv.IsForwarding 1 = true
    ∧ (((RouteInput Build.asShipped sampleWire sampleEnv sampleRouted (5 : Time) ownPacket sampleDataHeader 1 11 (some 12) 13).2.2.any
          Action.isForward = true ↔
        ∃ toDst ne, RoutingTable.LookupRoute sampleRouted.m_routingTable sampleDataHeader.destination = some toDst
          ∧ RoutingTable.LookupRoute sampleRouted.m_routingTable toDst.nextHop = some ne)
    ∧ ((∃ toDst ne, RoutingTable.LookupRoute sampleRouted.m_routingTable sampleDataHeader.destination = some toDst
          ∧ RoutingTable.LookupRoute sampleRouted.m_routingTable toDst.nextHop = some ne
          ∧ RouteInput Build.asShipped sampleWire sampleEnv sampleRouted (5 : Time) ownPacket sampleDataHeader 1 11 (some 12) 13
              = (true, sampleRouted, [Action.unicastForward 11 (routeOf sampleRouted ne) ownPacket sampleDataHeader]))
        ∨ ((¬ ∃ toDst ne,
              RoutingTable.LookupRoute sampleRouted.m_routingTable sampleDataHeader.destination = some toDst
              ∧ RoutingTable.LookupRoute sampleRouted.m_routingTable toDst.nextHop = some ne)
          ∧ (RouteInput Build.asShipped sampleWire sampleEnv sampleRouted (5 : Time) ownPacket sampleDataHeader 1 11 (some 12) 13).2.2
              = [Action.schedule (MilliSeconds 100) Timer.autoDequeueNoDA]
          ∧ (RouteInput Build.asShipped sampleWire sampleEnv sampleRouted (5 : Time) ownPacket sampleDataHeader 1 11 (some 12) 13).2.1.DeferredQueue
              = sampleRouted.DeferredQueue ++
                  [DeferredPack.mk 11
                    { destination := sampleDataHeader.destination,
                      source := sampleDataHeader.source,
                      gateway := 2130706433, outputDevice := m_lo } ownPacket
                    sampleDataHeader]))) :=
  ⟨⟨_, List.mem_cons_self _ _, rfl⟩, by decide, by decide, by decide, by decide, rfl, rfl,
    C14_route_input_forward sampleWire sampleEnv sampleRouted 5 ownPacket sampleDataHeader
      1 11 (some 12) 13 ⟨_, List.mem_cons_self _ _, rfl⟩ (by decide) (by decide) (by decide)
      (by decide) rfl rfl⟩

/-- C15 (as stated) fails: `sampleRouted` holds a route to the sink and a route to that
route's next hop; with forwarding disabled on the input interface, a unicast packet from
10.1.1.7 to the sink received on interface 1 is answered by the error callback with the
no-route-to-host error all the same. -/
theorem C15_counterexample :
    (∃ j ∈ sampleRouted.m_socketAddresses, j.interface = 1)
    ∧ 1 ≠ m_lo
    ∧ IsMulticast sampleDataHeader.destination = false
    ∧ IsBroadcast sampleDataHeader.destination = false
    ∧ (∀ j ∈ sampleRouted.m_socketAddresses,
        sampleDataHeader.source ≠ j.iface.local_ ∧ sampleDataHeader.destination ≠ j.iface.broadcast)
    ∧ sampleEnvNoForward.IsDestinationAddress sampleDataHeader.destination 1 = false
    ∧ sampleEnvNoForward.IsForwarding 1 = false
    ∧ (∃ toDst ne,
        RoutingTable.LookupRoute sampleRouted.m_routingTable sampleDataHeader.destination
          = some toDst
        ∧ RoutingTable.LookupRoute sampleRouted.m_routingTable toDst.nextHop = some ne)
    ∧ (RouteInput Build.asShipped sampleWire sampleEnvNoForward sampleRouted 5 ownPacket
          sampleDataHeader 1 11 (some 12) 13).2.2
        = [Action.error 13 ownPacket sampleDataHeader SocketErrno.ERROR_NOROUTETOHOST] :=
  ⟨⟨_, List.mem_cons_self _ _, rfl⟩, by decide, by decide, by decide, by decide, rfl, rfl,
    ⟨_, _, rfl, rfl⟩, rfl⟩

/-- C15 (amended): for every unicast packet from another node addressed to a third node
and received on a non-loopback LEACH interface, `RouteInput` signals the
no-route-to-host error through the error callback exactly when forwarding is disabled on
the input interface, whether or not the routing table holds a route to the destination
and to its next hop; with forwarding enabled no error is signalled. -/
theorem C15_route_input_error (build : Build) (w : LeachWire) (env : Ipv4Env)
    (s : RoutingProtocol) (now : Time) (p : Packet) (header : Ipv4Header) (idev ucb : Nat)
    (lcb : Option Nat) (ecb : Nat)
    (hiface : ∃ j ∈ s.m_socketAddresses, j.interface = idev)
    (hlo : idev ≠ m_lo)
    (hmulti : IsMulticast header.destination = false)
    (hbroad : IsBroadcast header.destination = false)
    (hother : ∀ j ∈ s.m_socketAddresses,
      header.source ≠ j.iface.local_ ∧ header.destination ≠ j.iface.broadcast)
    (hthird : env.IsDestinationAddress header.destination idev = false) :
    ((RouteInput build w env s now p header idev ucb lcb ecb).2.2.any Action.isError = true ↔
        env.IsForwarding idev = false)
    ∧ (env.IsForwarding idev = true
        ∨ RouteInput build w env s now p header idev ucb lcb ecb
            = (true, s, [Action.error ecb p header SocketErrno.ERROR_NOROUTETOHOST])) := by
  rw [RouteInput_third build w env s now p header idev ucb lcb ecb hiface hlo hmulti
    hbroad hother hthird]
  have hdefer : (RouteInput.noRoute build s p header ucb).2.2.any Action.isError = false := by
    unfold RouteInput.noRoute
    cases build.DA <;> simp [EnqueueForNoDA, Action.isError]
  cases hf : env.IsForwarding idev with
  | false =>
    simp only [if_true]
    exact ⟨⟨fun _ => by trivial, fun _ => by simp [Action.isError]⟩, Or.inr (by trivial)⟩
  | true =>
    simp only [Bool.true_eq_false, if_false]
    refine ⟨⟨fun h => ?_, fun h => by cases h⟩, Or.inl (by trivial)⟩
    exfalso
    cases h1 : RoutingTable.LookupRoute s.m_routingTable header.destination with
    | none =>
      rw [h1] at h
      simp only [hdefer] at h
      cases h
    | some toDst =>
      rw [h1] at h
      simp only [] at h
      cases h2 : RoutingTable.LookupRoute s.m_routingTable toDst.nextHop with
      | none =>
        rw [h2] at h
        simp only [hdefer] at h
        cases h
      | some ne =>
        rw [h2] at h
        cases hb : build.DA <;> simp [hb, Action.isError] at h

/-- Witness of the amended C15: the packet of the counterexample, forwarding disabled. -/
theorem C15_route_input_error_witness :
    (∃ j ∈ sampleRouted.m_socketAddresses, j.interface = 1)
    ∧ 1 ≠ m_lo
    ∧ IsMulticast sampleDataHeader.destination = false
    ∧ IsBroadcast sampleDataHeader.destination = false
    ∧ (∀ j ∈ sampleRouted.m_socketAddresses,
        sampleDataHeader.source ≠ j.iface.local_ ∧ sampleDataHeader.destination ≠ j.iface.broadcast)
    ∧ sampleEnvNoForward.IsDestinationAddress sampleDataHeader.destination 1 = false
    ∧ (((RouteInput Build.asShipped sampleWire sampleEnvNoForward sampleRouted (5 : Time) ownPacket sampleDataHeader 1 11 (some 12) 13).2.2.any Action.isError = true ↔
        sampleEnvNoForward.IsForwarding 1 = false)
    ∧ (sampleEnvNoForward.IsForwarding 1 = true
        ∨ RouteInput Build.asShipped sampleWire sampleEnvNoForward sampleRouted (5 : Time) ownPacket sampleDataHeader 1 11 (some 12) 13
            = (true, sampleRouted, [Action.error 13 ownPacket sampleDataHeader SocketErrno.ERROR_NOROUTETOHOST]))) :=
  ⟨⟨_, List.mem_cons_self _ _, rfl⟩, by decide, by decide, by decide, by decide, rfl,
    C15_route_input_error Build.asShipped sampleWire sampleEnvNoForward sampleRouted 5
      ownPacket sampleDataHeader 1 11 (some 12) 13 ⟨_, List.mem_cons_self _ _, rfl⟩
      (by decide) (by decide) (by decide) (by decide) rfl⟩


/-! ## Claims on the sink -/

theorem RecvLeach_sink (s : RoutingProtocol) (m : ControlMsg) (h : s.isSink = true) :
    RecvLeach s m.sender m.receiver m.leachHeader = s := by
  unfold RecvLeach
  rw [if_pos h]

theorem Node_step_sink (n : Node) (e : NodeEvent) (hsink : n.proto.isSink = true)
    (hpending : n.pending = []) : Node.step n e = n := by
  cases e with
  | fire t prob =>
    simp only [Node.step, hpending, List.not_mem_nil, if_false]
  | recv m =>
    simp only [Node.step, RecvLeach_sink n.proto m hsink]

theorem Node_run_sink :
    ∀ (evs : List NodeEvent) (n : Node), n.proto.isSink = true → n.pending = [] →
      Node.run n evs = n ∧ Node.ticksRun n evs = 0 := by
  intro evs
  induction evs with
  | nil => intro n _ _; exact ⟨rfl, rfl⟩
  | cons e evs ih =>
    intro n hsink hpending
    have hstep := Node_step_sink n e hsink hpending
    have hrun : Node.run n (e :: evs) = Node.run (Node.step n e) evs := rfl
    obtain ⟨h1, h2⟩ := ih n hsink hpending
    refine ⟨by rw [hrun, hstep, h1], ?_⟩
    simp only [Node.ticksRun, hstep, h2, hpending, List.not_mem_nil, if_false]
    cases e with
    | fire t prob => cases t <;> rfl
    | recv m => rfl

/-- C16: on a sink node (main address equal to the sink address), after `Start` and any
sequence of timer expiries and control messages, the best head address, the best squared
distance, the best route and the cluster member list are the ones the node started
with, the periodic election tick has never run (no periodic timer is ever armed, the
round counter keeps its value), and receiving one more control message (head
advertisement or join) leaves the whole protocol state unchanged. -/
theorem C16_sink_passive (s0 : RoutingProtocol) (jitter : Nat) (evs : List NodeEvent)
    (m : ControlMsg) (hmain : s0.m_mainAddress = sinkAddressConst) :
    (Node.run (Node.start s0 jitter) evs).proto.isSink = true
    ∧ (Node.run (Node.start s0 jitter) evs).proto.m_targetAddress = s0.m_targetAddress
    ∧ (Node.run (Node.start s0 jitter) evs).proto.m_dist = s0.m_dist
    ∧ (Node.run (Node.start s0 jitter) evs).proto.m_bestRoute = s0.m_bestRoute
    ∧ (Node.run (Node.start s0 jitter) evs).proto.m_clusterMember = s0.m_clusterMember
    ∧ (Node.run (Node.start s0 jitter) evs).proto.Round = s0.Round
    ∧ (Node.run (Node.start s0 jitter) evs).pending = []
    ∧ Node.ticksRun (Node.start s0 jitter) evs = 0
    ∧ RecvLeach (Node.run (Node.start s0 jitter) evs).proto m.sender m.receiver m.leachHeader
        = (Node.run (Node.start s0 jitter) evs).proto := by
  have hstart : Node.start s0 jitter
      = { proto := { s0 with m_sinkAddress := sinkAddressConst, isSink := true },
          pending := [] } := by
    unfold Node.start Start
    simp only [hmain, if_true]
    rfl
  obtain ⟨hrun, hticks⟩ := Node_run_sink evs (Node.start s0 jitter)
    (by rw [hstart]) (by rw [hstart])
  rw [hrun, hticks, hstart]
  exact ⟨rfl, rfl, rfl, rfl, rfl, rfl, rfl, rfl, RecvLeach_sink _ m rfl⟩

/-- Witness of C16: the sink 10.1.1.1 offered timer expiries of every kind, a head
advertisement and a join. -/
theorem C16_sink_passive_witness :
    (RoutingProtocol.init sinkAddressConst).m_mainAddress = sinkAddressConst
    ∧ ((Node.run (Node.start (RoutingProtocol.init sinkAddressConst) 10)
          sampleNodeEvents).proto.isSink = true
      ∧ (Node.run (Node.start (RoutingProtocol.init sinkAddressConst) 10)
          sampleNodeEvents).proto.m_targetAddress
          = (RoutingProtocol.init sinkAddressConst).m_targetAddress
      ∧ (Node.run (Node.start (RoutingProtocol.init sinkAddressConst) 10)
          sampleNodeEvents).proto.m_dist = (RoutingProtocol.init sinkAddressConst).m_dist
      ∧ (Node.run (Node.start (RoutingProtocol.init sinkAddressConst) 10)
          sampleNodeEvents).proto.m_bestRoute
          = (RoutingProtocol.init sinkAddressConst).m_bestRoute
      ∧ (Node.run (Node.start (RoutingProtocol.init sinkAddressConst) 10)
          sampleNodeEvents).proto.m_clusterMember
          = (RoutingProtocol.init sinkAddressConst).m_clusterMember
      ∧ (Node.run (Node.start (RoutingProtocol.init sinkAddressConst) 10)
          sampleNodeEvents).proto.Round = (RoutingProtocol.init sinkAddressConst).Round
      ∧ (Node.run (Node.start (RoutingProtocol.init sinkAddressConst) 10)
          sampleNodeEvents).pending = []
      ∧ Node.ticksRun (Node.start (RoutingProtocol.init sinkAddressConst) 10)
          sampleNodeEvents = 0
      ∧ RecvLeach (Node.run (Node.start (RoutingProtocol.init sinkAddressConst) 10)
            sampleNodeEvents).proto sampleJoin.sender sampleJoin.receiver
            sampleJoin.leachHeader
          = (Node.run (Node.start (RoutingProtocol.init sinkAddressConst) 10)
            sampleNodeEvents).proto) :=
  ⟨rfl, C16_sink_passive (RoutingProtocol.init sinkAddressConst) 10 sampleNodeEvents
    sampleJoin rfl⟩


/-! ## Claims on the routing table -/

/-- C18 (as stated) fails: a first fragment that carries the 8-byte UDP header and exactly
one 56-byte frame leaves zero bytes buffered for its identifier, and after
`EnqueuePacket` the store still holds an entry for that identifier (with an empty
buffer). -/
theorem C18_counterexample :
    (fragmentBytes sampleFullFrame).length = 56
    ∧ chainFind sampleFullFrame.p.uid
        ((RoutingProtocol.init 167837954).m_hash (sampleFullFrame.p.uid % 1021)) = none
    ∧ chainFind sampleFullFrame.p.uid
        ((EnqueuePacket sampleWire (RoutingProtocol.init 167837954) sampleFullFrame.now
            sampleFullFrame.p sampleFullFrame.header).m_hash (sampleFullFrame.p.uid % 1021))
        = some { uid := 7, p := { uid := 7, bytes := [] } } := by
  obtain ⟨_, _, _, hh⟩ := EnqueuePacket_fresh sampleWire rfl (RoutingProtocol.init 167837954)
    sampleFullFrame rfl
  refine ⟨by decide, rfl, ?_⟩
  rw [hh]
  have hrem : remainder (fragmentBytes sampleFullFrame) = [] := by decide
  rw [hrem]
  rfl

/-- C18 (amended): a reassembly entry is never removed from the store.  After
`EnqueuePacket` has processed a fragment (the identifier having no entry yet, or an
entry holding the bytes `b` left by earlier fragments), the store holds an entry for
that identifier whose buffer is what remains of the bytes after the last full frame:
`(|b| + |fragment|) mod 56` bytes, an empty buffer when the bytes are fully drained. -/
theorem C18_entry_kept (w : LeachWire) (hsize : w.GetSerializedSize + 16 = 56)
    (s : RoutingProtocol) (f : Fragment) (b : Option (List Nat))
    (hstate : chainFind f.p.uid (s.m_hash (f.p.uid % 1021))
      = b.map (fun bytes => { uid := f.p.uid, p := { uid := f.p.uid, bytes := bytes } })) :
    chainFind f.p.uid ((EnqueuePacket w s f.now f.p f.header).m_hash (f.p.uid % 1021))
        = some { uid := f.p.uid,
                 p := { uid := f.p.uid,
                        bytes := remainder (b.getD [] ++ fragmentBytes f) } }
    ∧ (remainder (b.getD [] ++ fragmentBytes f)).length
        = (b.getD [] ++ fragmentBytes f).length % 56
    ∧ chainFind f.p.uid ((EnqueuePacket w s f.now f.p f.header).m_hash (f.p.uid % 1021))
        ≠ none := by
  have hfound : chainFind f.p.uid
      ((EnqueuePacket w s f.now f.p f.header).m_hash (f.p.uid % 1021))
        = some { uid := f.p.uid,
                 p := { uid := f.p.uid,
                        bytes := remainder (b.getD [] ++ fragmentBytes f) } } := by
    cases b with
    | none =>
      obtain ⟨_, _, _, hh⟩ := EnqueuePacket_fresh w hsize s f hstate
      rw [hh]
      rfl
    | some bytes =>
      obtain ⟨_, _, _, hh⟩ := EnqueuePacket_stored w hsize s f bytes hstate
      rw [hh]
      rfl
  refine ⟨hfound, remainder_length _, ?_⟩
  rw [hfound]
  exact Option.some_ne_none _

/-- Witness of the amended C18: the fragment of the counterexample on a freshly started
node. -/
theorem C18_entry_kept_witness :
    sampleWire.GetSerializedSize + 16 = 56
    ∧ chainFind sampleFullFrame.p.uid
        ((RoutingProtocol.init 167837954).m_hash (sampleFullFrame.p.uid % 1021))
        = (none : Option (List Nat)).map
            (fun bytes => { uid := sampleFullFrame.p.uid,
                            p := { uid := sampleFullFrame.p.uid, bytes := bytes } })
    ∧ (chainFind sampleFullFrame.p.uid
          ((EnqueuePacket sampleWire (RoutingProtocol.init 167837954) sampleFullFrame.now
              sampleFullFrame.p sampleFullFrame.header).m_hash (sampleFullFrame.p.uid % 1021))
          = some { uid := sampleFullFrame.p.uid,
                   p := { uid := sampleFullFrame.p.uid,
                          bytes := remainder ((none : Option (List Nat)).getD []
                            ++ fragmentBytes sampleFullFrame) } }
      ∧ (remainder ((none : Option (List Nat)).getD [] ++ fragmentBytes sampleFullFrame)).length
          = ((none : Option (List Nat)).getD [] ++ fragmentBytes sampleFullFrame).length % 56
      ∧ chainFind sampleFullFrame.p.uid
          ((EnqueuePacket sampleWire (RoutingProtocol.init 167837954) sampleFullFrame.now
              sampleFullFrame.p sampleFullFrame.header).m_hash (sampleFullFrame.p.uid % 1021))
          ≠ none) :=
  ⟨rfl, rfl, C18_entry_kept sampleWire rfl (RoutingProtocol.init 167837954) sampleFullFrame
    none rfl⟩

/-! ## Claims on the header test -/

/-- The header test evaluated in the format of `sampleWire`: the packet has 80 bytes,
the header removed first carries the deadline of the header added last (2) and the
header removed next the deadline of the header added first (1). -/
theorem twoHeaders_sample :
    (twoHeaders sampleWire sampleHeaderA sampleHeaderB).GetSize = 80
    ∧ (Packet.RemoveLeachHeader sampleWire
          (twoHeaders sampleWire sampleHeaderA sampleHeaderB)).1.deadline = 2
    ∧ (Packet.RemoveLeachHeader sampleWire (Packet.RemoveLeachHeader sampleWire
          (twoHeaders sampleWire sampleHeaderA sampleHeaderB)).2).1.deadline = 1 := by
  refine ⟨by decide, by decide, by decide⟩


/-! ## Claims on the periodic tick -/

theorem PeriodicUpdate_table (s : RoutingProtocol) (prob : ℚ) :
    (PeriodicUpdate s prob).m_routingTable
        = RoutingTable.DeleteRoute
            (RoutingTable.DeleteRoute s.m_routingTable s.m_targetAddress) s.m_sinkAddress
    ∧ (PeriodicUpdate s prob).m_sinkAddress = s.m_sinkAddress
    ∧ (PeriodicUpdate s prob).m_mainAddress = s.m_mainAddress := by
  unfold PeriodicUpdate
  simp only []
  split <;> exact ⟨rfl, rfl, rfl⟩

theorem prepare_valid_iff (s : RoutingProtocol) :
    (PeriodicUpdate.prepare s).valid = true ↔ (s.Round % 10 = 0 ∨ s.valid = true) := by
  unfold PeriodicUpdate.prepare
  simp only []
  by_cases h : s.Round % 10 = 0
  · simp [h]
  · simp [h]

/-- C21: in every periodic tick the node becomes head if and only if the draw is below
the threshold `t` and the node is eligible when the draw is tested (the flag was set, or
the round counter is a multiple of 10); otherwise it is member for the round: it has no
target and the respond timer is armed.  A tick in which it becomes head clears the flag,
sets the target to the sink and arms the broadcast timer; `SendBroadcast`, the handler of
that timer, then adds the entry whose destination and next hop are both the sink: once
the timer armed by the tick has fired, the routing table resolves the sink to that entry.
Before the timer is armed the tick has deleted the routes to the previous target and to
the sink. -/
theorem C21_tick_role (s : RoutingProtocol) (prob prob2 : ℚ) (interval : Time)
    (jitter1 jitter2 : Nat) :
    ((PeriodicUpdate s prob).cluster_head_this_round = true ↔
        (prob < PeriodicUpdate.threshold s.Round ∧ (s.Round % 10 = 0 ∨ s.valid = true)))
    ∧ (if (PeriodicUpdate s prob).cluster_head_this_round = true then
        (PeriodicUpdate s prob).valid = false
        ∧ (PeriodicUpdate s prob).m_targetAddress = s.m_sinkAddress
        ∧ PeriodicUpdate.actions s prob interval jitter1 jitter2
            = [Action.schedule (MicroSeconds jitter1) Timer.broadcastClusterHead,
               Action.schedule (interval + MicroSeconds jitter2) Timer.periodicUpdate]
        ∧ RoutingTable.LookupRoute
            (Node.handle (PeriodicUpdate s prob) Timer.broadcastClusterHead prob2).1.m_routingTable
            s.m_sinkAddress = some (directSinkEntry s)
        ∧ (directSinkEntry s).destination = s.m_sinkAddress
        ∧ (directSinkEntry s).nextHop = s.m_sinkAddress
      else
        (PeriodicUpdate s prob).m_targetAddress = unsetAddress
        ∧ PeriodicUpdate.actions s prob interval jitter1 jitter2
            = [Action.schedule (MilliSeconds 100 + MicroSeconds jitter1)
                 Timer.respondToClusterHead,
               Action.schedule (interval + MicroSeconds jitter2) Timer.periodicUpdate])
    ∧ (PeriodicUpdate s prob).m_routingTable
        = RoutingTable.DeleteRoute
            (RoutingTable.DeleteRoute s.m_routingTable s.m_targetAddress) s.m_sinkAddress := by
  obtain ⟨htable, hsinkaddr, hmain⟩ := PeriodicUpdate_table s prob
  have hiff : (PeriodicUpdate s prob).cluster_head_this_round = true ↔
      (prob < PeriodicUpdate.threshold s.Round ∧ (s.Round % 10 = 0 ∨ s.valid = true)) := by
    rw [PeriodicUpdate_head_iff, prepare_valid_iff]
  refine ⟨hiff, ?_, htable⟩
  by_cases hc : (PeriodicUpdate s prob).cluster_head_this_round = true
  · rw [if_pos hc]
    have hcond := (PeriodicUpdate_head_iff s prob).mp hc
    refine ⟨PeriodicUpdate_valid_of_head s prob hc, ?_, ?_, ?_, rfl, rfl⟩
    · unfold PeriodicUpdate
      simp only []
      rw [if_pos hcond]
      rfl
    · unfold PeriodicUpdate.actions
      simp only []
      rw [if_pos hcond]
    · rw [LookupRoute_eq]
      show RoutingTable.LookupRouteWithInvalid
        (SendBroadcast (PeriodicUpdate s prob)).1.m_routingTable s.m_sinkAddress false = _
      unfold SendBroadcast
      simp only []
      rw [lookup_AddRoute, hsinkaddr, hmain]
      simp [directSinkEntry]
  · rw [if_neg hc]
    have hcond : ¬ (prob < PeriodicUpdate.threshold s.Round
        ∧ (PeriodicUpdate.prepare s).valid = true) :=
      fun h => hc ((PeriodicUpdate_head_iff s prob).mpr h)
    refine ⟨PeriodicUpdate_member_target s prob (by simpa using hc), ?_⟩
    unfold PeriodicUpdate.actions
    simp only []
    rw [if_neg hcond]


/-! ## Claims on the reception of control messages -/

theorem RecvLeach_join (s : RoutingProtocol) (m : ControlMsg) (hsink : s.isSink = false)
    (hjoin : m.leachHeader.address ≠ broadcastMarker) :
    RecvLeach s m.sender m.receiver m.leachHeader
      = { s with m_clusterMember := s.m_clusterMember ++ [m.leachHeader.address] } := by
  rw [RecvLeach_cases s m hsink, if_neg hjoin]

theorem recvAll_joins :
    ∀ (joins : List ControlMsg) (s : RoutingProtocol), s.isSink = false →
      (∀ j ∈ joins, j.leachHeader.address ≠ broadcastMarker) →
      recvAll s joins
        = { s with m_clusterMember :=
              s.m_clusterMember ++ joins.map (fun j => j.leachHeader.address) } := by
  intro joins
  induction joins with
  | nil => intro s _ _; simp [recvAll]
  | cons a rest ih =>
    intro s hsink hj
    have hstep : recvAll s (a :: rest)
        = recvAll (RecvLeach s a.sender a.receiver a.leachHeader) rest := rfl
    have hrest := ih { s with m_clusterMember := s.m_clusterMember ++ [a.leachHeader.address] }
      hsink (fun j h => hj j (List.mem_cons_of_mem _ h))
    rw [hstep, RecvLeach_join s a hsink (hj a (List.mem_cons_self _ _)), hrest]
    simp

/-- C22 (as stated) fails: after a periodic tick of the non-sink node `sampleMember`
(position (3, 4)), the first head advertisement it receives carries a position `10^51`
away along `x` (squared distance `10^102`, not below the `1e100` the tick resets the best
distance to) and is not recorded: the best head stays unset and the best distance stays
`1e100`. -/
theorem C22_counterexample :
    sampleMember.isSink = false
    ∧ (sampleAdvert (10 ^ 51 + 3) 4).leachHeader.address = broadcastMarker
    ∧ (RecvLeach (PeriodicUpdate sampleMember 1) (sampleAdvert (10 ^ 51 + 3) 4).sender
        (sampleAdvert (10 ^ 51 + 3) 4).receiver
        (sampleAdvert (10 ^ 51 + 3) 4).leachHeader).m_targetAddress = unsetAddress
    ∧ (RecvLeach (PeriodicUpdate sampleMember 1) (sampleAdvert (10 ^ 51 + 3) 4).sender
        (sampleAdvert (10 ^ 51 + 3) 4).receiver
        (sampleAdvert (10 ^ 51 + 3) 4).leachHeader).m_targetAddress
        ≠ (sampleAdvert (10 ^ 51 + 3) 4).sender
    ∧ (RecvLeach (PeriodicUpdate sampleMember 1) (sampleAdvert (10 ^ 51 + 3) 4).sender
        (sampleAdvert (10 ^ 51 + 3) 4).receiver
        (sampleAdvert (10 ^ 51 + 3) 4).leachHeader).m_dist = 1e100 := by
  refine ⟨by decide, by decide, by decide!, by decide!, by decide!⟩

/-- C22 (amended): every periodic tick resets the best squared distance to the finite
value `1e100` and clears the cluster member list and the best route, so that the first
head advertisement a non-sink node receives after the tick (after any number of joins)
is recorded as its best head, with its distance and a route to the sink through its
sender, if and only if its squared distance to the node is below `1e100`; otherwise the
best head, distance and route stay as the tick left them. -/
theorem C22_tick_reset (s : RoutingProtocol) (prob : ℚ) (joins : List ControlMsg)
    (m : ControlMsg) (hsink : s.isSink = false)
    (hjoins : ∀ j ∈ joins, j.leachHeader.address ≠ broadcastMarker)
    (hmark : m.leachHeader.address = broadcastMarker) :
    (PeriodicUpdate s prob).m_dist = 1e100
    ∧ (PeriodicUpdate s prob).m_clusterMember = []
    ∧ (PeriodicUpdate s prob).m_bestRoute = RoutingTableEntry.blank
    ∧ (if advertDistance s.m_position m < 1e100 then
        (recvAll (PeriodicUpdate s prob) (joins ++ [m])).m_targetAddress = m.sender
        ∧ (recvAll (PeriodicUpdate s prob) (joins ++ [m])).m_dist
            = advertDistance s.m_position m
        ∧ (recvAll (PeriodicUpdate s prob) (joins ++ [m])).m_bestRoute
            = { destination := s.m_sinkAddress, nextHop := m.sender, iface := m.receiver,
                flagValid := true, seqNo := 0, hopCount := 0 }
      else
        (recvAll (PeriodicUpdate s prob) (joins ++ [m])).m_targetAddress
            = (PeriodicUpdate s prob).m_targetAddress
        ∧ (recvAll (PeriodicUpdate s prob) (joins ++ [m])).m_dist = 1e100
        ∧ (recvAll (PeriodicUpdate s prob) (joins ++ [m])).m_bestRoute
            = RoutingTableEntry.blank) := by
  obtain ⟨hd, hp, hs, hc, hb⟩ := PeriodicUpdate_reset s prob
  obtain ⟨_, hsa, _⟩ := PeriodicUpdate_table s prob
  have hsink1 : (PeriodicUpdate s prob).isSink = false := by rw [hs]; exact hsink
  refine ⟨hd, hc, hb, ?_⟩
  have hrun : recvAll (PeriodicUpdate s prob) (joins ++ [m])
      = RecvLeach (recvAll (PeriodicUpdate s prob) joins) m.sender m.receiver
          m.leachHeader := by
    simp [recvAll, List.foldl_append]
  have hj := recvAll_joins joins (PeriodicUpdate s prob) hsink1 hjoins
  have f1 : (recvAll (PeriodicUpdate s prob) joins).isSink = false := by rw [hj]; exact hsink1
  have f2 : (recvAll (PeriodicUpdate s prob) joins).m_position = s.m_position := by
    rw [hj]; exact hp
  have f3 : (recvAll (PeriodicUpdate s prob) joins).m_dist = 1e100 := by rw [hj]; exact hd
  have f4 : (recvAll (PeriodicUpdate s prob) joins).m_sinkAddress = s.m_sinkAddress := by
    rw [hj]; exact hsa
  have f5 : (recvAll (PeriodicUpdate s prob) joins).m_bestRoute = RoutingTableEntry.blank := by
    rw [hj]; exact hb
  have f6 : (recvAll (PeriodicUpdate s prob) joins).m_targetAddress
      = (PeriodicUpdate s prob).m_targetAddress := by rw [hj]
  rw [hrun, RecvLeach_advert (recvAll (PeriodicUpdate s prob) joins) m f1 hmark, f2, f3, f4]
  by_cases hlt : advertDistance s.m_position m < 1e100
  · rw [if_pos hlt, if_pos hlt]
    exact ⟨rfl, rfl, rfl⟩
  · rw [if_neg hlt, if_neg hlt]
    exact ⟨f6, f3, f5⟩

/-- Witness of the amended C22: the member `sampleMember` (position (3, 4)), one join and
then an advertisement from the position (7, 1). -/
theorem C22_tick_reset_witness :
    sampleMember.isSink = false
    ∧ (∀ j ∈ [sampleJoin], j.leachHeader.address ≠ broadcastMarker)
    ∧ (sampleAdvert 7 1).leachHeader.address = broadcastMarker
    ∧ ((PeriodicUpdate sampleMember 1).m_dist = 1e100
      ∧ (PeriodicUpdate sampleMember 1).m_clusterMember = []
      ∧ (PeriodicUpdate sampleMember 1).m_bestRoute = RoutingTableEntry.blank
      ∧ (if advertDistance sampleMember.m_position (sampleAdvert 7 1) < 1e100 then
          (recvAll (PeriodicUpdate sampleMember 1)
              ([sampleJoin] ++ [sampleAdvert 7 1])).m_targetAddress = (sampleAdvert 7 1).sender
          ∧ (recvAll (PeriodicUpdate sampleMember 1)
              ([sampleJoin] ++ [sampleAdvert 7 1])).m_dist
              = advertDistance sampleMember.m_position (sampleAdvert 7 1)
          ∧ (recvAll (PeriodicUpdate sampleMember 1)
              ([sampleJoin] ++ [sampleAdvert 7 1])).m_bestRoute
              = { destination := sampleMember.m_sinkAddress,
                  nextHop := (sampleAdvert 7 1).sender,
                  iface := (sampleAdvert 7 1).receiver,
                  flagValid := true, seqNo := 0, hopCount := 0 }
        else
          (recvAll (PeriodicUpdate sampleMember 1)
              ([sampleJoin] ++ [sampleAdvert 7 1])).m_targetAddress
              = (PeriodicUpdate sampleMember 1).m_targetAddress
          ∧ (recvAll (PeriodicUpdate sampleMember 1)
              ([sampleJoin] ++ [sampleAdvert 7 1])).m_dist = 1e100
          ∧ (recvAll (PeriodicUpdate sampleMember 1)
              ([sampleJoin] ++ [sampleAdvert 7 1])).m_bestRoute
              = RoutingTableEntry.blank)) :=
  ⟨by decide, by decide, by decide,
    C22_tick_reset sampleMember 1 [sampleJoin] (sampleAdvert 7 1) (by decide) (by decide)
      (by decide)⟩

/-- C23: when a non-sink node receives a control message whose header address is not the
broadcast marker (a join), the cluster member list grows by exactly one element, the
address carried in the header, appended at the end; the best head address, the best
squared distance and the best route are unchanged (and so is the rest of the state). -/
theorem C23_join_recorded (s : RoutingProtocol) (m : ControlMsg) (hsink : s.isSink = false)
    (hjoin : m.leachHeader.address ≠ broadcastMarker) :
    (RecvLeach s m.sender m.receiver m.leachHeader).m_clusterMember
        = s.m_clusterMember ++ [m.leachHeader.address]
    ∧ (RecvLeach s m.sender m.receiver m.leachHeader).m_clusterMember.length
        = s.m_clusterMember.length + 1
    ∧ (RecvLeach s m.sender m.receiver m.leachHeader).m_targetAddress = s.m_targetAddress
    ∧ (RecvLeach s m.sender m.receiver m.leachHeader).m_dist = s.m_dist
    ∧ (RecvLeach s m.sender m.receiver m.leachHeader).m_bestRoute = s.m_bestRoute
    ∧ RecvLeach s m.sender m.receiver m.leachHeader
        = { s with m_clusterMember := s.m_clusterMember ++ [m.leachHeader.address] } := by
  rw [RecvLeach_join s m hsink hjoin]
  exact ⟨rfl, by simp, rfl, rfl, rfl, rfl⟩

/-- Witness of C23: the head `sampleHead` (two members) receives a join from 10.1.1.4. -/
theorem C23_join_recorded_witness :
    sampleHead.isSink = false
    ∧ sampleJoinToHead.leachHeader.address ≠ broadcastMarker
    ∧ (RecvLeach sampleHead sampleJoinToHead.sender sampleJoinToHead.receiver
          sampleJoinToHead.leachHeader).m_clusterMember
        = sampleHead.m_clusterMember ++ [sampleJoinToHead.leachHeader.address]
    ∧ (RecvLeach sampleHead sampleJoinToHead.sender sampleJoinToHead.receiver
          sampleJoinToHead.leachHeader).m_clusterMember.length
        = sampleHead.m_clusterMember.length + 1
    ∧ (RecvLeach sampleHead sampleJoinToHead.sender sampleJoinToHead.receiver
          sampleJoinToHead.leachHeader).m_targetAddress = sampleHead.m_targetAddress
    ∧ (RecvLeach sampleHead sampleJoinToHead.sender sampleJoinToHead.receiver
          sampleJoinToHead.leachHeader).m_dist = sampleHead.m_dist
    ∧ (RecvLeach sampleHead sampleJoinToHead.sender sampleJoinToHead.receiver
          sampleJoinToHead.leachHeader).m_bestRoute = sampleHead.m_bestRoute
    ∧ RecvLeach sampleHead sampleJoinToHead.sender sampleJoinToHead.receiver
          sampleJoinToHead.leachHeader
        = { sampleHead with
            m_clusterMember :=
              sampleHead.m_clusterMember ++ [sampleJoinToHead.leachHeader.address] } :=
  ⟨by decide, by decide,
    C23_join_recorded sampleHead sampleJoinToHead (by decide) (by decide)⟩

/-! ## Claims on the deferred packets -/

theorem autoDequeueLoop_eq :
    ∀ (q : List DeferredPack) (calls : List Action),
      autoDequeueLoop q calls
        = ([], calls ++ q.map
            (fun tmp => Action.unicastForward tmp.ucb tmp.rt tmp.p tmp.header)) := by
  intro q
  induction q with
  | nil => intro calls; simp [autoDequeueLoop]
  | cons tmp rest ih =>
    intro calls
    simp only [autoDequeueLoop]
    rw [ih]
    simp

theorem AutoDequeueNoDA_eq (s : RoutingProtocol) :
    AutoDequeueNoDA s
      = ({ s with DeferredQueue := [] },
         s.DeferredQueue.map
           (fun tmp => Action.unicastForward tmp.ucb tmp.rt tmp.p tmp.header)) := by
  unfold AutoDequeueNoDA
  simp only [autoDequeueLoop_eq, List.nil_append]

/-- C24: for every deferred list, `AutoDequeueNoDA` returns, having invoked the stored
forward callback exactly once for each deferred packet, in the order the packets were
deferred and with the route, packet and header stored with it, and leaves the deferred
list empty (the rest of the state is untouched); each call of `EnqueueForNoDA` appends
exactly one entry at the end of the list and schedules one `AutoDequeueNoDA` after
100 ms; a retry that follows hands over the packets deferred before and then the new
one. -/
theorem C24_deferred_retry (s : RoutingProtocol) (ucb : Nat) (rt : Ipv4Route) (p : Packet)
    (header : Ipv4Header) :
    (AutoDequeueNoDA s).2
        = s.DeferredQueue.map
            (fun tmp => Action.unicastForward tmp.ucb tmp.rt tmp.p tmp.header)
    ∧ (AutoDequeueNoDA s).2.length = s.DeferredQueue.length
    ∧ (AutoDequeueNoDA s).1 = { s with DeferredQueue := [] }
    ∧ (EnqueueForNoDA s ucb rt p header).1
        = { s with DeferredQueue := s.DeferredQueue ++ [DeferredPack.mk ucb rt p header] }
    ∧ (EnqueueForNoDA s ucb rt p header).1.DeferredQueue.length = s.DeferredQueue.length + 1
    ∧ (EnqueueForNoDA s ucb rt p header).2
        = [Action.schedule 100000000 Timer.autoDequeueNoDA]
    ∧ (AutoDequeueNoDA (EnqueueForNoDA s ucb rt p header).1).2
        = s.DeferredQueue.map
            (fun tmp => Action.unicastForward tmp.ucb tmp.rt tmp.p tmp.header)
          ++ [Action.unicastForward ucb rt p header] := by
  refine ⟨by rw [AutoDequeueNoDA_eq], by rw [AutoDequeueNoDA_eq]; simp,
    by rw [AutoDequeueNoDA_eq], rfl, ?_, ?_, ?_⟩
  · simp [EnqueueForNoDA]
  · simp [EnqueueForNoDA, MilliSeconds]
  · rw [AutoDequeueNoDA_eq]
    simp [EnqueueForNoDA]


/-! ## Claims on the extraction of a frame -/

/-- C25 (as stated) fails: from the one-frame buffer `sampleBuffer` (16 payload bytes of
value 5 after the header) `DeAggregate` yields a packet whose 16 bytes after the control
header are all zero, not the payload bytes of the buffer. -/
theorem C25_counterexample :
    56 ≤ sampleBuffer.GetSize
    ∧ (sampleBuffer.bytes.drop sampleWire.GetSerializedSize).take 16 = List.replicate 16 5
    ∧ (DeAggregate sampleWire sampleStart sampleBuffer).1.map
        (fun r => r.1.bytes.drop sampleWire.GetSerializedSize) = some (List.replicate 16 0)
    ∧ (DeAggregate sampleWire sampleStart sampleBuffer).1.map
        (fun r => r.1.bytes.take sampleWire.GetSerializedSize)
        = some (sampleBuffer.bytes.take sampleWire.GetSerializedSize) := by
  refine ⟨by decide, by decide, ?_, ?_⟩
  · rw [DeAggregate_ge sampleWire sampleStart sampleBuffer (by decide)]
    decide
  · rw [DeAggregate_ge sampleWire sampleStart sampleBuffer (by decide)]
    decide

/-- C25 (amended): with a control header of 40 bytes (frame = header + 16 = 56 bytes),
`DeAggregate` yields a frame if and only if the buffer holds at least 56 bytes.  When it
does, the buffer is shortened by exactly its first 56 bytes and keeps its identifier,
the header handed out is the one decoded from the front of the buffer, and the packet
handed out is that header, serialized again, followed by the 16 zero bytes of a new
packet (the 16 payload bytes of the buffer are discarded); the table of buffers is not
touched.  When it does not, nothing is yielded, the buffer is unchanged and it is stored
under its identifier. -/
theorem C25_deaggregate (w : LeachWire) (s : RoutingProtocol) (inp : Packet)
    (hsize : w.GetSerializedSize + 16 = 56) :
    ((DeAggregate w s inp).1.isSome = true ↔ 56 ≤ inp.GetSize)
    ∧ (if 56 ≤ inp.GetSize then
        (DeAggregate w s inp).1.map (fun r => r.2)
            = some (w.Deserialize (inp.bytes.take w.GetSerializedSize))
        ∧ (DeAggregate w s inp).1.map (fun r => r.1.bytes)
            = some (w.Serialize (w.Deserialize (inp.bytes.take w.GetSerializedSize))
                ++ List.replicate 16 0)
        ∧ (DeAggregate w s inp).2.1.bytes = inp.bytes.drop 56
        ∧ (DeAggregate w s inp).2.1.GetSize + 56 = inp.GetSize
        ∧ (DeAggregate w s inp).2.1.uid = inp.uid
        ∧ (DeAggregate w s inp).2.2.m_hash = s.m_hash
      else
        (DeAggregate w s inp).1.isNone = true
        ∧ (DeAggregate w s inp).2.1 = inp
        ∧ chainFind inp.uid ((DeAggregate w s inp).2.2.m_hash (inp.uid % 1021))
            = some { uid := inp.uid, p := inp }) := by
  by_cases h : 56 ≤ inp.GetSize
  · have hlen : 56 ≤ inp.bytes.length := h
    rw [if_pos h, DeAggregate_ge w s inp hlen]
    refine ⟨by simp [h], rfl, rfl, ?_, ?_, rfl, rfl⟩
    · simp only [List.drop_drop]
      rw [hsize]
    · simp only [Packet.GetSize, List.drop_drop, List.length_drop]
      omega
  · have hlen : inp.bytes.length < 56 := by
      simp only [Packet.GetSize] at h; omega
    rw [if_neg h, DeAggregate_lt w s inp hlen]
    refine ⟨by simp [h], rfl, rfl, ?_⟩
    simp only [Function.update_same]
    exact chainFind_chainStore inp.uid inp _

/-- Witness of the amended C25: the one-frame buffer `sampleBuffer` in the 40-byte format
of `sampleWire`. -/
theorem C25_deaggregate_witness :
    sampleWire.GetSerializedSize + 16 = 56
    ∧ (((DeAggregate sampleWire sampleStart sampleBuffer).1.isSome = true
          ↔ 56 ≤ sampleBuffer.GetSize)
      ∧ (if 56 ≤ sampleBuffer.GetSize then
          (DeAggregate sampleWire sampleStart sampleBuffer).1.map (fun r => r.2)
              = some (sampleWire.Deserialize
                  (sampleBuffer.bytes.take sampleWire.GetSerializedSize))
          ∧ (DeAggregate sampleWire sampleStart sampleBuffer).1.map (fun r => r.1.bytes)
              = some (sampleWire.Serialize (sampleWire.Deserialize
                  (sampleBuffer.bytes.take sampleWire.GetSerializedSize))
                  ++ List.replicate 16 0)
          ∧ (DeAggregate sampleWire sampleStart sampleBuffer).2.1.bytes
              = sampleBuffer.bytes.drop 56
          ∧ (DeAggregate sampleWire sampleStart sampleBuffer).2.1.GetSize + 56
              = sampleBuffer.GetSize
          ∧ (DeAggregate sampleWire sampleStart sampleBuffer).2.1.uid = sampleBuffer.uid
          ∧ (DeAggregate sampleWire sampleStart sampleBuffer).2.2.m_hash = sampleStart.m_hash
        else
          (DeAggregate sampleWire sampleStart sampleBuffer).1.isNone = true
          ∧ (DeAggregate sampleWire sampleStart sampleBuffer).2.1 = sampleBuffer
          ∧ chainFind sampleBuffer.uid
              ((DeAggregate sampleWire sampleStart sampleBuffer).2.2.m_hash
                (sampleBuffer.uid % 1021))
              = some { uid := sampleBuffer.uid, p := sampleBuffer })) :=
  ⟨by decide, C25_deaggregate sampleWire sampleStart sampleBuffer (by decide)⟩

/-! ## Claims on the cycle of ten ticks -/

theorem PeriodicUpdate_valid_of_member (s : RoutingProtocol) (prob : ℚ)
    (h : (PeriodicUpdate s prob).cluster_head_this_round = false) :
    (PeriodicUpdate s prob).valid = (PeriodicUpdate.prepare s).valid := by
  unfold PeriodicUpdate at h ⊢
  simp only [] at h ⊢
  split
  · rename_i hc
    rw [if_pos hc] at h
    simp at h
  · rfl

theorem PeriodicUpdate_last_tick (s : RoutingProtocol) (prob : ℚ) (h9 : s.Round % 10 = 9)
    (hv : s.valid = true) (hp : prob < 1) :
    (PeriodicUpdate s prob).cluster_head_this_round = true := by
  rw [PeriodicUpdate_head_iff, threshold_of_nine s.Round h9, prepare_valid_iff]
  exact ⟨lt_trans hp (by norm_num), Or.inr hv⟩

theorem headCount_eligible :
    ∀ (es : List Event) (s : RoutingProtocol), (s.Round % 10 = 0 ∨ s.valid = true) →
      s.Round % 10 + tickCount es = 10 → (∀ x ∈ tickDraws es, x < 1) →
      headCount s es = 1 := by
  intro es
  induction es with
  | nil =>
    intro s _ hb _
    simp only [tickCount] at hb
    have := Nat.mod_lt s.Round (show 10 > 0 by decide)
    omega
  | cons e es ih =>
    intro s hel hb hdraws
    cases e with
    | tick prob =>
      simp only [tickCount] at hb
      simp only [headCount]
      have hR := PeriodicUpdate_Round s prob
      have hprob : prob < 1 := hdraws prob (by simp [tickDraws])
      have hrest : ∀ x ∈ tickDraws es, x < 1 :=
        fun x hx => hdraws x (by simp [tickDraws, hx])
      cases hc : (PeriodicUpdate s prob).cluster_head_this_round with
      | true =>
        have hv := PeriodicUpdate_valid_of_head s prob hc
        have h0 : headCount (PeriodicUpdate s prob) es = 0 := by
          by_cases h9 : s.Round % 10 = 9
          · exact headCount_no_tick es _ (by omega)
          · exact headCount_not_eligible es _ hv (by rw [hR]; omega) (by rw [hR]; omega)
        rw [h0]
        simp
      | false =>
        have hprep : (PeriodicUpdate.prepare s).valid = true := (prepare_valid_iff s).mpr hel
        have hv : (PeriodicUpdate s prob).valid = true := by
          rw [PeriodicUpdate_valid_of_member s prob hc, hprep]
        have h9 : s.Round % 10 ≠ 9 := by
          intro h9
          have hhead : (PeriodicUpdate s prob).cluster_head_this_round = true := by
            rw [PeriodicUpdate_head_iff, threshold_of_nine s.Round h9]
            exact ⟨lt_trans hprob (by norm_num), hprep⟩
          rw [hc] at hhead
          exact Bool.noConfusion hhead
        have := ih (PeriodicUpdate s prob) (Or.inr hv) (by rw [hR]; omega) hrest
        rw [this]
        simp
    | recv sender receiver hd =>
      simp only [tickCount] at hb
      simp only [headCount]
      have hk := RecvLeach_valid s sender receiver hd
      exact ih _ (by rw [hk.1, hk.2]; exact hel) (by rw [hk.2]; exact hb)
        (fun x hx => hdraws x (by simpa [tickDraws] using hx))

theorem runEvents_Round :
    ∀ (es : List Event) (s : RoutingProtocol),
      (runEvents s es).Round = s.Round + tickCount es := by
  intro es
  induction es with
  | nil => intro s; rfl
  | cons e es ih =>
    intro s
    cases e with
    | tick prob =>
      have h := ih (PeriodicUpdate s prob)
      simp only [runEvents] at h
      simp only [runEvents, List.foldl_cons, Event.apply, tickCount]
      rw [h, PeriodicUpdate_Round]
      omega
    | recv sender receiver hd =>
      have h := ih (RecvLeach s sender receiver hd)
      simp only [runEvents] at h
      simp only [runEvents, List.foldl_cons, Event.apply, tickCount]
      rw [h, (RecvLeach_valid s sender receiver hd).2]

/-- C26 (as stated) fails: at the tick of the eligible node `sampleNinth` (round counter
19, `Round mod 10 = 9`) the threshold computed in `double` is not 1: it is `1 + 2^-52`,
above 1. -/
theorem C26_counterexample :
    sampleNinth.Round % 10 = 9
    ∧ sampleNinth.valid = true
    ∧ PeriodicUpdate.threshold sampleNinth.Round ≠ 1
    ∧ 1 < PeriodicUpdate.threshold sampleNinth.Round := by
  refine ⟨by decide, by decide, by decide!, by decide!⟩

/-- C26 (amended): for every sequence of random draws taken from [0,1), in a complete
cycle of 10 ticks that starts at a round counter `10c` (round counters `10c, ...,
10c+9`), interleaved with any control message receptions, the node becomes cluster head
in exactly one tick, and the cycle ends at the round counter `10c+10`, where the next
one starts; a node still eligible at the tick with `Round mod 10 = 9` is elected there
whatever the draw: the threshold computed in `double` is then `1 + 2^-52`, above 1, and
the draw is below 1. -/
theorem C26_one_head_per_cycle (s : RoutingProtocol) (es : List Event)
    (s9 : RoutingProtocol) (prob9 : ℚ)
    (hstart : s.Round % 10 = 0) (hticks : tickCount es = 10)
    (hdraws : ∀ x ∈ tickDraws es, 0 ≤ x ∧ x < 1)
    (hninth : s9.Round % 10 = 9) (heligible : s9.valid = true)
    (hdraw9 : 0 ≤ prob9 ∧ prob9 < 1) :
    headCount s es = 1
    ∧ (runEvents s es).Round = s.Round + 10
    ∧ PeriodicUpdate.threshold s9.Round = 1 + 1 / 2 ^ 52
    ∧ prob9 < PeriodicUpdate.threshold s9.Round
    ∧ (PeriodicUpdate s9 prob9).cluster_head_this_round = true := by
  have ht := threshold_of_nine s9.Round hninth
  refine ⟨?_, ?_, ht, by rw [ht]; exact lt_trans hdraw9.2 (by norm_num),
    PeriodicUpdate_last_tick s9 prob9 hninth heligible hdraw9.2⟩
  · exact headCount_eligible es s (Or.inl hstart) (by omega) (fun x hx => (hdraws x hx).2)
  · rw [runEvents_Round, hticks]

/-- Witness of the amended C26: a freshly started node and ten ticks whose draws are all
3/4 (it is head in the last tick only); the eligible node `sampleNinth` at round counter
19 with the draw 99/100. -/
theorem C26_one_head_per_cycle_witness :
    (RoutingProtocol.init 167837954).Round % 10 = 0
    ∧ tickCount sampleCycle = 10
    ∧ (∀ x ∈ tickDraws sampleCycle, 0 ≤ x ∧ x < 1)
    ∧ sampleNinth.Round % 10 = 9
    ∧ sampleNinth.valid = true
    ∧ (0 ≤ (99 / 100 : ℚ) ∧ (99 / 100 : ℚ) < 1)
    ∧ headCount (RoutingProtocol.init 167837954) sampleCycle = 1
    ∧ (runEvents (RoutingProtocol.init 167837954) sampleCycle).Round
        = (RoutingProtocol.init 167837954).Round + 10
    ∧ PeriodicUpdate.threshold sampleNinth.Round = 1 + 1 / 2 ^ 52
    ∧ (99 / 100 : ℚ) < PeriodicUpdate.threshold sampleNinth.Round
    ∧ (PeriodicUpdate sampleNinth (99 / 100)).cluster_head_this_round = true :=
  ⟨by decide, by decide, by decide!, by decide, by decide, by decide!,
    C26_one_head_per_cycle (RoutingProtocol.init 167837954) sampleCycle sampleNinth (99 / 100)
      (by decide) (by decide) (by decide!) (by decide) (by decide) (by decide!)⟩


/-! ## Claims on the backward induction of `OptTM` -/

theorem dmax_zero_le (x c : ℚ) (hc : 0 ≤ c) (hx : x ≤ c) : dmax 0 x ≤ c := by
  unfold dmax
  split
  · exact hc
  · exact hx

theorem log_ten_gt_one : 1 < Real.log (1 / 0.1) := by
  have h10 : (1 / 0.1 : ℝ) = 10 := by norm_num
  rw [h10, Real.lt_log_iff_exp_lt (by norm_num)]
  exact lt_trans Real.exp_one_lt_d9 (by norm_num)

theorem thresholdInit_eq_two (lambda : ℝ) (hlambda : 0 ≤ lambda) :
    ControlLimit.thresholdInit lambda = 2 := by
  unfold ControlLimit.thresholdInit
  have hL := log_ten_gt_one
  have hprod : 1 < Real.log (1 / 0.1) * (Real.log (1 / 0.1) + lambda) := by
    have h1 : 1 < Real.log (1 / 0.1) + lambda := by linarith
    have h0 : 0 < Real.log (1 / 0.1) := by linarith
    calc (1 : ℝ) = 1 * 1 := by ring
      _ < Real.log (1 / 0.1) * (Real.log (1 / 0.1) + lambda) :=
        mul_lt_mul hL (le_of_lt h1) (by norm_num) (le_of_lt h0)
  have hpos : 0 < 1 / (Real.log (1 / 0.1) * (Real.log (1 / 0.1) + lambda)) :=
    one_div_pos.mpr (by linarith)
  have hlt : 1 / (Real.log (1 / 0.1) * (Real.log (1 / 0.1) + lambda)) < 1 := by
    rw [div_lt_one (by linarith)]
    exact hprod
  rw [Nat.floor_eq_iff (by linarith)]
  constructor
  · push_cast; linarith
  · push_cast; linarith

/-- C29: for every generation rate `lambda >= 0` the static threshold of the threshold
policy, `floor (1/(ln(1/0.1)*(ln(1/0.1)+lambda)) + 2)`, equals 2: it does not depend on
the generation rate, and `ControlLimit` flushes if and only if at least two entries are
left by the expiry pass (deadline not earlier than `now`) or `now > 48.5 s`. -/
theorem C29_threshold_two (lambda : ℝ) (s : RoutingProtocol) (now : Time) (p : Packet)
    (hlambda : 0 ≤ lambda) :
    ControlLimit.thresholdInit lambda = 2
    ∧ ⌊1 / (Real.log (1 / 0.1) * (Real.log (1 / 0.1) + lambda)) + 2⌋₊ = 2
    ∧ ((ControlLimit (ControlLimit.thresholdInit lambda) s now p).1 = true ↔
        (2 ≤ (s.m_queue.filter (fun e => decide (now ≤ e.deadline))).length
          ∨ now > Seconds 48.5)) := by
  have h2 := thresholdInit_eq_two lambda hlambda
  refine ⟨h2, ?_, ?_⟩
  · have := h2
    unfold ControlLimit.thresholdInit at this
    exact this
  · have hk : (fun e : QueueEntry => decide (¬ e.deadline < now))
        = (fun e : QueueEntry => decide (now ≤ e.deadline)) := by
      funext e; simp
    rw [h2, ControlLimit_eq, hk, ite_fst_true, Seconds_cutoff]

/-- Witness of C29: the generation rate 4 and the head `sampleHead` at time 0. -/
theorem C29_threshold_two_witness :
    (0 : ℝ) ≤ 4
    ∧ ControlLimit.thresholdInit 4 = 2
    ∧ ⌊1 / (Real.log (1 / 0.1) * (Real.log (1 / 0.1) + (4 : ℝ))) + 2⌋₊ = 2
    ∧ ((ControlLimit (ControlLimit.thresholdInit 4) sampleHead 0 emptyPacket).1 = true ↔
        (2 ≤ (sampleHead.m_queue.filter (fun e => decide ((0 : Time) ≤ e.deadline))).length
          ∨ (0 : Time) > Seconds 48.5)) :=
  ⟨by norm_num, C29_threshold_two 4 sampleHead 0 emptyPacket (by norm_num)⟩


end Leach
